import Mathlib

/-!
Squid Game party game: turn cursor, game sequencer, outcome resolver.

A shallow embedding of `src/frontend/script.js`.

* JavaScript numbers that the game accumulates fractionally (`tugStrength`, the draws
  of `Math.random()`) are rationals; counters and indices are naturals or integers.
* `Math.random()` is an explicit argument of every function that draws.
* Mutable object state is passed explicitly: a method of `GameState` becomes a function
  returning the new state (and the returned value, when there is one).
* `undefined` read from an array is `none`.
-/

namespace SquidGame

/-! ## Data model -/

/-- A roster entry: the fields the start button handler gives it (`script.js`, lines
270-277), followed by the fields the turn handlers add to the player object later
(`bridgeState` and `lastChoice` in `startGlassBridge`, the `rlg_` fields in
`setupRedLightGreenLightMode`, `opponentStrength` in `handlePull`); before a handler
writes them they are `undefined`, here the default value (`none` for `bridgeState` and
`opponentStrength`). -/
structure Player where
  name : String
  alive : Bool := true
  position : Int := 0
  bridgeStep : Nat := 0
  tugStrength : ℚ := 0
  tugTurns : Nat := 0
  bridgeState : Option (List (Option String)) := none
  lastChoice : Option String := none
  rlg_attempts : Nat := 0
  rlg_timer : Int := 0
  rlg_eliminated : Bool := false
  opponentStrength : Option ℚ := none
deriving DecidableEq

/-- The fixed, ordered list of mini-games (`this.gameNames`). -/
def gameNames : List String := ["Red Light Green Light", "Glass Bridge", "Tug of War"]

/-- The mutable fields of `class GameState` that the game logic reads or writes. -/
structure GameState where
  players : List Player := []
  currentPlayerIndex : Nat := 0
  currentGameIndex : Nat := 0
  glassBridgeGuaranteedName : Option String := none
  /-- The game indices `idx` with `rulesShown[idx] = true`. -/
  rulesShown : List Nat := []
deriving DecidableEq

/-! ## Turn cursor and game sequencer (`class GameState`) -/

/-- The method `getCurrentPlayer`: `this.players[this.currentPlayerIndex]`, which is
`undefined` (here `none`) when the index is past the end. -/
def getCurrentPlayer (s : GameState) : Option Player :=
  s.players[s.currentPlayerIndex]?

/-- The method `getAlivePlayers`: `this.players.filter((p) => p.alive)`. -/
def getAlivePlayers (s : GameState) : List Player :=
  s.players.filter (fun p => p.alive)

/-- The `do ... while` loop of `nextPlayer`, entered with `currentPlayerIndex = i`.
One iteration increments the index; past the end it stores `0` and returns `false`;
otherwise it repeats while the player at the index is not alive and returns `true`
once it is. The result is the final index and the returned flag. -/
def nextPlayerLoop (players : List Player) (i : Nat) : Nat × Bool :=
  let j := i + 1
  if h : j ≥ players.length then (0, false)
  else if !(players[j]).alive then nextPlayerLoop players j
  else (j, true)
termination_by players.length - i
decreasing_by omega

/-- The method `nextPlayer`: the new state and the returned `hasNext` flag. -/
def nextPlayer (s : GameState) : GameState × Bool :=
  let r := nextPlayerLoop s.players s.currentPlayerIndex
  ({ s with currentPlayerIndex := r.1 }, r.2)

/-- The loop `while (i < players.length && !players[i].alive) i++` shared by `nextGame`
and `resetToFirstAlivePlayer`, entered with index `i`; the result is the final index. -/
def skipEliminated (players : List Player) (i : Nat) : Nat :=
  if h : i < players.length then
    if !(players[i]).alive then skipEliminated players (i + 1) else i
  else i
termination_by players.length - i
decreasing_by omega

/-- The method `nextGame`: increment the game index, then put the cursor on index 0
and skip eliminated players. -/
def nextGame (s : GameState) : GameState :=
  { s with
    currentGameIndex := s.currentGameIndex + 1
    currentPlayerIndex := skipEliminated s.players 0 }

/-- The method `isGameComplete`: `currentGameIndex >= gameNames.length`. -/
def isGameComplete (s : GameState) : Bool :=
  decide (s.currentGameIndex ≥ gameNames.length)

/-- The method `resetToFirstAlivePlayer`. -/
def resetToFirstAlivePlayer (s : GameState) : GameState :=
  { s with currentPlayerIndex := skipEliminated s.players 0 }

/-! ## Roster creation and results -/

/-- The roster built by the start button handler from the text of the name inputs:
an empty input gets the placeholder `"Player " + (i + 1)`. -/
def createRoster (inputs : List String) : List Player :=
  inputs.enum.map fun iv =>
    { name := if iv.2 = "" then "Player " ++ toString (iv.1 + 1) else iv.2
      alive := true
      position := 0
      bridgeStep := 0
      tugStrength := 0
      tugTurns := 0 }

/-- The expression `Math.floor(p.tugStrength || 0)`: a strength of `0` is falsy and is
replaced by `0`, then the floor is taken. -/
def floorStrength (p : Player) : Int :=
  ⌊(if p.tugStrength = 0 then (0 : ℚ) else p.tugStrength)⌋

/-- One row of the results screen: name, displayed strength, survivor flag. -/
structure ResultItem where
  name : String
  strength : Int
  survived : Bool
deriving DecidableEq

/-- The rows `showResults` appends, one per roster entry, in roster order. -/
def showResults (s : GameState) : List ResultItem :=
  s.players.map fun player =>
    { name := player.name, strength := floorStrength player, survived := player.alive }

/-! ## End-of-game filtering and the player/game transition -/

/-- The Tug of War block of `moveToNextPlayer` (lines 1494-1505): when some player is
alive, `maxStrength` is the maximum of the floored strengths of the alive players and
every alive player keeps `alive` exactly when its floored strength equals it. -/
def tugOfWarFilter (players : List Player) : List Player :=
  match (players.filter (fun p => p.alive)).map floorStrength with
  | [] => players
  | m :: ms =>
    let maxStrength := ms.foldl max m
    players.map fun p =>
      if p.alive then { p with alive := decide (floorStrength p = maxStrength) } else p

/-- What `moveToNextPlayer` hands control to. -/
inductive NextScreen where
  | showResults
  | startGame
deriving DecidableEq

/-- The function `moveToNextPlayer` (lines 1483-1524) on the game state. -/
def moveToNextPlayer (s : GameState) : GameState × NextScreen :=
  let r := nextPlayer s
  let s1 := r.1
  let hasNextPlayer := r.2
  if !hasNextPlayer then
    let justFinishedIndex := s1.currentGameIndex
    let s2 : GameState :=
      if justFinishedIndex = 2 then { s1 with players := tugOfWarFilter s1.players } else s1
    let s3 := resetToFirstAlivePlayer (nextGame s2)
    if (getAlivePlayers s3).length = 0 || isGameComplete s3 then
      (s3, NextScreen.showResults)
    else
      (s3, NextScreen.startGame)
  else
    (s1, NextScreen.startGame)

/-- The assignment `player.alive = false` that a turn handler makes on the player object
it holds, the roster entry at index `i`: in `eliminatePlayer` of Red Light Green Light
(line 598), `handleRedLightAction` (line 803), `handleBridgeChoice` (line 1166) and
`handlePull` (line 1449). The handler obtained the object from `getCurrentPlayer`, so
`i` is the cursor of that turn; an index past the end changes nothing. -/
def markEliminated (s : GameState) (i : Nat) : GameState :=
  { s with players := s.players.modify (fun p => { p with alive := false }) i }

/-! ## JavaScript numbers (IEEE 754 binary64) -/

/-- Rounding to the nearest integer, a tie going to the even neighbour. -/
def roundHalfEven (x : ℚ) : ℤ :=
  let f : ℤ := ⌊x⌋
  if x - f < 1 / 2 then f
  else if 1 / 2 < x - f then f + 1
  else if f % 2 = 0 then f else f + 1

/-- The spacing of the binary64 numbers at a nonzero rational `q`: `2 ^ (e - 52)` where
`2 ^ e ≤ |q| < 2 ^ (e + 1)`, and `2 ^ (-1074)` in the subnormal range below
`2 ^ (-1022)`. -/
def ulp (q : ℚ) : ℚ :=
  2 ^ (max (Int.log 2 |q|) (-1022) - 52)

/-- The binary64 number nearest to the rational `q`, a tie going to the even significand:
the value JavaScript gives to a numeric literal `q` and to an arithmetic operation whose
exact result is `q`. The numbers of the program are finite; a result of magnitude
`2 ^ 1024 - 2 ^ 970` or more, which JavaScript turns into `Infinity`, is outside the
range described. -/
def roundDouble (q : ℚ) : ℚ :=
  if q = 0 then 0 else (roundHalfEven (q / ulp q) : ℚ) * ulp q

/-- The value of a decimal literal of the source. -/
def jsLit (q : ℚ) : ℚ := roundDouble q

/-- The operator `+` on numbers. -/
def jsAdd (a b : ℚ) : ℚ := roundDouble (a + b)

/-- The operator `-` on numbers. -/
def jsSub (a b : ℚ) : ℚ := roundDouble (a - b)

/-- The operator `*` on numbers. -/
def jsMul (a b : ℚ) : ℚ := roundDouble (a * b)

/-- The operator `/` on numbers, for a divisor other than 0. -/
def jsDiv (a b : ℚ) : ℚ := roundDouble (a / b)

/-! ## Outcome resolver (`simulateBackend`) -/

/-- The request object handed to `simulateBackend`; each endpoint reads its own fields.
`opponentStrength` is `none` when the caller passes `undefined`. -/
structure RequestData where
  playerName : String := ""
  action : String := ""
  position : Int := 0
  choice : String := ""
  step : Nat := 0
  strength : ℚ := 0
  opponentStrength : Option ℚ := none
deriving DecidableEq

/-- The object returned for `/redlight`. -/
structure RedLightResult where
  light : String
  survived : Bool
  position : Int
  message : String
deriving DecidableEq

/-- The object returned for `/glassbridge`. -/
structure GlassBridgeResult where
  survived : Bool
  correctChoice : String
  message : String
deriving DecidableEq

/-- The object returned for `/tugofwar`. -/
structure TugOfWarResult where
  playerStrength : ℚ
  opponentStrength : ℚ
  survived : Bool
  message : String
deriving DecidableEq

/-- The value returned by `simulateBackend`. -/
inductive BackendResult where
  | redlight (r : RedLightResult)
  | glassbridge (r : GlassBridgeResult)
  | tugofwar (r : TugOfWarResult)
  | error (msg : String)
deriving DecidableEq

/-- The `/redlight` block (lines 177-191); `r` is the draw of `Math.random()`. -/
def simulateRedLight (data : RequestData) (r : ℚ) : RedLightResult :=
  let light := if r < 0.5 then "GREEN" else "RED"
  let survived := !(data.action == "move" && light == "RED")
  { light := light
    survived := survived
    position := if survived && data.action == "move" then data.position + 1 else data.position
    message :=
      if survived then (if data.action == "move" then "Safe move!" else "Stayed safe")
      else "Moved on RED! Eliminated!" }

/-- JavaScript truthiness of `gameState.glassBridgeGuaranteedName`: `null` and the
empty string are falsy. -/
def guaranteedNameSet : Option String → Bool
  | none => false
  | some n => n != ""

/-- The `/glassbridge` block (lines 193-224); `guaranteed` is
`gameState.glassBridgeGuaranteedName` and `r` the draw of `Math.random()`, which is
consumed only on the last branch. -/
def simulateGlassBridge (guaranteed : Option String) (data : RequestData) (r : ℚ) :
    GlassBridgeResult :=
  let sc : Bool × String :=
    if data.step = 0 then
      (true, data.choice)
    else if guaranteedNameSet guaranteed && guaranteed == some data.playerName then
      (true, data.choice)
    else if r < 0.6 then
      (true, data.choice)
    else
      (false, if data.choice == "left" then "right" else "left")
  { survived := sc.1
    correctChoice := sc.2
    message := if sc.1 then "Safe step!" else "Glass broke! You fall!" }

/-- The `/tugofwar` block (lines 226-237); `r1` and `r2` are the two draws of
`Math.random()`. The gain is added to the strength as JavaScript adds numbers. The draws
enter through `⌊r1 * 3⌋` and `⌊r2 * 10⌋`, which range over the same integers, 0 to 2 and
0 to 9, as the floors of the numbers `Math.random() * 3` and `Math.random() * 10`. A
supplied opponent strength of `0` is falsy, like `undefined`. -/
def simulateTugOfWar (data : RequestData) (r1 r2 : ℚ) : TugOfWarResult :=
  let playerStrength := jsAdd data.strength ((⌊r1 * 3⌋ + 1 : Int) : ℚ)
  let drawn : ℚ := ((⌊r2 * 10⌋ + 8 : Int) : ℚ)
  let opponentStrength : ℚ :=
    match data.opponentStrength with
    | some o => if o = 0 then drawn else o
    | none => drawn
  let survived := decide (playerStrength ≥ opponentStrength)
  { playerStrength := playerStrength
    opponentStrength := opponentStrength
    survived := survived
    message := if survived then "You won!" else "You lost!" }

/-- The function `simulateBackend` (lines 175-240). -/
def simulateBackend (s : GameState) (endpoint : String) (data : RequestData) (r1 r2 : ℚ) :
    BackendResult :=
  if endpoint = "/redlight" then
    BackendResult.redlight (simulateRedLight data r1)
  else if endpoint = "/glassbridge" then
    BackendResult.glassbridge (simulateGlassBridge s.glassBridgeGuaranteedName data r1)
  else if endpoint = "/tugofwar" then
    BackendResult.tugofwar (simulateTugOfWar data r1 r2)
  else
    BackendResult.error "Unknown endpoint"

/-! ## Vocabulary of the statements -/

/-- Whether roster index `i` holds a player whose `alive` flag is set. -/
def aliveAt (players : List Player) (i : Nat) : Bool :=
  match players[i]? with
  | some p => p.alive
  | none => false

/-- The indices of the alive players, in increasing order. -/
def aliveIndices (players : List Player) : List Nat :=
  (List.range players.length).filter (aliveAt players)

/-- A roster entry with its `alive` flag forgotten: every other field of the player. -/
def forgetAlive (p : Player) : Player :=
  { p with alive := true }

/-- A round of turns: state and last returned flag after `resetToFirstAlivePlayer`
followed by `k` calls of `nextPlayer`, where the `k`-th call (counted from 0) finds the
roster `rosters k`, the turn played before it having possibly changed the roster. -/
def roundCursor (s0 : GameState) (rosters : Nat → List Player) : Nat → GameState × Bool
  | 0 => (resetToFirstAlivePlayer s0, true)
  | k + 1 => nextPlayer { (roundCursor s0 rosters k).1 with players := rosters k }

/-- The operations of a session that write the cursor, the game index or an `alive`
flag once the roster exists. -/
inductive SessionOp where
  /-- The cursor advance `gameState.nextPlayer()`. -/
  | nextPlayer
  /-- The game advance `gameState.nextGame()`. -/
  | nextGame
  /-- The call `gameState.resetToFirstAlivePlayer()`. -/
  | resetToFirstAlivePlayer
  /-- An elimination by a turn handler: `player.alive = false` on roster entry `i`. -/
  | eliminate (i : Nat)
  /-- The Tug of War filtering block on its own. -/
  | tugOfWarFilter
  /-- The whole player/game transition `moveToNextPlayer()`. -/
  | moveToNextPlayer
deriving DecidableEq

/-- The state after one session operation. -/
def applyOp (s : GameState) : SessionOp → GameState
  | SessionOp.nextPlayer => (nextPlayer s).1
  | SessionOp.nextGame => nextGame s
  | SessionOp.resetToFirstAlivePlayer => resetToFirstAlivePlayer s
  | SessionOp.eliminate i => markEliminated s i
  | SessionOp.tugOfWarFilter => { s with players := tugOfWarFilter s.players }
  | SessionOp.moveToNextPlayer => (moveToNextPlayer s).1

/-- The state after a sequence of session operations. -/
def runOps (s : GameState) (ops : List SessionOp) : GameState :=
  ops.foldl applyOp s

/-- The session state right after the start button handler built the roster. -/
def startSession (inputs : List String) : GameState :=
  { players := createRoster inputs }

/-! ## Game entry (`startGame`) and the session buttons -/

/-- What `startGame` hands control to (lines 288-307). -/
inductive StartGameAction where
  | showResults
  | showScreenForCurrentGame
  | showRulebookForCurrentGame
deriving DecidableEq

/-- The function `startGame`: the results when the game sequence is complete or nobody
is alive; otherwise the screen of the current game, behind the rulebook the first time. -/
def startGame (s : GameState) : StartGameAction :=
  if isGameComplete s then
    StartGameAction.showResults
  else if (getAlivePlayers s).length = 0 then
    StartGameAction.showResults
  else if s.currentGameIndex ∈ s.rulesShown then
    StartGameAction.showScreenForCurrentGame
  else
    StartGameAction.showRulebookForCurrentGame

/-- The click handler of the rulebook button set by `showRulebookForCurrentGame`:
`rulesShown[currentGameIndex] = true`, then `showScreenForCurrentGame()`. -/
def acknowledgeRules (s : GameState) : GameState :=
  { s with rulesShown := s.currentGameIndex :: s.rulesShown }

/-- The turn starter a mini-game screen runs. -/
inductive MiniGame where
  | startRedLightGreenLight
  | startGlassBridge
  | startTugOfWar
deriving DecidableEq

/-- The `switch` of `showScreenForCurrentGame` (lines 363-373): the turn starter of the
current game index, none past the last case. -/
def showScreenForCurrentGame (s : GameState) : Option MiniGame :=
  match s.currentGameIndex with
  | 0 => some MiniGame.startRedLightGreenLight
  | 1 => some MiniGame.startGlassBridge
  | 2 => some MiniGame.startTugOfWar
  | _ => none

/-- The click handler of the restart button (lines 1564-1568): the roster and both
indices are reset, nothing else. -/
def restartSession (s : GameState) : GameState :=
  { s with players := [], currentPlayerIndex := 0, currentGameIndex := 0 }

/-- The click handler of the start button on an existing state: a new roster. -/
def startButton (s : GameState) (inputs : List String) : GameState :=
  { s with players := createRoster inputs }

/-! ## Glass Bridge turn start (`startGlassBridge`) -/

/-- The JavaScript read `xs[k]` for an integer `k`: `undefined` outside the array. -/
def jsIndex {α : Type} (xs : List α) (k : Int) : Option α :=
  if 0 ≤ k then xs[k.toNat]? else none

/-- The guarantee block of `startGlassBridge` (lines 846-852); `r` is the draw of
`Math.random()`. The result is `none` when `pick` is `undefined` and `pick.name` throws,
which no draw in `[0, 1)` causes. -/
def assignGuarantee (s : GameState) (r : ℚ) : Option GameState :=
  if !guaranteedNameSet s.glassBridgeGuaranteedName then
    let alive := getAlivePlayers s
    if alive.length ≥ 3 then
      match jsIndex alive ⌊r * (alive.length : ℚ)⌋ with
      | some pick => some { s with glassBridgeGuaranteedName := some pick.name }
      | none => none
    else some s
  else some s

/-- The state part of `startGlassBridge` (lines 842-857): the guarantee block, then the
reset of the bridge fields of the current player. A thrown `TypeError` leaves the state
as it was when it was thrown. -/
def startGlassBridge (s : GameState) (r : ℚ) : GameState :=
  match assignGuarantee s r with
  | none => s
  | some s1 =>
    let reset : Player → Player := fun p =>
      { p with bridgeStep := 0, bridgeState := some (List.replicate 5 none), lastChoice := none }
    { s1 with players := s1.players.modify reset s1.currentPlayerIndex }

/-- Everything that can happen to the session state: the operations of `SessionOp`, a
Glass Bridge turn start, a resolver call (which only reads the state), and the restart
and start buttons. -/
inductive SessionEvent where
  | op (o : SessionOp)
  | startGlassBridge (r : ℚ)
  | simulateBackend (endpoint : String) (data : RequestData) (r1 r2 : ℚ)
  | restartSession
  | startButton (inputs : List String)

/-- The state after one session event. -/
def applyEvent (s : GameState) : SessionEvent → GameState
  | SessionEvent.op o => applyOp s o
  | SessionEvent.startGlassBridge r => startGlassBridge s r
  | SessionEvent.simulateBackend _ _ _ _ => s
  | SessionEvent.restartSession => restartSession s
  | SessionEvent.startButton inputs => startButton s inputs

/-- The state after a sequence of session events. -/
def runEvents (s : GameState) (es : List SessionEvent) : GameState :=
  es.foldl applyEvent s

/-- Whether the Glass Bridge resolver reports `survived = true` for the roster entry at
index `i`, at every step from 1 on, for every choice and every draw. -/
def unconditionallySafe (s : GameState) (i : Nat) : Prop :=
  ∃ p, s.players[i]? = some p ∧
    ∀ (step : Nat) (choice : String) (r1 r2 : ℚ), 1 ≤ step →
      ∃ res, simulateBackend s "/glassbridge"
          { playerName := p.name, choice := choice, step := step } r1 r2
        = BackendResult.glassbridge res ∧ res.survived = true

/-! ## Red Light Green Light turn (`setupRedLightGreenLightMode`) -/

/-- The object `config` of `setupRedLightGreenLightMode` (lines 416-426); the defaults
are the values of the source. Times are in milliseconds but `totalTime`, in seconds. -/
structure RlgConfig where
  totalTime : Int := 15
  requiredAttempts : Nat := 4
  greenMin : Int := 250
  greenMax : Int := 500
  redMin : Int := 400
  redMax : Int := 2200
  moveCooldown : Int := 300
  inputWindow : Int := 120
  readyTimeout : Int := 8000
deriving DecidableEq

/-- The number of elements of the array `attemptSlots` (lines 448-453). -/
def attemptSlotCount : Nat := 4

/-- The callback armed under the handle `lightTimeout`. -/
inductive LightCallback where
  | toRed
  | nextLightCycle
deriving DecidableEq

/-- The state of one Red Light Green Light turn: the player object the closure holds
and the local variables of `setupRedLightGreenLightMode` (lines 429-440).
`timerInterval` tells whether the countdown interval is armed, `lightTimeout` which
callback is armed under that handle. -/
structure RlgTurn where
  player : Player
  lightState : String := "red"
  canMove : Bool := false
  lastMoveTime : Int := 0
  timerInterval : Bool := false
  lightTimeout : Option LightCallback := none
  running : Bool := false
  ready : Bool := false
deriving DecidableEq

/-- The state `setupRedLightGreenLightMode` builds for the current player. -/
def setupRedLightGreenLightMode (cfg : RlgConfig) (p : Player) : RlgTurn :=
  { player := { p with rlg_attempts := 0, rlg_timer := cfg.totalTime, rlg_eliminated := false }
    lightState := "red"
    canMove := false
    lastMoveTime := 0
    timerInterval := false
    lightTimeout := none
    running := false
    ready := false }

/-- The function `setLight`. -/
def setLight (state : String) (t : RlgTurn) : RlgTurn :=
  { t with lightState := state, canMove := (state == "green") }

/-- The function `confirmReady`: starts the turn once. It also schedules the first
`nextLightCycle` under a handle that is not kept. -/
def confirmReady (t : RlgTurn) : RlgTurn :=
  if t.ready then t
  else { setLight "red" { t with ready := true, running := true } with timerInterval := true }

/-- The function `eliminatePlayer` of the turn (lines 591-599). -/
def eliminatePlayer (t : RlgTurn) : RlgTurn :=
  { t with
    running := false
    timerInterval := false
    lightTimeout := none
    player := { t.player with rlg_eliminated := true, alive := false } }

/-- The function `finishPlayer` (lines 606-614); `moveToNextPlayer` follows 900 ms later. -/
def finishPlayer (t : RlgTurn) : RlgTurn :=
  { t with running := false, timerInterval := false, lightTimeout := none }

/-- The function `updateTimer`, the countdown tick. -/
def updateTimer (t : RlgTurn) : RlgTurn :=
  if !t.running then t
  else
    let t1 : RlgTurn := { t with player := { t.player with rlg_timer := t.player.rlg_timer - 1 } }
    if t1.player.rlg_timer ≤ 0 then eliminatePlayer t1 else t1

/-- The function `nextLightCycle`: the green phase, and the callback `toRed` armed for
its end. The durations drawn only delay the callbacks. -/
def nextLightCycle (cfg : RlgConfig) (t : RlgTurn) : RlgTurn :=
  if !t.running then t
  else if t.player.rlg_attempts ≥ cfg.requiredAttempts then t
  else { setLight "green" t with lightTimeout := some LightCallback.toRed }

/-- The callback armed by `nextLightCycle`: the red phase, and `nextLightCycle` armed
for its end. -/
def lightToRed (t : RlgTurn) : RlgTurn :=
  { setLight "red" t with lightTimeout := some LightCallback.nextLightCycle }

/-- The function `handleMove` (lines 555-577); `now` is `Date.now()`. After the
increment, `attemptSlots[player.rlg_attempts - 1]` is `undefined` past the last slot and
writing to it throws, which ends the handler there. -/
def handleMove (cfg : RlgConfig) (now : Int) (t : RlgTurn) : RlgTurn :=
  if !t.running || t.player.rlg_eliminated then t
  else if now - t.lastMoveTime < cfg.moveCooldown then t
  else
    let t1 : RlgTurn := { t with lastMoveTime := now }
    if t1.lightState == "green" && t1.canMove then
      let t2 : RlgTurn :=
        { t1 with player := { t1.player with rlg_attempts := t1.player.rlg_attempts + 1 } }
      if t2.player.rlg_attempts > attemptSlotCount then t2
      else if t2.player.rlg_attempts ≥ cfg.requiredAttempts then finishPlayer t2
      else t2
    else eliminatePlayer t1

/-- The inputs and callbacks of a turn. -/
inductive RlgEvent where
  | tick
  | move (now : Int)
  | nextLightCycle
  | toRed
deriving DecidableEq

/-- The turn after one event. -/
def stepTurn (cfg : RlgConfig) (t : RlgTurn) : RlgEvent → RlgTurn
  | RlgEvent.tick => updateTimer t
  | RlgEvent.move now => handleMove cfg now t
  | RlgEvent.nextLightCycle => nextLightCycle cfg t
  | RlgEvent.toRed => lightToRed t

/-- The turn after a sequence of events. -/
def runTurn (cfg : RlgConfig) (t : RlgTurn) (es : List RlgEvent) : RlgTurn :=
  es.foldl (stepTurn cfg) t

/-- The number of countdown ticks of `es` that found the turn still running. -/
def runningTicks (cfg : RlgConfig) : RlgTurn → List RlgEvent → Nat
  | _, [] => 0
  | t, RlgEvent.tick :: es =>
    (if t.running then 1 else 0) + runningTicks cfg (updateTimer t) es
  | t, e :: es => runningTicks cfg (stepTurn cfg t e) es

/-- A turn right after the player pressed READY. -/
def freshTurn (cfg : RlgConfig) (p : Player) : RlgTurn :=
  confirmReady (setupRedLightGreenLightMode cfg p)

/-- What holds of a turn while it runs, `k` countdown ticks after READY, for a player
whose `alive` flag was `alive0` at READY. -/
def runningInvariant (cfg : RlgConfig) (alive0 : Bool) (t : RlgTurn) (k : Nat) : Prop :=
  t.running = true →
    t.player.rlg_timer = cfg.totalTime - (k : Int) ∧ (k : Int) < cfg.totalTime ∧
    t.player.rlg_attempts < cfg.requiredAttempts ∧
    t.player.alive = alive0 ∧ t.player.rlg_eliminated = false

/-- Whether an event of the turn can run. The red phase callback is only ever armed
under the handle `lightTimeout`, so `clearTimeout(lightTimeout)` cancels it and it runs
only while armed. Move inputs, countdown ticks and `nextLightCycle` (first scheduled
under a handle that is not kept) are taken to run at any time. -/
def canFire (t : RlgTurn) : RlgEvent → Bool
  | RlgEvent.toRed => t.lightTimeout == some LightCallback.toRed
  | _ => true

/-- The turn after an event that runs only when it can. -/
def fireEvent (cfg : RlgConfig) (t : RlgTurn) (e : RlgEvent) : RlgTurn :=
  if canFire t e then stepTurn cfg t e else t

/-- The turn after a sequence of events, each running only when it can. -/
def runFired (cfg : RlgConfig) (t : RlgTurn) (es : List RlgEvent) : RlgTurn :=
  es.foldl (fireEvent cfg) t

/-! ## Oracle responses (`callBackend`) -/

/-- A JavaScript value of a response field that may arrive native or string-encoded. -/
inductive JsVal where
  | undefined
  | bool (b : Bool)
  | num (q : ℚ)
  | str (s : String)
deriving DecidableEq

/-- JavaScript truthiness, as tested by `if (v)`. -/
def JsVal.truthy : JsVal → Bool
  | JsVal.undefined => false
  | JsVal.bool b => b
  | JsVal.num q => decide (q ≠ 0)
  | JsVal.str s => decide (s ≠ "")

/-- The expression `result.survived === true || result.survived === "true"`. -/
def normalizeSurvived (v : JsVal) : Bool :=
  v == JsVal.bool true || v == JsVal.str "true"

/-- The response object a turn handler receives from `callBackend`: the fields of the
three result objects, absent ones at their default. `survived` and `position` may be
native or string-encoded. -/
structure OracleResponse where
  survived : JsVal := JsVal.undefined
  light : String := ""
  position : JsVal := JsVal.undefined
  correctChoice : String := ""
  playerStrength : ℚ := 0
  opponentStrength : ℚ := 0
  message : String := ""
deriving DecidableEq

/-- The object `simulateBackend` returns, as a response. -/
def localResponse : BackendResult → OracleResponse
  | BackendResult.redlight r =>
    { survived := JsVal.bool r.survived, light := r.light, position := JsVal.num r.position,
      message := r.message }
  | BackendResult.glassbridge r =>
    { survived := JsVal.bool r.survived, correctChoice := r.correctChoice, message := r.message }
  | BackendResult.tugofwar r =>
    { survived := JsVal.bool r.survived, playerStrength := r.playerStrength,
      opponentStrength := r.opponentStrength, message := r.message }
  | BackendResult.error _ => {}

/-- The function `callBackend` (lines 155-172): `/glassbridge` always goes to the local
resolver; otherwise `remote` is the parsed answer of the remote backend, `none` when the
request failed and the local resolver is the fallback. -/
def callBackend (s : GameState) (endpoint : String) (data : RequestData)
    (remote : Option OracleResponse) (r1 r2 : ℚ) : OracleResponse :=
  if endpoint = "/glassbridge" then
    localResponse (simulateBackend s endpoint data r1 r2)
  else
    match remote with
    | some response => response
    | none => localResponse (simulateBackend s endpoint data r1 r2)

/-! ## Turn handlers of the three mini-games -/

/-- What a turn handler reports: the same player continues, the player is eliminated,
the player finished the mini-game; `threw` when the handler died on a `TypeError`. The
eliminated and finished branches end with `moveToNextPlayer()`. -/
inductive TurnReport where
  | continueTurn
  | eliminated
  | finished
  | threw
deriving DecidableEq

/-- The state after the `moveToNextPlayer()` call that ends a handler whose report is
`eliminated` or `finished`. -/
def finishTurn (s : GameState) (report : TurnReport) : GameState :=
  match report with
  | TurnReport.eliminated => (moveToNextPlayer s).1
  | TurnReport.finished => (moveToNextPlayer s).1
  | _ => s

/-- The state with the current player object replaced by `p`. -/
def setCurrentPlayer (s : GameState) (p : Player) : GameState :=
  { s with players := s.players.set s.currentPlayerIndex p }

/-- The assignment `arr[i] = v` on a JavaScript array: past the end the array grows,
with holes in between. -/
def jsArraySet (xs : List (Option String)) (i : Nat) (v : String) : List (Option String) :=
  if i < xs.length then xs.set i (some v)
  else xs ++ List.replicate (i - xs.length) none ++ [some v]

/-- What `handleBridgeChoice` leaves: the player object, the values shown, the report. -/
structure BridgeStep where
  player : Player
  survived : Bool
  correctChoice : String
  message : String
  report : TurnReport
deriving DecidableEq

/-- The body of `handleBridgeChoice` after the response arrived (lines 1128-1185), on
the player object. The block of lines 1131-1135, which forces the first step safe, runs
when `enforceFirstStep` is set, as it is in the source. Writing to an `undefined`
`bridgeState` throws. -/
def handleBridgeResult (enforceFirstStep : Bool) (player : Player) (choice : String)
    (result : OracleResponse) : BridgeStep :=
  let first : Bool := enforceFirstStep && player.bridgeStep == 0
  let survived : Bool := if first then true else normalizeSurvived result.survived
  let correctChoice : String := if first then choice else result.correctChoice
  let message : String := if first then "Safe step!" else result.message
  let step := player.bridgeStep
  match player.bridgeState with
  | none =>
    if !survived && step == 0 then
      { player := { player with alive := false }, survived := survived,
        correctChoice := correctChoice, message := message, report := TurnReport.eliminated }
    else
      { player := player, survived := survived, correctChoice := correctChoice,
        message := message, report := TurnReport.threw }
  | some tiles =>
    if survived then
      let tile := if correctChoice == "left" then "left-safe" else "right-safe"
      let player2 : Player :=
        { player with bridgeState := some (jsArraySet tiles step tile), bridgeStep := step + 1 }
      { player := player2, survived := survived, correctChoice := correctChoice,
        message := message,
        report := if player2.bridgeStep ≥ 5 then TurnReport.finished else TurnReport.continueTurn }
    else
      let tile := if correctChoice == "left" then "right-broken" else "left-broken"
      let player2 : Player :=
        if step ≠ 0 then { player with bridgeState := some (jsArraySet tiles step tile) }
        else player
      { player := { player2 with alive := false }, survived := survived,
        correctChoice := correctChoice, message := message, report := TurnReport.eliminated }

/-- The outcome of a Glass Bridge choice on the session state. -/
structure BridgeOutcome where
  state : GameState
  survived : Bool
  correctChoice : String
  message : String
  report : TurnReport
deriving DecidableEq

/-- The function `handleBridgeChoice` (lines 1108-1186) up to its final branch; `r1`,
`r2` are the draws the resolver may use. Without a current player the first statement
throws. -/
def handleBridgeChoiceWith (enforceFirstStep : Bool) (s : GameState) (choice : String)
    (r1 r2 : ℚ) : BridgeOutcome :=
  match getCurrentPlayer s with
  | none =>
    { state := s, survived := false, correctChoice := "", message := "",
      report := TurnReport.threw }
  | some player =>
    let player1 : Player := { player with lastChoice := some choice }
    let result := callBackend s "/glassbridge"
      { playerName := player1.name, choice := choice, step := player1.bridgeStep } none r1 r2
    let o := handleBridgeResult enforceFirstStep player1 choice result
    { state := setCurrentPlayer s o.player, survived := o.survived,
      correctChoice := o.correctChoice, message := o.message, report := o.report }

/-- The function `handleBridgeChoice` of the source. -/
def handleBridgeChoice (s : GameState) (choice : String) (r1 r2 : ℚ) : BridgeOutcome :=
  handleBridgeChoiceWith true s choice r1 r2

/-- The handler as the design note proposes it: `handleBridgeChoice` with the block of
lines 1130-1135 (the caller-side first-step rule) removed. -/
def handleBridgeChoiceNoOverride (s : GameState) (choice : String) (r1 r2 : ℚ) :
    BridgeOutcome :=
  handleBridgeChoiceWith false s choice r1 r2

/-- Whether the resolver lets choice number `k` (from 0) of a turn of `name` survive. -/
def choiceSurvives (guaranteed : Option String) (name : String) (k : Nat) (cr : String × ℚ) :
    Bool :=
  (simulateGlassBridge guaranteed { playerName := name, choice := cr.1, step := k } cr.2).survived

/-- The body of `handleRedLightAction` after the response arrived (lines 776-817), on
the player object; `parseInt` is the JavaScript builtin applied to `result.position`,
taken to yield an integer. -/
def handleRedLightResult (parseInt : JsVal → Int) (player : Player) (result : OracleResponse) :
    Player × TurnReport :=
  let survived := normalizeSurvived result.survived
  let position := parseInt result.position
  let player1 : Player := { player with position := position }
  if !survived then ({ player1 with alive := false }, TurnReport.eliminated)
  else if player1.position ≥ 4 then (player1, TurnReport.finished)
  else (player1, TurnReport.continueTurn)

/-- The function `handleRedLightAction` (lines 759-818) up to its final branch. -/
def handleRedLightAction (parseInt : JsVal → Int) (s : GameState) (action : String)
    (remote : Option OracleResponse) (r1 r2 : ℚ) : GameState × TurnReport :=
  match getCurrentPlayer s with
  | none => (s, TurnReport.threw)
  | some player =>
    let result := callBackend s "/redlight"
      { playerName := player.name, action := action, position := player.position } remote r1 r2
    let o := handleRedLightResult parseInt player result
    (setCurrentPlayer s o.1, o.2)

/-- The body of `handlePull` after the response arrived (lines 1421-1459), on the
player object: on the fifth pull `if (result.survived)` decides, by truthiness. -/
def handlePullResult (player : Player) (result : OracleResponse) : Player × TurnReport :=
  let player1 : Player :=
    { player with tugStrength := result.playerStrength, tugTurns := player.tugTurns + 1 }
  if player1.tugTurns ≥ 5 then
    let player2 : Player := { player1 with opponentStrength := some result.opponentStrength }
    if result.survived.truthy then (player2, TurnReport.finished)
    else ({ player2 with alive := false }, TurnReport.eliminated)
  else (player1, TurnReport.continueTurn)

/-- The function `handlePull` (lines 1403-1460) up to its final branch. -/
def handlePull (s : GameState) (remote : Option OracleResponse) (r1 r2 : ℚ) :
    GameState × TurnReport :=
  match getCurrentPlayer s with
  | none => (s, TurnReport.threw)
  | some player =>
    let result := callBackend s "/tugofwar"
      { playerName := player.name, strength := player.tugStrength,
        opponentStrength := player.opponentStrength } remote r1 r2
    let o := handlePullResult player result
    (setCurrentPlayer s o.1, o.2)

/-! ## Tug of War turn (`startTugOfWar`) -/

/-- The state of one Tug of War turn: the player object the closure holds and the local
variables of `startTugOfWar` (lines 1233-1270). Lengths are in pixels, `lastTs` and
`lastTapAt` in milliseconds, the other times in seconds. The values are JavaScript
numbers; the handlers compute on them with `jsAdd`, `jsSub`, `jsMul` and `jsDiv`, and
their decimal constants are `jsLit` values. -/
structure TugTurn where
  player : Player
  tugTimerStarted : Bool := false
  running : Bool := true
  lastTs : Option ℚ := none
  elapsed : ℚ := 0
  trackWidth : ℚ := 0
  targetX : ℚ := 18
  targetV : ℚ := 0
  targetA : ℚ := 0
  accelTimer : ℚ := 0
  barWidth : ℚ := 6
  barMax : ℚ := 60
  lastTapAt : ℚ := 0
deriving DecidableEq

/-- The constant `targetW`. -/
def targetW : ℚ := 100

/-- The constant `minV`. -/
def minV : ℚ := 80

/-- The constant `maxV`. -/
def maxV : ℚ := 340

/-- The constant `maxA`. -/
def maxA : ℚ := 600

/-- The constant `barLeft`. -/
def barLeft : ℚ := 2

/-- The constant `barMin`. -/
def barMin : ℚ := 6

/-- The constant `shrinkSpeed`. -/
def shrinkSpeed : ℚ := 210

/-- The constant `baseInc`. -/
def baseInc : ℚ := 30

/-- The function `randomizeAccel`; `r1`, `r2` are its two draws. -/
def randomizeAccel (r1 r2 : ℚ) (t : TugTurn) : TugTurn :=
  { t with
    targetA := jsMul (jsSub (jsMul r1 2) 1) maxA
    accelTimer := jsAdd (jsLit 0.18) (jsMul r2 (jsLit 0.6)) }

/-- The state part of the function `place`: the target is clamped inside the track. -/
def place (t : TugTurn) : TugTurn :=
  { t with targetX := max 2 (min (jsSub (jsSub t.trackWidth targetW) 2) t.targetX) }

/-- The state `startTugOfWar` builds for the current player; `width` is the measured
width of the track. -/
def startTugOfWar (p : Player) (width r1 r2 : ℚ) : TugTurn :=
  let t0 : TugTurn :=
    { player := { p with tugStrength := 0 }
      tugTimerStarted := false
      running := true
      lastTs := none
      elapsed := 0
      trackWidth := width
      targetX := 18
      targetV := 0
      targetA := 0
      accelTimer := 0
      barWidth := barMin
      barMax := 60
      lastTapAt := 0 }
  let t1 := randomizeAccel r1 r2 t0
  place { t1 with barMax := max 60 (jsMul t1.trackWidth (jsLit 0.85)) }

/-- The function `measure`, run on a resize event with the new width of the track. -/
def measure (width : ℚ) (t : TugTurn) : TugTurn :=
  { t with trackWidth := width }

/-- The function `handleTap`; `now` is `performance.now()`. -/
def handleTap (now : ℚ) (t : TugTurn) : TugTurn :=
  if !t.running then t
  else
    let dt : ℚ :=
      if t.lastTapAt ≠ 0 then max (jsLit 0.04) (jsDiv (jsSub now t.lastTapAt) 1000)
      else jsLit 0.35
    let bonus : ℚ := min 5 (jsDiv 0.5 dt)
    let inc : ℚ := jsMul baseInc (jsAdd 1 bonus)
    { t with
      lastTapAt := now
      tugTimerStarted := true
      barWidth := min t.barMax (jsAdd t.barWidth inc) }

/-- The function `window.endTugRound` (lines 1320-1333): the turn stops; 700 ms later
`moveToNextPlayer()` follows. -/
def endTugRound (t : TugTurn) : TugTurn :=
  if !t.running then t else { t with running := false }

/-- The frame time `dt` of `step`, in seconds, capped at 0.05. -/
def frameDt (ts : ℚ) (t : TugTurn) : ℚ :=
  let lastTs0 : ℚ := match t.lastTs with
    | none => ts
    | some l => l
  min (jsLit 0.05) (jsDiv (jsSub ts lastTs0) 1000)

/-- The three velocity clamps of `step` (lines 1346-1348): at least `minV` in absolute
value, at most `maxV`. -/
def clampVelocity (v1 : ℚ) : ℚ :=
  let v2 : ℚ := if |v1| < minV then jsMul (if v1 ≥ 0 then 1 else -1) minV else v1
  let v3 : ℚ := if v2 > maxV then maxV else v2
  if v3 < -maxV then -maxV else v3

/-- The boundary bounce of `step` (lines 1350-1358); `r3`, `r4` are the draws of its
`randomizeAccel` call. -/
def bounceTarget (r3 r4 : ℚ) (t : TugTurn) : TugTurn :=
  if t.targetX ≤ 2 then
    randomizeAccel r3 r4 { t with targetX := 2, targetV := |t.targetV| }
  else if jsAdd t.targetX targetW ≥ jsSub t.trackWidth 2 then
    randomizeAccel r3 r4
      { t with targetX := jsSub (jsSub t.trackWidth 2) targetW, targetV := -|t.targetV| }
  else t

/-- The block "Target random-walk with boundary bounce" of `step` (lines 1342-1358);
`r1`, `r2` are the draws of the `randomizeAccel` call made when the acceleration timer
runs out. -/
def moveTarget (dt r1 r2 r3 r4 : ℚ) (t : TugTurn) : TugTurn :=
  let t1 : TugTurn := { t with accelTimer := jsSub t.accelTimer dt }
  let t2 : TugTurn := if t1.accelTimer ≤ 0 then randomizeAccel r1 r2 t1 else t1
  let v : ℚ := clampVelocity (jsAdd t2.targetV (jsMul t2.targetA dt))
  bounceTarget r3 r4 { t2 with targetV := v, targetX := jsAdd t2.targetX (jsMul v dt) }

/-- The block "Passive shrink when idle between taps" of `step` (lines 1360-1362). -/
def shrinkBar (dt : ℚ) (t : TugTurn) : TugTurn :=
  let w1 : ℚ := jsSub t.barWidth (jsMul shrinkSpeed dt)
  { t with barWidth := if w1 < barMin then barMin else w1 }

/-- The block "Scoring" of `step` (lines 1364-1373): strength accrues while the tip of
the bar is inside the target window. -/
def scoreFrame (dt : ℚ) (t : TugTurn) : TugTurn :=
  let barTip : ℚ := jsAdd barLeft t.barWidth
  let inWindow : Bool :=
    decide (barTip ≥ t.targetX) && decide (barTip ≤ jsAdd t.targetX targetW)
  let gain : ℚ := jsMul dt 28
  if inWindow then
    { t with player := { t.player with tugStrength := jsAdd t.player.tugStrength gain } }
  else t

/-- The animation frame callback `step` (lines 1335-1379); `ts` is the frame timestamp
and `r1` to `r4` the draws of the two possible `randomizeAccel` calls. -/
def tugStep (ts r1 r2 r3 r4 : ℚ) (t : TugTurn) : TugTurn :=
  if !t.running then t
  else
    let dt : ℚ := frameDt ts t
    let t1 : TugTurn := { t with lastTs := some ts, elapsed := jsAdd t.elapsed dt }
    place (scoreFrame dt (shrinkBar dt (moveTarget dt r1 r2 r3 r4 t1)))

/-- The inputs and callbacks of a Tug of War turn. -/
inductive TugEvent where
  | tap (now : ℚ)
  | step (ts r1 r2 r3 r4 : ℚ)
  | endTugRound
  | resize (width : ℚ)

/-- The turn after one event. -/
def stepTug (t : TugTurn) : TugEvent → TugTurn
  | TugEvent.tap now => handleTap now t
  | TugEvent.step ts r1 r2 r3 r4 => tugStep ts r1 r2 r3 r4 t
  | TugEvent.endTugRound => endTugRound t
  | TugEvent.resize width => measure width t

/-- The turn after a sequence of events. -/
def runTug (t : TugTurn) (es : List TugEvent) : TugTurn :=
  es.foldl stepTug t

/-! ## Glass Bridge turn on the event loop -/

/-- The `await` on a timer at which a run of `handleBridgeChoice` is suspended:
`sleep(400)` after a broken tile (line 1154), `sleep(800)` after the status message
(line 1161), `sleep(600)` of the fall (line 1167), `sleep(350)` inside
`animateFinishCrossing` (line 1065) and `sleep(800)` after the crossing (line 1175). Each
`sleep` is a `setTimeout` (lines 1589-1591). -/
inductive BridgeAwait where
  | brokenTile
  | statusShown
  | falling
  | crossing
  | crossed
deriving DecidableEq

/-- What a pending timer of the page runs when it fires: the interval callback of
`startActionTimer` (lines 659-677) with its counter `timeLeft`, or the rest of a
suspended run of `handleBridgeChoice`, which holds the player object it read at its
start, the roster entry at `playerIndex`, and its local `survived`. -/
inductive BridgeCallback where
  | actionTimer (timeLeft : Nat)
  | resume (playerIndex : Nat) (survived : Bool) (stage : BridgeAwait)
deriving DecidableEq

/-- A pending timer: the time in milliseconds at which it is due, and its callback. -/
structure BridgeTimer where
  due : Nat
  callback : BridgeCallback
deriving DecidableEq

/-- The Glass Bridge screen between two tasks of the event loop: the session state, the
clock in milliseconds, whether `glassBridgeScreen` is the active screen, the row whose
two tiles carry an `onpointerdown` handler, and the pending timers in the order they
were set. `handled` counts the calls of `handleBridgeChoice` and `moved` the calls of
`moveToNextPlayer`; the program does not store them. -/
structure BridgeScreen where
  game : GameState
  now : Nat := 0
  active : Bool := true
  clickableRow : Option Nat := none
  timers : List BridgeTimer := []
  handled : Nat := 0
  moved : Nat := 0
deriving DecidableEq

/-- The function `stopActionTimer` (lines 696-701): the interval is cleared. -/
def stopActionTimer (u : BridgeScreen) : BridgeScreen :=
  { u with
    timers := u.timers.filter fun t =>
      match t.callback with
      | BridgeCallback.actionTimer _ => false
      | BridgeCallback.resume _ _ _ => true }

/-- A timer set with `setTimeout` or `setInterval`: due `delay` ms from now. -/
def setTimer (delay : Nat) (callback : BridgeCallback) (u : BridgeScreen) : BridgeScreen :=
  { u with timers := u.timers ++ [{ due := u.now + delay, callback := callback }] }

/-- The function `startActionTimer` (lines 621-678), the elements of the timer being on
the page: any running interval is cleared and a new one counts down from 10, one tick
per second. -/
def startActionTimer (u : BridgeScreen) : BridgeScreen :=
  setTimer 1000 (BridgeCallback.actionTimer 10) (stopActionTimer u)

/-- The function `disableBridgeInteractivity` (lines 1099-1106): no tile keeps its
pointer handler. -/
def disableBridgeInteractivity (u : BridgeScreen) : BridgeScreen :=
  { u with clickableRow := none }

/-- The function `updateBridgeDisplay` (lines 889-920): the old tiles are removed and,
when there is a current player, built anew; no tile has a pointer handler afterwards. -/
def updateBridgeDisplay (u : BridgeScreen) : BridgeScreen :=
  { u with clickableRow := none }

/-- The function `updateBridgeInteractivity` (lines 1068-1097): the tiles of the row
`bridgeStep` of the current player get a pointer handler, all others lose theirs.
Without a current player the read of `bridgeStep` throws; the result is `none`. -/
def updateBridgeInteractivity (u : BridgeScreen) : Option BridgeScreen :=
  match getCurrentPlayer u.game with
  | none => none
  | some p => some { u with clickableRow := some p.bridgeStep }

/-- Lines 1128-1153 of `handleBridgeChoice` on the player object: the response is
normalised, the first step is forced safe, the tile is marked and a survived step
counted. The result is the player object and the local `survived`; it is `none` when the
write to an `undefined` `bridgeState` throws. -/
def markBridgeStep (player : Player) (choice : String) (result : OracleResponse) :
    Option (Player × Bool) :=
  let first : Bool := player.bridgeStep == 0
  let survived : Bool := if first then true else normalizeSurvived result.survived
  let correctChoice : String := if first then choice else result.correctChoice
  let step := player.bridgeStep
  if survived then
    match player.bridgeState with
    | none => none
    | some tiles =>
      let tile := if correctChoice == "left" then "left-safe" else "right-safe"
      some ({ player with bridgeState := some (jsArraySet tiles step tile),
                          bridgeStep := step + 1 }, true)
  else if step ≠ 0 then
    match player.bridgeState with
    | none => none
    | some tiles =>
      let tile := if correctChoice == "left" then "right-broken" else "left-broken"
      some ({ player with bridgeState := some (jsArraySet tiles step tile) }, false)
  else some (player, false)

/-- The function `handleBridgeChoice` from its call to its first timer (lines 1108-1161):
the choice is recorded, the action timer stopped, the resolver asked (`r` is its draw)
and the step marked. After a survived step the tiles are rebuilt at once and the run
waits 800 ms; after a broken tile the run first waits 400 ms, the tiles as they are.
Without a current player the first assignment throws. -/
def beginBridgeChoice (choice : String) (r : ℚ) (u : BridgeScreen) : BridgeScreen :=
  let u0 : BridgeScreen := { u with handled := u.handled + 1 }
  match getCurrentPlayer u0.game with
  | none => u0
  | some player =>
    let i := u0.game.currentPlayerIndex
    let player1 : Player := { player with lastChoice := some choice }
    let u1 := stopActionTimer { u0 with game := setCurrentPlayer u0.game player1 }
    let result := callBackend u1.game "/glassbridge"
      { playerName := player1.name, choice := choice, step := player1.bridgeStep } none r 0
    match markBridgeStep player1 choice result with
    | none => u1
    | some (player2, true) =>
      let u2 := updateBridgeDisplay { u1 with game := setCurrentPlayer u1.game player2 }
      setTimer 800 (BridgeCallback.resume i true BridgeAwait.statusShown) u2
    | some (player2, false) =>
      let u2 : BridgeScreen := { u1 with game := setCurrentPlayer u1.game player2 }
      setTimer 400 (BridgeCallback.resume i false BridgeAwait.brokenTile) u2

/-- The function `startGlassBridge` (lines 842-887) on the screen: the state part, the
rebuilt tiles, the action timer, and the pointer handlers on row 0. Where the state part
throws, nothing after it runs. -/
def startBridgeTurn (r : ℚ) (u : BridgeScreen) : BridgeScreen :=
  let u1 : BridgeScreen := { u with active := true, game := startGlassBridge u.game r }
  if (getCurrentPlayer u.game).isNone || (assignGuarantee u.game r).isNone then u1
  else
    match updateBridgeInteractivity (startActionTimer (updateBridgeDisplay u1)) with
    | none => u1
    | some u2 => u2

/-- The call `moveToNextPlayer()` (lines 1483-1524) on the screen; `r` is the draw of the
`startGlassBridge` it may lead to. The action timer is hidden and stopped, the cursor
moves, and `startGame` follows: another Glass Bridge turn starts, or another screen
(results, rulebook, the next mini-game) becomes the active one. -/
def bridgeMoveToNextPlayer (r : ℚ) (u : BridgeScreen) : BridgeScreen :=
  let u1 := stopActionTimer u
  let m := moveToNextPlayer u1.game
  let u2 : BridgeScreen := { u1 with game := m.1, moved := u1.moved + 1 }
  match m.2 with
  | NextScreen.showResults => { u2 with active := false }
  | NextScreen.startGame =>
    match startGame m.1 with
    | StartGameAction.showScreenForCurrentGame =>
      match showScreenForCurrentGame m.1 with
      | some MiniGame.startGlassBridge => startBridgeTurn r u2
      | _ => { u2 with active := false }
    | _ => { u2 with active := false }

/-- The rest of a run of `handleBridgeChoice` from the timer it waited on (lines
1155-1185); `i` is the roster index of the player object the run holds, `survived` its
local, and `r` the draw of a `startGlassBridge` that `moveToNextPlayer` leads to. The
finish line element is taken to be on the page, so that `animateFinishCrossing` sleeps.
A `TypeError` (no current player in `updateBridgeDisplay` or
`updateBridgeInteractivity`) ends the run. -/
def resumeBridgeChoice (i : Nat) (survived : Bool) (stage : BridgeAwait) (r : ℚ)
    (u : BridgeScreen) : BridgeScreen :=
  match stage with
  | BridgeAwait.brokenTile =>
    let u1 := updateBridgeDisplay u
    if (getCurrentPlayer u.game).isNone then u1
    else setTimer 800 (BridgeCallback.resume i survived BridgeAwait.statusShown) u1
  | BridgeAwait.statusShown =>
    if !survived then
      setTimer 600 (BridgeCallback.resume i survived BridgeAwait.falling)
        { u with game := markEliminated u.game i }
    else if (u.game.players[i]?).any (fun p => decide (p.bridgeStep ≥ 5)) then
      setTimer 350 (BridgeCallback.resume i survived BridgeAwait.crossing) u
    else
      match updateBridgeInteractivity u with
      | none => u
      | some u1 => startActionTimer u1
  | BridgeAwait.falling => bridgeMoveToNextPlayer r u
  | BridgeAwait.crossing =>
    setTimer 800 (BridgeCallback.resume i survived BridgeAwait.crossed) u
  | BridgeAwait.crossed => bridgeMoveToNextPlayer r u

/-- The pending timer that fires next: the earliest due, the one set first among equals. -/
def nextTimer : List BridgeTimer → Option BridgeTimer
  | [] => none
  | t :: ts =>
    match nextTimer ts with
    | none => some t
    | some t2 => if t2.due < t.due then some t2 else some t

/-- What happens on the Glass Bridge screen: a pointer press at time `time` on the tile
`side` of the clickable row, with the draw `r` of the resolver call it leads to; or the
next pending timer fires, `r1` and `r2` being the draws of the `Math.random()` calls its
callback makes, in order. The skip button of the developer mode is not among them. -/
inductive BridgeEvent where
  | click (time : Nat) (side : String) (r : ℚ)
  | timer (r1 r2 : ℚ)

/-- The function `handleTimeout` (lines 680-694) on the Glass Bridge screen: a random
side is chosen and handed to `handleBridgeChoice`; the tiles are left as they are. -/
def handleTimeout (r1 r2 : ℚ) (u : BridgeScreen) : BridgeScreen :=
  let randomChoice := if r1 < 0.5 then "left" else "right"
  beginBridgeChoice randomChoice r2 u

/-- The pointer handler of a clickable tile (lines 1078-1088): the tiles are locked
first, then the choice is handled. -/
def tilePointerDown (side : String) (r : ℚ) (u : BridgeScreen) : BridgeScreen :=
  beginBridgeChoice side r (disableBridgeInteractivity u)

/-- The interval callback of `startActionTimer` (lines 659-677): the counter goes down by
one; at 0 the interval is cleared and `handleTimeout` runs, otherwise the next tick is
due a second later. -/
def actionTimerTick (due timeLeft : Nat) (r1 r2 : ℚ) (u : BridgeScreen) : BridgeScreen :=
  if timeLeft - 1 ≤ 0 then handleTimeout r1 r2 (stopActionTimer u)
  else { u with timers := u.timers ++
          [{ due := due + 1000, callback := BridgeCallback.actionTimer (timeLeft - 1) }] }

/-- One task of the event loop on the Glass Bridge screen; `none` when the event cannot
happen: the screen is not active, a press finds no clickable tile of the row or comes
after a timer that is due, or no timer is pending. -/
def stepBridge (u : BridgeScreen) : BridgeEvent → Option BridgeScreen
  | BridgeEvent.click time side r =>
    if u.active && decide (u.now ≤ time) && u.timers.all (fun t => decide (time < t.due))
        && (side == "left" || side == "right") then
      match u.clickableRow with
      | some row =>
        if row < 5 then some (tilePointerDown side r { u with now := time }) else none
      | none => none
    else none
  | BridgeEvent.timer r1 r2 =>
    if !u.active then none
    else
      match nextTimer u.timers with
      | none => none
      | some t =>
        let u1 : BridgeScreen := { u with now := t.due, timers := u.timers.erase t }
        match t.callback with
        | BridgeCallback.actionTimer timeLeft => some (actionTimerTick t.due timeLeft r1 r2 u1)
        | BridgeCallback.resume i survived stage =>
          some (resumeBridgeChoice i survived stage r1 u1)

/-- The screen after a sequence of events, `none` if one of them cannot happen. -/
def runBridge (u : BridgeScreen) : List BridgeEvent → Option BridgeScreen
  | [] => some u
  | e :: es =>
    match stepBridge u e with
    | none => none
    | some u1 => runBridge u1 es

/-- A session of two players, both alive, in the Glass Bridge, its rulebook read. -/
def twoPlayerBridge : GameState :=
  { players := [{ name := "A" }, { name := "B" }], currentGameIndex := 1, rulesShown := [1, 0] }

/-- Four tile presses of the first player, each followed by the timer that lets its run
of `handleBridgeChoice` go on; every resolver draw is 0, so every step is survived. -/
def fourSafeSteps : List BridgeEvent :=
  [BridgeEvent.click 100 "left" 0, BridgeEvent.timer 0 0,
   BridgeEvent.click 1000 "left" 0, BridgeEvent.timer 0 0,
   BridgeEvent.click 1900 "right" 0, BridgeEvent.timer 0 0,
   BridgeEvent.click 2800 "left" 0, BridgeEvent.timer 0 0]

/-- Nine ticks of the action timer. -/
def nineTicks : List BridgeEvent :=
  List.replicate 9 (BridgeEvent.timer 0 0)

/-- The tenth tick: the timeout picks `"left"` and the resolver, with the draw 0.9, lets
the tile break. -/
def timeoutBreaks : BridgeEvent :=
  BridgeEvent.timer 0 0.9

/-! ## Lemmas on the roster vocabulary -/

theorem aliveAt_of_lt (players : List Player) (i : Nat) (h : i < players.length) :
    aliveAt players i = (players[i]).alive := by
  simp [aliveAt, List.getElem?_eq_getElem h]

theorem aliveAt_of_ge (players : List Player) (i : Nat) (h : players.length ≤ i) :
    aliveAt players i = false := by
  simp [aliveAt, List.getElem?_eq_none h]

theorem aliveAt_lt_length {players : List Player} {i : Nat} (h : aliveAt players i = true) :
    i < players.length := by
  by_contra hc
  rw [aliveAt_of_ge players i (by omega)] at h
  exact Bool.noConfusion h

theorem aliveAt_iff_getElem? (players : List Player) (i : Nat) :
    aliveAt players i = true ↔ ∃ p, players[i]? = some p ∧ p.alive = true := by
  unfold aliveAt
  cases players[i]? <;> simp

theorem exists_aliveAt_of_mem {players : List Player} (h : ∃ p ∈ players, p.alive = true) :
    ∃ i, aliveAt players i = true := by
  obtain ⟨p, hp, ha⟩ := h
  obtain ⟨i, hi, rfl⟩ := List.getElem_of_mem hp
  exact ⟨i, by rw [aliveAt_of_lt players i hi]; exact ha⟩

/-! ## The two cursor loops -/

/-- What the `do ... while` loop of `nextPlayer` computes. -/
theorem nextPlayerLoop_spec (players : List Player) (i : Nat) :
    ((nextPlayerLoop players i).2 = true →
        i < (nextPlayerLoop players i).1 ∧
        aliveAt players (nextPlayerLoop players i).1 = true ∧
        ∀ k, i < k → k < (nextPlayerLoop players i).1 → aliveAt players k = false) ∧
    ((nextPlayerLoop players i).2 = false →
        (nextPlayerLoop players i).1 = 0 ∧ ∀ k, i < k → aliveAt players k = false) := by
  generalize hn : players.length - i = n
  induction n using Nat.strong_induction_on generalizing i with
  | _ n ih =>
    subst hn
    rw [nextPlayerLoop]
    by_cases h : i + 1 ≥ players.length
    · simp only [h, dite_true]
      refine ⟨fun hc => by simp at hc, fun _ => ⟨by simp, fun k hk => ?_⟩⟩
      exact aliveAt_of_ge players k (by omega)
    · have hlt : i + 1 < players.length := by omega
      simp only [h, dite_false]
      by_cases ha : (players[i + 1]).alive = true
      · simp only [ha, Bool.not_true, Bool.false_eq_true, if_false]
        refine ⟨fun _ => ⟨Nat.lt_succ_self i, ?_, fun k h1 h2 => ?_⟩, fun hc => Bool.noConfusion hc⟩
        · rw [aliveAt_of_lt players (i + 1) hlt]; exact ha
        · omega
      · have ha' : (players[i + 1]).alive = false := by simpa using ha
        simp only [ha', Bool.not_false, if_true]
        have hrec := ih (players.length - (i + 1)) (by omega) (i + 1) rfl
        have hdead : aliveAt players (i + 1) = false := by
          rw [aliveAt_of_lt players (i + 1) hlt]; exact ha'
        refine ⟨fun hr => ?_, fun hr => ?_⟩
        · obtain ⟨h1, h2, h3⟩ := hrec.1 hr
          refine ⟨by omega, h2, fun k hk1 hk2 => ?_⟩
          by_cases hk : k = i + 1
          · rw [hk]; exact hdead
          · exact h3 k (by omega) hk2
        · obtain ⟨h1, h2⟩ := hrec.2 hr
          refine ⟨h1, fun k hk1 => ?_⟩
          by_cases hk : k = i + 1
          · rw [hk]; exact hdead
          · exact h2 k (by omega)

/-- What the skipping loop of `nextGame` and `resetToFirstAlivePlayer` computes. -/
theorem skipEliminated_spec (players : List Player) (i : Nat) :
    i ≤ skipEliminated players i ∧
    (∀ k, i ≤ k → k < skipEliminated players i → aliveAt players k = false) ∧
    (skipEliminated players i < players.length →
        aliveAt players (skipEliminated players i) = true) ∧
    (i ≤ players.length → skipEliminated players i ≤ players.length) := by
  generalize hn : players.length - i = n
  induction n using Nat.strong_induction_on generalizing i with
  | _ n ih =>
    subst hn
    rw [skipEliminated]
    by_cases h : i < players.length
    · simp only [h, dite_true]
      by_cases ha : (players[i]).alive = true
      · simp only [ha, Bool.not_true, Bool.false_eq_true, if_false]
        refine ⟨le_refl i, fun k h1 h2 => by omega, fun _ => ?_, fun hle => hle⟩
        rw [aliveAt_of_lt players i h]; exact ha
      · have ha' : (players[i]).alive = false := by simpa using ha
        simp only [ha', Bool.not_false, if_true]
        obtain ⟨h1, h2, h3, h4⟩ := ih (players.length - (i + 1)) (by omega) (i + 1) rfl
        refine ⟨by omega, fun k hk1 hk2 => ?_, h3, fun _ => h4 (by omega)⟩
        by_cases hk : k = i
        · rw [hk, aliveAt_of_lt players i h]; exact ha'
        · exact h2 k (by omega) hk2
    · simp only [h, dite_false]
      refine ⟨le_refl i, fun k h1 h2 => by omega, fun hc => by simp [h] at hc, fun hle => hle⟩

/-! ## The list of alive indices -/

theorem mem_aliveIndices (players : List Player) (i : Nat) :
    i ∈ aliveIndices players ↔ aliveAt players i = true := by
  unfold aliveIndices
  rw [List.mem_filter, List.mem_range]
  exact ⟨fun h => h.2, fun h => ⟨aliveAt_lt_length h, h⟩⟩

theorem aliveIndices_pairwise (players : List Player) :
    List.Pairwise (fun a b => a < b) (aliveIndices players) :=
  List.Pairwise.filter _ (List.pairwise_lt_range players.length)

theorem aliveIndices_index_lt (players : List Player) {m k a b : Nat}
    (hm : (aliveIndices players)[m]? = some a) (hk : (aliveIndices players)[k]? = some b)
    (hab : a < b) : m < k := by
  obtain ⟨hm1, rfl⟩ := List.getElem?_eq_some.mp hm
  obtain ⟨hk1, rfl⟩ := List.getElem?_eq_some.mp hk
  have hp := List.pairwise_iff_getElem.mp (aliveIndices_pairwise players)
  by_contra hc
  rcases Nat.lt_or_ge k m with h | h
  · have := hp k m hk1 hm1 h
    omega
  · have hmk : m = k := by omega
    subst hmk
    omega

theorem aliveIndices_first (players : List Player) (j : Nat)
    (hj : aliveAt players j = true) (hbelow : ∀ i, i < j → aliveAt players i = false) :
    (aliveIndices players)[0]? = some j := by
  obtain ⟨m, hm, hmj⟩ := List.getElem_of_mem ((mem_aliveIndices players j).mpr hj)
  have h0 : 0 < (aliveIndices players).length := by omega
  rw [List.getElem?_eq_getElem h0]
  have halive : aliveAt players ((aliveIndices players)[0]) = true :=
    (mem_aliveIndices players _).mp (List.getElem_mem h0)
  by_cases hlt : (aliveIndices players)[0] < j
  · rw [hbelow _ hlt] at halive
    exact Bool.noConfusion halive
  · have hm0 : ¬ 0 < m := by
      intro hpos
      have := List.pairwise_iff_getElem.mp (aliveIndices_pairwise players) 0 m h0 hm hpos
      omega
    have : m = 0 := by omega
    subst this
    rw [hmj]

theorem aliveIndices_next (players : List Player) (k c j : Nat)
    (hk : (aliveIndices players)[k]? = some c) (hcj : c < j)
    (hj : aliveAt players j = true)
    (hbetween : ∀ i, c < i → i < j → aliveAt players i = false) :
    (aliveIndices players)[k + 1]? = some j := by
  obtain ⟨m, hm, hmj⟩ := List.getElem_of_mem ((mem_aliveIndices players j).mpr hj)
  have hmj' : (aliveIndices players)[m]? = some j := by
    rw [List.getElem?_eq_getElem hm, hmj]
  have hkm : k < m := aliveIndices_index_lt players hk hmj' hcj
  have hk1 : k + 1 < (aliveIndices players).length := by omega
  obtain ⟨hk0, hkc⟩ := List.getElem?_eq_some.mp hk
  have hp := List.pairwise_iff_getElem.mp (aliveIndices_pairwise players)
  have hgt : c < (aliveIndices players)[k + 1] := by
    have := hp k (k + 1) hk0 hk1 (Nat.lt_succ_self k)
    omega
  have halive : aliveAt players ((aliveIndices players)[k + 1]) = true :=
    (mem_aliveIndices players _).mp (List.getElem_mem hk1)
  by_cases hmk : m = k + 1
  · subst hmk
    exact hmj'
  · have hlt : (aliveIndices players)[k + 1] < j := by
      have := hp (k + 1) m hk1 hm (by omega)
      omega
    rw [hbetween _ hgt hlt] at halive
    exact Bool.noConfusion halive

theorem aliveIndices_last (players : List Player) (k c : Nat)
    (hk : (aliveIndices players)[k]? = some c)
    (habove : ∀ i, c < i → aliveAt players i = false) :
    (aliveIndices players).length = k + 1 := by
  obtain ⟨hk0, hkc⟩ := List.getElem?_eq_some.mp hk
  by_contra hne
  have hk1 : k + 1 < (aliveIndices players).length := by omega
  have hp := List.pairwise_iff_getElem.mp (aliveIndices_pairwise players)
  have hgt : c < (aliveIndices players)[k + 1] := by
    have := hp k (k + 1) hk0 hk1 (Nat.lt_succ_self k)
    omega
  have halive : aliveAt players ((aliveIndices players)[k + 1]) = true :=
    (mem_aliveIndices players _).mp (List.getElem_mem hk1)
  rw [habove _ hgt] at halive
  exact Bool.noConfusion halive

/-- The cursor after `resetToFirstAlivePlayer` on a roster with an alive player. -/
theorem skipEliminated_zero_alive (players : List Player)
    (h : ∃ i, aliveAt players i = true) :
    aliveAt players (skipEliminated players 0) = true ∧
    ∀ k, k < skipEliminated players 0 → aliveAt players k = false := by
  obtain ⟨h1, h2, h3, h4⟩ := skipEliminated_spec players 0
  obtain ⟨i, hi⟩ := h
  refine ⟨h3 ?_, fun k hk => h2 k (Nat.zero_le k) hk⟩
  have hil := aliveAt_lt_length hi
  by_contra hc
  have := h2 i (Nat.zero_le i) (by omega)
  rw [this] at hi
  exact Bool.noConfusion hi

/-- The loop of `nextPlayer` reads only the liveness of the players after index `i`. -/
theorem nextPlayerLoop_congr (players roster : List Player) (i : Nat)
    (h : ∀ j, i < j → aliveAt roster j = aliveAt players j) :
    ((nextPlayerLoop roster i).2 = true →
        i < (nextPlayerLoop roster i).1 ∧
        aliveAt players (nextPlayerLoop roster i).1 = true ∧
        ∀ k, i < k → k < (nextPlayerLoop roster i).1 → aliveAt players k = false) ∧
    ((nextPlayerLoop roster i).2 = false →
        (nextPlayerLoop roster i).1 = 0 ∧ ∀ k, i < k → aliveAt players k = false) := by
  obtain ⟨ht, hf⟩ := nextPlayerLoop_spec roster i
  refine ⟨fun hr => ?_, fun hr => ?_⟩
  · obtain ⟨h1, h2, h3⟩ := ht hr
    exact ⟨h1, by rw [← h _ h1]; exact h2, fun k hk1 hk2 => by rw [← h k hk1]; exact h3 k hk1 hk2⟩
  · obtain ⟨h1, h2⟩ := hf hr
    exact ⟨h1, fun k hk => by rw [← h k hk]; exact h2 k hk⟩

theorem roundCursor_visits (s0 : GameState) (rosters : Nat → List Player)
    (halive : ∃ p ∈ s0.players, p.alive = true)
    (hframe : ∀ k, k < (aliveIndices s0.players).length →
      ∀ j, (roundCursor s0 rosters k).1.currentPlayerIndex < j →
        aliveAt (rosters k) j = aliveAt s0.players j) (k : Nat)
    (hk : k < (aliveIndices s0.players).length) :
    (roundCursor s0 rosters k).2 = true ∧
    (aliveIndices s0.players)[k]? = some (roundCursor s0 rosters k).1.currentPlayerIndex := by
  induction k with
  | zero =>
    obtain ⟨h1, h2⟩ := skipEliminated_zero_alive s0.players (exists_aliveAt_of_mem halive)
    exact ⟨rfl, aliveIndices_first s0.players _ h1 h2⟩
  | succ k ih =>
    obtain ⟨_, hcur⟩ := ih (by omega)
    have hfr := hframe k (by omega)
    obtain ⟨ht, hf⟩ := nextPlayerLoop_congr s0.players (rosters k)
      (roundCursor s0 rosters k).1.currentPlayerIndex hfr
    have hflag : (nextPlayerLoop (rosters k)
        (roundCursor s0 rosters k).1.currentPlayerIndex).2 = true := by
      by_contra hc
      have hc' : (nextPlayerLoop (rosters k)
          (roundCursor s0 rosters k).1.currentPlayerIndex).2 = false := by simpa using hc
      have := aliveIndices_last s0.players k _ hcur (hf hc').2
      omega
    obtain ⟨h1, h2, h3⟩ := ht hflag
    exact ⟨hflag, aliveIndices_next s0.players k _ _ hcur h1 h2 h3⟩

/-! ## Turn cursor: the claims -/

/-- C1. On a roster with at least one alive player, start a round with
`resetToFirstAlivePlayer` and call `nextPlayer` repeatedly, the liveness of the players
after the cursor being the same at every call as at the start of the round (the players
already visited may have been eliminated meanwhile). Then the cursor positions, in call
order, are exactly the indices of the alive players in increasing order, each once:
every call made before the last alive player returns `true`, and the call made from the
last alive player returns `false`. -/
theorem nextPlayer_visits_each_alive_once (s0 : GameState) (rosters : Nat → List Player)
    (halive : ∃ p ∈ s0.players, p.alive = true)
    (hframe : ∀ k, k < (aliveIndices s0.players).length →
      ∀ j, (roundCursor s0 rosters k).1.currentPlayerIndex < j →
        aliveAt (rosters k) j = aliveAt s0.players j) :
    (List.range (aliveIndices s0.players).length).map
        (fun k => (roundCursor s0 rosters k).1.currentPlayerIndex) = aliveIndices s0.players ∧
    (∀ k, k < (aliveIndices s0.players).length → (roundCursor s0 rosters k).2 = true) ∧
    (roundCursor s0 rosters (aliveIndices s0.players).length).2 = false ∧
    0 < (aliveIndices s0.players).length ∧
    List.Pairwise (fun a b => a < b) (aliveIndices s0.players) ∧
    (∀ i, i ∈ aliveIndices s0.players ↔ ∃ p, s0.players[i]? = some p ∧ p.alive = true) := by
  have hvisit := roundCursor_visits s0 rosters halive hframe
  have hpos : 0 < (aliveIndices s0.players).length := by
    obtain ⟨i, hi⟩ := exists_aliveAt_of_mem halive
    exact List.length_pos_of_mem ((mem_aliveIndices s0.players i).mpr hi)
  refine ⟨?_, fun k hk => (hvisit k hk).1, ?_, hpos, aliveIndices_pairwise s0.players, ?_⟩
  · apply List.ext_getElem
    · simp
    · intro k h1 h2
      have := (hvisit k h2).2
      rw [List.getElem?_eq_getElem h2] at this
      simp only [List.getElem_map, List.getElem_range]
      exact (Option.some.inj this).symm
  · obtain ⟨n, hn⟩ : ∃ n, (aliveIndices s0.players).length = n + 1 := ⟨_, (Nat.succ_pred_eq_of_pos hpos).symm⟩
    rw [hn]
    obtain ⟨_, hcur⟩ := hvisit n (by omega)
    obtain ⟨ht, _⟩ := nextPlayerLoop_congr s0.players (rosters n)
      (roundCursor s0 rosters n).1.currentPlayerIndex (hframe n (by omega))
    by_contra hc
    have hc' : (nextPlayerLoop (rosters n)
        (roundCursor s0 rosters n).1.currentPlayerIndex).2 = true := by simpa [roundCursor, nextPlayer] using hc
    obtain ⟨h1, h2, h3⟩ := ht hc'
    have hnext := aliveIndices_next s0.players n _ _ hcur h1 h2 h3
    have := (List.getElem?_eq_some.mp hnext).1
    omega
  · intro i
    rw [mem_aliveIndices, aliveAt_iff_getElem?]

/-- A round on the roster dead, alive, alive in which the second player is eliminated
during its own turn: the cursor visits indices 1 and 2 and the third call reports the
round complete. -/
theorem nextPlayer_visits_each_alive_once_witness :
    (List.range 2).map (fun k =>
        (roundCursor { players := [{ name := "a", alive := false }, { name := "b" }, { name := "c" }] }
          (fun _ => [{ name := "a", alive := false }, { name := "b", alive := false }, { name := "c" }])
          k).1.currentPlayerIndex) = [1, 2] ∧
    (roundCursor { players := [{ name := "a", alive := false }, { name := "b" }, { name := "c" }] }
      (fun _ => [{ name := "a", alive := false }, { name := "b", alive := false }, { name := "c" }])
      2).2 = false := by
  have hA : aliveIndices [({ name := "a", alive := false } : Player), { name := "b" }, { name := "c" }]
      = [1, 2] := by decide
  have h := nextPlayer_visits_each_alive_once
    { players := [{ name := "a", alive := false }, { name := "b" }, { name := "c" }] }
    (fun _ => [{ name := "a", alive := false }, { name := "b", alive := false }, { name := "c" }])
    ⟨{ name := "b" }, by simp, rfl⟩
    (by
      intro k hk j hj
      simp only [hA, List.length_cons, List.length_nil] at hk
      have hk' : k = 0 ∨ k = 1 := by omega
      rcases hk' with rfl | rfl
      · have hc : (roundCursor { players := [{ name := "a", alive := false }, { name := "b" }, { name := "c" }] }
          (fun _ => [{ name := "a", alive := false }, { name := "b", alive := false }, { name := "c" }])
          0).1.currentPlayerIndex = 1 := by
          simp [roundCursor, resetToFirstAlivePlayer, skipEliminated]
        rw [hc] at hj
        match j, hj with
        | 2, _ => rfl
        | j + 3, _ => simp [aliveAt]
      · have hc : (roundCursor { players := [{ name := "a", alive := false }, { name := "b" }, { name := "c" }] }
          (fun _ => [{ name := "a", alive := false }, { name := "b", alive := false }, { name := "c" }])
          1).1.currentPlayerIndex = 2 := by
          simp [roundCursor, resetToFirstAlivePlayer, skipEliminated, nextPlayer, nextPlayerLoop]
        rw [hc] at hj
        match j, hj with
        | j + 3, _ => simp [aliveAt])
  rw [hA] at h
  exact ⟨h.1, h.2.2.1⟩

/-- C2, as stated, fails. Two players start a session, the first is eliminated during
its turn, `nextPlayer` moves to the second (returns `true`), and the `nextPlayer` call
after the second turn returns `false` and leaves the cursor on index 0: a player is
alive, yet `getCurrentPlayer` returns the eliminated first player. -/
theorem cursor_invariant_fails_after_round_complete :
    (nextPlayer (markEliminated (startSession ["A", "B"]) 0)).2 = true ∧
    (nextPlayer (nextPlayer (markEliminated (startSession ["A", "B"]) 0)).1).2 = false ∧
    (∃ p ∈ (nextPlayer (nextPlayer (markEliminated (startSession ["A", "B"]) 0)).1).1.players,
      p.alive = true) ∧
    getCurrentPlayer (nextPlayer (nextPlayer (markEliminated (startSession ["A", "B"]) 0)).1).1
      = some { name := "A", alive := false } := by
  refine ⟨?_, ?_, ⟨{ name := "B" }, ?_, rfl⟩, ?_⟩ <;>
    simp [startSession, createRoster, markEliminated, nextPlayer, nextPlayerLoop,
      getCurrentPlayer, List.enum, List.enumFrom, List.modify]

/-- C2, amended. On a roster with an alive player, `getCurrentPlayer` returns an alive
player after `nextGame`, after `resetToFirstAlivePlayer` and after every `nextPlayer`
call that returns `true`; a `nextPlayer` call that returns `false` leaves the cursor on
index 0 and the roster as it was. -/
theorem cursor_on_alive_player (s : GameState) (halive : ∃ p ∈ s.players, p.alive = true) :
    (∃ p, getCurrentPlayer (nextGame s) = some p ∧ p.alive = true) ∧
    (∃ p, getCurrentPlayer (resetToFirstAlivePlayer s) = some p ∧ p.alive = true) ∧
    ((nextPlayer s).2 = true →
      ∃ p, getCurrentPlayer (nextPlayer s).1 = some p ∧ p.alive = true) ∧
    ((nextPlayer s).2 = false →
      (nextPlayer s).1.currentPlayerIndex = 0 ∧ (nextPlayer s).1.players = s.players) := by
  have h0 := (skipEliminated_zero_alive s.players (exists_aliveAt_of_mem halive)).1
  refine ⟨?_, ?_, fun hr => ?_, fun hr => ⟨?_, rfl⟩⟩
  · exact (aliveAt_iff_getElem? _ _).mp h0
  · exact (aliveAt_iff_getElem? _ _).mp h0
  · exact (aliveAt_iff_getElem? _ _).mp ((nextPlayerLoop_spec s.players s.currentPlayerIndex).1 hr).2.1
  · exact ((nextPlayerLoop_spec s.players s.currentPlayerIndex).2 hr).1

/-- The amended cursor invariant at the state of the counterexample: after the round
completes on the roster dead, alive, `resetToFirstAlivePlayer` puts the cursor on the
alive player. -/
theorem cursor_on_alive_player_witness :
    ∃ p, getCurrentPlayer (resetToFirstAlivePlayer
      { players := [{ name := "A", alive := false }, { name := "B" }] }) = some p ∧
      p.alive = true :=
  (cursor_on_alive_player { players := [{ name := "A", alive := false }, { name := "B" }] }
    ⟨{ name := "B" }, by simp, rfl⟩).2.1

/-- C3. `nextPlayer` returns `true` exactly when some alive player has an index greater
than the cursor, and then the new cursor is the least such index; otherwise it returns
`false` and the cursor is 0. The roster and the other fields are untouched. -/
theorem nextPlayer_result (s : GameState) :
    ((nextPlayer s).2 = true ↔ ∃ j, s.currentPlayerIndex < j ∧ aliveAt s.players j = true) ∧
    ((nextPlayer s).2 = true →
      s.currentPlayerIndex < (nextPlayer s).1.currentPlayerIndex ∧
      aliveAt s.players (nextPlayer s).1.currentPlayerIndex = true ∧
      ∀ k, s.currentPlayerIndex < k → k < (nextPlayer s).1.currentPlayerIndex →
        aliveAt s.players k = false) ∧
    ((nextPlayer s).2 = false → (nextPlayer s).1.currentPlayerIndex = 0) ∧
    (nextPlayer s).1.players = s.players ∧
    (nextPlayer s).1.currentGameIndex = s.currentGameIndex ∧
    (nextPlayer s).1.glassBridgeGuaranteedName = s.glassBridgeGuaranteedName := by
  obtain ⟨ht, hf⟩ := nextPlayerLoop_spec s.players s.currentPlayerIndex
  refine ⟨⟨fun hr => ?_, fun hj => ?_⟩, ht, fun hr => (hf hr).1, rfl, rfl, rfl⟩
  · obtain ⟨h1, h2, _⟩ := ht hr
    exact ⟨_, h1, h2⟩
  · obtain ⟨j, hj1, hj2⟩ := hj
    by_contra hc
    have hc' : (nextPlayerLoop s.players s.currentPlayerIndex).2 = false := by
      simpa [nextPlayer] using hc
    rw [(hf hc').2 j hj1] at hj2
    exact Bool.noConfusion hj2

/-- C4. After `resetToFirstAlivePlayer` the cursor is the least index of an alive player
and `getCurrentPlayer` returns that player; when no player is alive the cursor equals the
roster length and `getCurrentPlayer` returns the absent value. -/
theorem resetToFirstAlivePlayer_cursor (s : GameState) :
    ((∃ p ∈ s.players, p.alive = true) →
      (∃ p, s.players[(resetToFirstAlivePlayer s).currentPlayerIndex]? = some p ∧
        getCurrentPlayer (resetToFirstAlivePlayer s) = some p ∧ p.alive = true) ∧
      ∀ k, k < (resetToFirstAlivePlayer s).currentPlayerIndex → aliveAt s.players k = false) ∧
    ((∀ p ∈ s.players, p.alive = false) →
      (resetToFirstAlivePlayer s).currentPlayerIndex = s.players.length ∧
      getCurrentPlayer (resetToFirstAlivePlayer s) = none) ∧
    (resetToFirstAlivePlayer s).players = s.players := by
  refine ⟨fun halive => ?_, fun hdead => ?_, rfl⟩
  · obtain ⟨h1, h2⟩ := skipEliminated_zero_alive s.players (exists_aliveAt_of_mem halive)
    obtain ⟨p, hp, ha⟩ := (aliveAt_iff_getElem? _ _).mp h1
    exact ⟨⟨p, hp, hp, ha⟩, h2⟩
  · obtain ⟨_, h2, h3, h4⟩ := skipEliminated_spec s.players 0
    have hlen : (resetToFirstAlivePlayer s).currentPlayerIndex = s.players.length := by
      have hle := h4 (Nat.zero_le _)
      by_contra hne
      have hlt : skipEliminated s.players 0 < s.players.length :=
        lt_of_le_of_ne hle hne
      obtain ⟨p, hp, ha⟩ := (aliveAt_iff_getElem? _ _).mp (h3 hlt)
      have hmem : p ∈ s.players := List.getElem?_mem hp
      rw [hdead p hmem] at ha
      exact Bool.noConfusion ha
    refine ⟨hlen, ?_⟩
    unfold getCurrentPlayer
    rw [hlen]
    exact List.getElem?_eq_none (le_refl _)

/-! ## The Tug of War filter -/

theorem foldl_max_spec (ms : List Int) (m : Int) :
    m ≤ ms.foldl max m ∧ (∀ x ∈ ms, x ≤ ms.foldl max m) ∧
    (ms.foldl max m = m ∨ ms.foldl max m ∈ ms) := by
  induction ms generalizing m with
  | nil => simp
  | cons a as ih =>
    obtain ⟨h1, h2, h3⟩ := ih (max m a)
    simp only [List.foldl_cons, List.mem_cons]
    refine ⟨le_trans (le_max_left m a) h1, ?_, ?_⟩
    · intro x hx
      rcases hx with rfl | hx
      · exact le_trans (le_max_right m x) h1
      · exact h2 x hx
    · rcases h3 with h | h
      · rcases max_choice m a with hm | hm
        · left; rw [h, hm]
        · right; left; rw [h, hm]
      · right; right; exact h

/-- The maximum computed by the filter is attained by an alive player and bounds the
floored strength of every alive player. -/
theorem maxStrength_spec (players : List Player) (m : Int) (ms : List Int)
    (h : (players.filter (fun p => p.alive)).map floorStrength = m :: ms) :
    (∀ q ∈ players, q.alive = true → floorStrength q ≤ ms.foldl max m) ∧
    ∃ q ∈ players, q.alive = true ∧ floorStrength q = ms.foldl max m := by
  obtain ⟨h1, h2, h3⟩ := foldl_max_spec ms m
  have hmem : ∀ x, x ∈ m :: ms ↔ ∃ q ∈ players, q.alive = true ∧ floorStrength q = x := by
    intro x
    rw [← h, List.mem_map]
    constructor
    · rintro ⟨q, hq, rfl⟩
      rw [List.mem_filter] at hq
      exact ⟨q, hq.1, hq.2, rfl⟩
    · rintro ⟨q, hq, ha, rfl⟩
      exact ⟨q, List.mem_filter.mpr ⟨hq, ha⟩, rfl⟩
  constructor
  · intro q hq ha
    have : floorStrength q ∈ m :: ms := (hmem _).mpr ⟨q, hq, ha, rfl⟩
    rcases List.mem_cons.mp this with hx | hx
    · rw [hx]; exact h1
    · exact h2 _ hx
  · apply (hmem _).mp
    rcases h3 with h | h
    · rw [h]; exact List.mem_cons_self m ms
    · exact List.mem_cons_of_mem m h

/-- The roster entry at index `i` after the filter. -/
theorem tugOfWarFilter_getElem? (players : List Player) (i : Nat) (p : Player)
    (hp : players[i]? = some p) :
    (p.alive = false → (tugOfWarFilter players)[i]? = some p) ∧
    (p.alive = true →
      (tugOfWarFilter players)[i]? = some
        { p with alive := decide (∀ q ∈ players, q.alive = true → floorStrength q ≤ floorStrength p) }) := by
  unfold tugOfWarFilter
  split
  · rename_i hnil
    have hnone : ∀ q ∈ players, q.alive = true → False := by
      intro q hq ha
      have : floorStrength q ∈ (players.filter (fun p => p.alive)).map floorStrength :=
        List.mem_map.mpr ⟨q, List.mem_filter.mpr ⟨hq, ha⟩, rfl⟩
      rw [hnil] at this
      exact List.not_mem_nil _ this
    exact ⟨fun _ => hp, fun ha => (hnone p (List.getElem?_mem hp) ha).elim⟩
  · rename_i m ms hcons
    obtain ⟨hle, q0, hq0, ha0, hmax⟩ := maxStrength_spec players m ms hcons
    simp only [List.getElem?_map, hp, Option.map_some']
    refine ⟨fun ha => by simp [ha], fun ha => ?_⟩
    simp only [ha, if_true]
    congr 2
    rw [decide_eq_decide]
    constructor
    · intro heq q hq hqa
      rw [heq]
      exact hle q hq hqa
    · intro hall
      exact le_antisymm (hle p (List.getElem?_mem hp) ha) (hmax ▸ hall q0 hq0 ha0)

theorem tugOfWarFilter_length (players : List Player) :
    (tugOfWarFilter players).length = players.length := by
  unfold tugOfWarFilter
  split <;> simp

theorem tugOfWarFilter_names (players : List Player) :
    (tugOfWarFilter players).map (fun p => p.name) = players.map (fun p => p.name) := by
  unfold tugOfWarFilter
  split
  · rfl
  · rw [List.map_map]
    apply List.map_congr_left
    intro p _
    by_cases h : p.alive = true <;> simp [h]

/-- Liveness after the filter, in terms of floored strengths. -/
theorem aliveAt_tugOfWarFilter (players : List Player) (i : Nat) :
    aliveAt (tugOfWarFilter players) i = true ↔
      ∃ p, players[i]? = some p ∧ p.alive = true ∧
        ∀ q ∈ players, q.alive = true → floorStrength q ≤ floorStrength p := by
  rw [aliveAt_iff_getElem?]
  constructor
  · rintro ⟨p', hp', ha'⟩
    have hlt : i < players.length := by
      have := (List.getElem?_eq_some.mp hp').1
      rw [tugOfWarFilter_length] at this
      exact this
    have hp : players[i]? = some players[i] := List.getElem?_eq_getElem hlt
    obtain ⟨hd, hal⟩ := tugOfWarFilter_getElem? players i _ hp
    by_cases ha : (players[i]).alive = true
    · refine ⟨_, hp, ha, ?_⟩
      rw [hal ha] at hp'
      have := Option.some.inj hp'
      rw [← this] at ha'
      simpa using ha'
    · have ha2 : (players[i]).alive = false := by simpa using ha
      rw [hd ha2] at hp'
      rw [← Option.some.inj hp'] at ha'
      exact absurd ha' ha
  · rintro ⟨p, hp, ha, hall⟩
    obtain ⟨_, hal⟩ := tugOfWarFilter_getElem? players i p hp
    exact ⟨_, hal ha, by simpa using hall⟩

theorem floorStrength_eq (p : Player) : floorStrength p = ⌊p.tugStrength⌋ := by
  unfold floorStrength
  split
  · rename_i h; rw [h]
  · rfl

theorem floorStrength_mono {p q : Player} (h : q.tugStrength ≤ p.tugStrength) :
    floorStrength q ≤ floorStrength p := by
  rw [floorStrength_eq, floorStrength_eq]
  exact Int.floor_mono h

/-- C5, as stated, fails. Two alive players finish Tug of War with strengths 12.5 and
12.25. The maximum accumulated strength among the alive players is 12.5 and the second
player is strictly below it, yet the second player is still alive after the filter:
both strengths are floored to 12 before they are compared. -/
theorem tugOfWarFilter_keeps_lower_strength :
    (12.25 : ℚ) < 12.5 ∧
    (∀ q ∈ [({ name := "A", tugStrength := 12.5 } : Player), { name := "B", tugStrength := 12.25 }],
      q.alive = true ∧ q.tugStrength ≤ 12.5) ∧
    [({ name := "A", tugStrength := 12.5 } : Player), { name := "B", tugStrength := 12.25 }][1]? =
      some { name := "B", tugStrength := 12.25 } ∧
    aliveAt (tugOfWarFilter
      [{ name := "A", tugStrength := 12.5 }, { name := "B", tugStrength := 12.25 }]) 1 = true := by
  refine ⟨by norm_num, ?_, rfl, ?_⟩
  · intro q hq
    simp only [List.mem_cons, List.mem_singleton, List.not_mem_nil, or_false] at hq
    rcases hq with rfl | rfl
    · exact ⟨rfl, le_refl _⟩
    · exact ⟨rfl, by norm_num⟩
  · rw [aliveAt_tugOfWarFilter]
    refine ⟨{ name := "B", tugStrength := 12.25 }, rfl, rfl, ?_⟩
    intro q hq _
    simp only [List.mem_cons, List.mem_singleton, List.not_mem_nil, or_false] at hq
    have hB : floorStrength { name := "B", tugStrength := 12.25 } = 12 := by
      rw [floorStrength_eq, Int.floor_eq_iff]; norm_num
    have hA : floorStrength { name := "A", tugStrength := 12.5 } = 12 := by
      rw [floorStrength_eq, Int.floor_eq_iff]; norm_num
    rcases hq with rfl | rfl
    · rw [hA, hB]
    · exact le_refl _

/-- C5, amended. The filter compares floored strengths, `Math.floor(p.tugStrength || 0)`:
an alive player whose floored strength is strictly below the floored strength of some
alive player becomes eliminated, and an alive player whose floored strength is at least
that of every alive player stays alive; in particular every alive player whose strength
equals the maximum strength among the alive players stays alive. -/
theorem tugOfWarFilter_floored (players : List Player) (i : Nat) (p : Player)
    (hp : players[i]? = some p) (ha : p.alive = true) :
    ((∃ q ∈ players, q.alive = true ∧ floorStrength p < floorStrength q) →
      aliveAt (tugOfWarFilter players) i = false) ∧
    ((∀ q ∈ players, q.alive = true → floorStrength q ≤ floorStrength p) →
      aliveAt (tugOfWarFilter players) i = true) ∧
    ((∀ q ∈ players, q.alive = true → q.tugStrength ≤ p.tugStrength) →
      aliveAt (tugOfWarFilter players) i = true) := by
  refine ⟨fun hlow => ?_, fun hmax => ?_, fun hmax => ?_⟩
  · obtain ⟨q, hq, hqa, hlt⟩ := hlow
    by_contra hc
    have hc' : aliveAt (tugOfWarFilter players) i = true := by simpa using hc
    obtain ⟨p', hp', _, hall⟩ := (aliveAt_tugOfWarFilter players i).mp hc'
    rw [hp] at hp'
    have hpp : p = p' := Option.some.inj hp'
    subst hpp
    have := hall q hq hqa
    omega
  · exact (aliveAt_tugOfWarFilter players i).mpr ⟨p, hp, ha, hmax⟩
  · exact (aliveAt_tugOfWarFilter players i).mpr
      ⟨p, hp, ha, fun q hq hqa => floorStrength_mono (hmax q hq hqa)⟩

/-- The amended filter rule on strengths 12.5, 12.25 and 9.75: the third player, whose
floored strength 9 is below 12, is eliminated. -/
theorem tugOfWarFilter_floored_witness :
    aliveAt (tugOfWarFilter
      [{ name := "A", tugStrength := 12.5 }, { name := "B", tugStrength := 12.25 },
       { name := "C", tugStrength := 9.75 }]) 2 = false :=
  (tugOfWarFilter_floored
    [{ name := "A", tugStrength := 12.5 }, { name := "B", tugStrength := 12.25 },
     { name := "C", tugStrength := 9.75 }] 2 { name := "C", tugStrength := 9.75 } rfl rfl).1
    ⟨{ name := "A", tugStrength := 12.5 }, by simp, rfl, by
      have hC : floorStrength { name := "C", tugStrength := 9.75 } = 9 := by
        rw [floorStrength_eq, Int.floor_eq_iff]; norm_num
      have hA : floorStrength { name := "A", tugStrength := 12.5 } = 12 := by
        rw [floorStrength_eq, Int.floor_eq_iff]; norm_num
      rw [hA, hC]; decide⟩

/-- C6. When all strengths are integers, a player is alive after the filter exactly when
it was alive before and no previously alive player has a greater strength. Alive
strengths 12, 12, 9 leave the two players at 12 alive; strengths 20, 15, 20, 5 leave the
two players at 20 alive and the other two eliminated. -/
theorem tugOfWarFilter_integer_strengths :
    (∀ players : List Player, (∀ p ∈ players, ((⌊p.tugStrength⌋ : Int) : ℚ) = p.tugStrength) →
      ∀ i, (aliveAt (tugOfWarFilter players) i = true ↔
        ∃ p, players[i]? = some p ∧ p.alive = true ∧
          ∀ q ∈ players, q.alive = true → q.tugStrength ≤ p.tugStrength)) ∧
    (tugOfWarFilter [{ name := "P1", tugStrength := 12 }, { name := "P2", tugStrength := 12 },
        { name := "P3", tugStrength := 9 }]).map (fun p => (p.name, p.alive))
      = [("P1", true), ("P2", true), ("P3", false)] ∧
    (tugOfWarFilter [{ name := "P1", tugStrength := 20 }, { name := "P2", tugStrength := 15 },
        { name := "P3", tugStrength := 20 }, { name := "P4", tugStrength := 5 }]).map
        (fun p => (p.name, p.alive))
      = [("P1", true), ("P2", false), ("P3", true), ("P4", false)] := by
  refine ⟨?_, ?_, ?_⟩
  · intro players hint i
    rw [aliveAt_tugOfWarFilter]
    constructor
    · rintro ⟨p, hp, ha, hall⟩
      refine ⟨p, hp, ha, fun q hq hqa => ?_⟩
      have h := hall q hq hqa
      rw [floorStrength_eq, floorStrength_eq] at h
      rw [← hint q hq, ← hint p (List.getElem?_mem hp)]
      exact_mod_cast h
    · rintro ⟨p, hp, ha, hall⟩
      exact ⟨p, hp, ha, fun q hq hqa => floorStrength_mono (hall q hq hqa)⟩
  · simp [tugOfWarFilter, floorStrength]
  · simp [tugOfWarFilter, floorStrength]

/-! ## Roster frame: what the session operations do to the roster -/

theorem moveToNextPlayer_players (s : GameState) :
    (moveToNextPlayer s).1.players = s.players ∨
    (moveToNextPlayer s).1.players = tugOfWarFilter s.players := by
  unfold moveToNextPlayer
  simp only [nextPlayer, nextGame, resetToFirstAlivePlayer]
  split_ifs
  all_goals first
    | (left; rfl)
    | (right; rfl)

/-- Every session operation leaves the roster as it was, applies the Tug of War filter
to it, or clears the `alive` flag of one entry. -/
theorem applyOp_players (s : GameState) (op : SessionOp) :
    (applyOp s op).players = s.players ∨
    (applyOp s op).players = tugOfWarFilter s.players ∨
    ∃ j, (applyOp s op).players = s.players.modify (fun p => { p with alive := false }) j := by
  cases op with
  | nextPlayer => left; rfl
  | nextGame => left; rfl
  | resetToFirstAlivePlayer => left; rfl
  | eliminate i => right; right; exact ⟨i, rfl⟩
  | tugOfWarFilter => right; left; rfl
  | moveToNextPlayer =>
    rcases moveToNextPlayer_players s with h | h
    · left; exact h
    · right; left; exact h

theorem tugOfWarFilter_forgetAlive (players : List Player) :
    (tugOfWarFilter players).map forgetAlive = players.map forgetAlive := by
  unfold tugOfWarFilter
  split
  · rfl
  · rw [List.map_map]
    apply List.map_congr_left
    intro p _
    by_cases h : p.alive = true <;> simp [h, forgetAlive]

theorem modify_forgetAlive (players : List Player) (j : Nat) :
    (players.modify (fun p => { p with alive := false }) j).map forgetAlive
      = players.map forgetAlive := by
  apply List.ext_getElem?
  intro n
  rw [List.getElem?_map, List.getElem?_map, List.getElem?_modify]
  cases players[n]? with
  | none => rfl
  | some p => by_cases h : j = n <;> simp [h, forgetAlive]

theorem modify_dead (players : List Player) (j i : Nat) (p : Player)
    (hp : players[i]? = some p) (hd : p.alive = false) :
    (players.modify (fun p => { p with alive := false }) j)[i]? = some p := by
  rw [List.getElem?_modify, hp]
  by_cases h : j = i
  · cases p
    simp only at hd
    simp [h, hd]
  · simp [h]

/-- One operation changes no field but `alive`, and leaves an eliminated entry as it is. -/
theorem applyOp_frame (s : GameState) (op : SessionOp) :
    (applyOp s op).players.map forgetAlive = s.players.map forgetAlive ∧
    ∀ (i : Nat) (p : Player), s.players[i]? = some p → p.alive = false → (applyOp s op).players[i]? = some p := by
  rcases applyOp_players s op with h | h | ⟨j, h⟩
  · rw [h]; exact ⟨rfl, fun i p hp _ => hp⟩
  · rw [h]
    exact ⟨tugOfWarFilter_forgetAlive _, fun i p hp hd => (tugOfWarFilter_getElem? _ i p hp).1 hd⟩
  · rw [h]
    exact ⟨modify_forgetAlive _ j, fun i p hp hd => modify_dead _ j i p hp hd⟩

theorem runOps_frame (ops : List SessionOp) (s : GameState) :
    (runOps s ops).players.map forgetAlive = s.players.map forgetAlive ∧
    ∀ (i : Nat) (p : Player), s.players[i]? = some p → p.alive = false → (runOps s ops).players[i]? = some p := by
  induction ops generalizing s with
  | nil => exact ⟨rfl, fun i p hp _ => hp⟩
  | cons op ops ih =>
    obtain ⟨h1, h2⟩ := applyOp_frame s op
    obtain ⟨h3, h4⟩ := ih (applyOp s op)
    refine ⟨?_, fun i p hp hd => ?_⟩
    · show (runOps (applyOp s op) ops).players.map forgetAlive = _
      rw [h3, h1]
    · show (runOps (applyOp s op) ops).players[i]? = some p
      exact h4 i p (h2 i p hp hd) hd

theorem names_of_forgetAlive {ps qs : List Player}
    (h : ps.map forgetAlive = qs.map forgetAlive) :
    ps.map (fun p => p.name) = qs.map (fun p => p.name) := by
  have := congrArg (List.map (fun p : Player => p.name)) h
  simpa [List.map_map, Function.comp_def, forgetAlive] using this

/-- C7. Elimination is permanent: through any sequence of cursor advances, game
advances, eliminations by a turn handler, Tug of War filterings and player/game
transitions, a roster entry whose `alive` flag is `false` stays at its index with the
flag still `false` (the entry is unchanged). -/
theorem elimination_is_permanent (s : GameState) (ops : List SessionOp) (i : Nat) (p : Player)
    (hp : s.players[i]? = some p) (hd : p.alive = false) :
    (runOps s ops).players[i]? = some p ∧
    ∃ q, (runOps s ops).players[i]? = some q ∧ q.alive = false :=
  ⟨(runOps_frame ops s).2 i p hp hd, p, (runOps_frame ops s).2 i p hp hd, hd⟩

/-- A session of three players in which the first is eliminated in its turn: after the
round, a Tug of War filter and the transition to the next game it is still eliminated. -/
theorem elimination_is_permanent_witness :
    ∃ q, (runOps (markEliminated (startSession ["A", "B", "C"]) 0)
        [SessionOp.nextPlayer, SessionOp.eliminate 0, SessionOp.tugOfWarFilter,
          SessionOp.moveToNextPlayer, SessionOp.nextGame,
          SessionOp.resetToFirstAlivePlayer]).players[0]? = some q ∧ q.alive = false :=
  (elimination_is_permanent (markEliminated (startSession ["A", "B", "C"]) 0)
    [SessionOp.nextPlayer, SessionOp.eliminate 0, SessionOp.tugOfWarFilter,
      SessionOp.moveToNextPlayer, SessionOp.nextGame, SessionOp.resetToFirstAlivePlayer]
    0 { name := "A", alive := false }
    (by simp [startSession, createRoster, markEliminated, List.enum, List.enumFrom, List.modify])
    rfl).2

/-- C8. The roster is never shrunk or reordered: any sequence of `nextPlayer`,
`nextGame`, `resetToFirstAlivePlayer`, eliminations, Tug of War filterings and
player/game transitions changes no field of any entry but `alive`, so the length, the
order and the names are unchanged, and the rows built by `showResults` list every player
created at session start exactly once, in insertion order. -/
theorem roster_never_shrunk_or_reordered (s : GameState) (ops : List SessionOp)
    (inputs : List String) :
    (runOps s ops).players.map forgetAlive = s.players.map forgetAlive ∧
    (runOps s ops).players.length = s.players.length ∧
    (runOps s ops).players.map (fun p => p.name) = s.players.map (fun p => p.name) ∧
    (showResults (runOps (startSession inputs) ops)).map (fun r => r.name)
      = (createRoster inputs).map (fun p => p.name) ∧
    (showResults (runOps (startSession inputs) ops)).length = inputs.length := by
  have h := (runOps_frame ops s).1
  have hs := (runOps_frame ops (startSession inputs)).1
  have hlen : ∀ ps qs : List Player, ps.map forgetAlive = qs.map forgetAlive →
      ps.length = qs.length := by
    intro ps qs hpq
    have := congrArg List.length hpq
    simpa using this
  refine ⟨h, hlen _ _ h, names_of_forgetAlive h, ?_, ?_⟩
  · have := names_of_forgetAlive hs
    simpa [showResults, List.map_map, Function.comp_def, startSession] using this
  · have := hlen _ _ hs
    simpa [showResults, startSession, createRoster] using this

/-! ## Outcome resolver: Glass Bridge -/

theorem simulateBackend_glassbridge (s : GameState) (data : RequestData) (r1 r2 : ℚ) :
    simulateBackend s "/glassbridge" data r1 r2 =
      BackendResult.glassbridge (simulateGlassBridge s.glassBridgeGuaranteedName data r1) := by
  simp [simulateBackend]

/-- C9. The Glass Bridge resolver called with `step = 0` returns `survived = true` and
`correctChoice` equal to the chosen side, whatever the choice, the player name, the other
request fields, the guaranteed name and the random draws. -/
theorem glassBridge_first_step_safe (s : GameState) (data : RequestData) (r1 r2 : ℚ) :
    simulateBackend s "/glassbridge" { data with step := 0 } r1 r2 =
      BackendResult.glassbridge
        { survived := true, correctChoice := data.choice, message := "Safe step!" } := by
  rw [simulateBackend_glassbridge]
  simp [simulateGlassBridge]

/-- C10. The Glass Bridge resolver always returns a Glass Bridge result. When it reports
`survived = false` the step is at least 1 and `correctChoice` is the side opposite to the
chosen one (`"right"` for `"left"`, `"left"` for `"right"`); when it reports
`survived = true`, `correctChoice` is the chosen side. -/
theorem glassBridge_correctChoice (s : GameState) (data : RequestData) (r1 r2 : ℚ) :
    ∃ res, simulateBackend s "/glassbridge" data r1 r2 = BackendResult.glassbridge res ∧
      (res.survived = false →
        1 ≤ data.step ∧
        (data.choice = "left" → res.correctChoice = "right") ∧
        (data.choice = "right" → res.correctChoice = "left")) ∧
      (res.survived = true → res.correctChoice = data.choice) := by
  refine ⟨_, simulateBackend_glassbridge s data r1 r2, ?_, ?_⟩
  · unfold simulateGlassBridge
    by_cases h1 : data.step = 0
    · simp [h1]
    · have hstep : 1 ≤ data.step := by omega
      by_cases hl : data.choice = "left"
      · split_ifs <;> simp_all
      · split_ifs <;> simp_all
  · unfold simulateGlassBridge
    split_ifs with h1 h2 h3 <;> simp

/-- A failing step: at step 1, with no guaranteed player and a draw of 0.7, the choice
`"left"` breaks and the recorded correct side is `"right"`. -/
theorem glassBridge_failure_example :
    simulateBackend {} "/glassbridge" { playerName := "A", choice := "left", step := 1 } 0.7 0 =
      BackendResult.glassbridge
        { survived := false, correctChoice := "right", message := "Glass broke! You fall!" } := by
  rw [simulateBackend_glassbridge]
  simp [simulateGlassBridge, guaranteedNameSet]
  norm_num

/-! ## Glass Bridge guarantee -/

theorem createRoster_name_ne_empty (inputs : List String) :
    ∀ p ∈ createRoster inputs, p.name ≠ "" := by
  intro p hp
  unfold createRoster at hp
  obtain ⟨iv, _, rfl⟩ := List.mem_map.mp hp
  by_cases h : iv.2 = ""
  · simp only [h, if_true]
    intro hc
    have := congrArg String.length hc
    rw [String.length_append] at this
    have h7 : "Player ".length = 7 := by decide
    have h0 : "".length = 0 := by decide
    omega
  · simp only [h, if_false]
    exact h

/-- The guarantee branch of the Glass Bridge block. -/
theorem simulateGlassBridge_guaranteed (guaranteed : Option String) (data : RequestData)
    (r : ℚ) (hset : guaranteedNameSet guaranteed = true)
    (hname : guaranteed = some data.playerName) :
    simulateGlassBridge guaranteed data r =
      { survived := true, correctChoice := data.choice, message := "Safe step!" } := by
  rw [hname] at hset
  by_cases h0 : data.step = 0 <;> simp [simulateGlassBridge, h0, hset, hname]

/-- C11. At every step from 1 on, for every choice and every draw: when the guaranteed
name is set (not `null`, not empty) and the request carries that name, the Glass Bridge
resolver returns `survived = true` with `correctChoice` equal to the chosen side. -/
theorem glassBridge_guaranteed_player_safe (s : GameState) (data : RequestData) (r1 r2 : ℚ)
    (_hstep : 1 ≤ data.step)
    (hset : guaranteedNameSet s.glassBridgeGuaranteedName = true)
    (hname : s.glassBridgeGuaranteedName = some data.playerName) :
    simulateBackend s "/glassbridge" data r1 r2 =
      BackendResult.glassbridge
        { survived := true, correctChoice := data.choice, message := "Safe step!" } := by
  rw [simulateBackend_glassbridge, simulateGlassBridge_guaranteed _ data r1 hset hname]

/-- The guaranteed player at step 3 with a draw of 0.9, which breaks the tile of every
other player. -/
theorem glassBridge_guaranteed_player_safe_witness :
    simulateBackend { glassBridgeGuaranteedName := some "Bob" } "/glassbridge"
        { playerName := "Bob", choice := "right", step := 3 } 0.9 0 =
      BackendResult.glassbridge
        { survived := true, correctChoice := "right", message := "Safe step!" } :=
  glassBridge_guaranteed_player_safe { glassBridgeGuaranteedName := some "Bob" }
    { playerName := "Bob", choice := "right", step := 3 } 0.9 0 (by decide) (by decide) rfl

/-- A roster entry is unconditionally safe exactly when the guaranteed name is set and
is the name of that entry. -/
theorem unconditionallySafe_iff (s : GameState) (i : Nat) :
    unconditionallySafe s i ↔
      ∃ p, s.players[i]? = some p ∧ guaranteedNameSet s.glassBridgeGuaranteedName = true ∧
        s.glassBridgeGuaranteedName = some p.name := by
  constructor
  · rintro ⟨p, hp, hsafe⟩
    refine ⟨p, hp, ?_⟩
    obtain ⟨res, hres, hsurv⟩ := hsafe 1 "left" 1 0 (le_refl 1)
    rw [simulateBackend_glassbridge] at hres
    have hres2 := BackendResult.glassbridge.inj hres
    rw [← hres2] at hsurv
    have h1 : ¬ ((1 : ℚ) < 0.6) := by norm_num
    by_cases hg : (guaranteedNameSet s.glassBridgeGuaranteedName &&
        s.glassBridgeGuaranteedName == some p.name) = true
    · simpa using hg
    · simp [simulateGlassBridge, hg, h1] at hsurv
  · rintro ⟨p, hp, hset, hname⟩
    refine ⟨p, hp, fun step choice r1 r2 hstep =>
      ⟨{ survived := true, correctChoice := choice, message := "Safe step!" }, ?_, rfl⟩⟩
    rw [simulateBackend_glassbridge,
      simulateGlassBridge_guaranteed _ { playerName := p.name, choice := choice, step := step }
        r1 hset hname]

/-- With pairwise distinct names at most one roster entry is unconditionally safe. -/
theorem unconditionallySafe_unique (s : GameState)
    (hnames : (s.players.map (fun p => p.name)).Nodup) (i j : Nat)
    (hi : unconditionallySafe s i) (hj : unconditionallySafe s j) : i = j := by
  obtain ⟨p, hp, _, hpn⟩ := (unconditionallySafe_iff s i).mp hi
  obtain ⟨q, hq, _, hqn⟩ := (unconditionallySafe_iff s j).mp hj
  have hpq : p.name = q.name := Option.some.inj (hpn.symm.trans hqn)
  obtain ⟨hil, hie⟩ := List.getElem?_eq_some.mp hp
  obtain ⟨hjl, hje⟩ := List.getElem?_eq_some.mp hq
  have hil2 : i < (s.players.map (fun p => p.name)).length := by simpa using hil
  have hjl2 : j < (s.players.map (fun p => p.name)).length := by simpa using hjl
  have hinj := @List.Nodup.getElem_inj_iff _ _ hnames i hil2 j hjl2
  apply hinj.mp
  simp only [List.getElem_map, hie, hje, hpq]

/-- C12 at the failing input. Three players, two of them named Bob, start Glass Bridge
and the draw selects the first alive player: the guaranteed name is Bob, and both the
first and the second roster entry are unconditionally safe at steps from 1 on. -/
theorem guarantee_exempts_two_players :
    (startGlassBridge (startSession ["Bob", "Bob", "Carol"]) 0).glassBridgeGuaranteedName
      = some "Bob" ∧
    unconditionallySafe (startGlassBridge (startSession ["Bob", "Bob", "Carol"]) 0) 0 ∧
    unconditionallySafe (startGlassBridge (startSession ["Bob", "Bob", "Carol"]) 0) 1 := by
  have hs : startGlassBridge (startSession ["Bob", "Bob", "Carol"]) 0 =
      { players := [{ name := "Bob", bridgeState := some (List.replicate 5 none) },
          { name := "Bob" },
          { name := "Carol" }]
        glassBridgeGuaranteedName := some "Bob" } := by
    simp [startGlassBridge, assignGuarantee, startSession, createRoster, getAlivePlayers,
      guaranteedNameSet, jsIndex, List.enum, List.enumFrom, List.modify]
  rw [hs]
  refine ⟨rfl, ?_, ?_⟩
  · exact (unconditionallySafe_iff _ 0).mpr ⟨_, rfl, by decide, rfl⟩
  · exact (unconditionallySafe_iff _ 1).mpr ⟨_, rfl, by decide, rfl⟩

theorem moveToNextPlayer_guaranteedName (s : GameState) :
    (moveToNextPlayer s).1.glassBridgeGuaranteedName = s.glassBridgeGuaranteedName := by
  unfold moveToNextPlayer
  simp only [nextPlayer, nextGame, resetToFirstAlivePlayer]
  split_ifs <;> rfl

theorem applyOp_guaranteedName (s : GameState) (op : SessionOp) :
    (applyOp s op).glassBridgeGuaranteedName = s.glassBridgeGuaranteedName := by
  cases op with
  | moveToNextPlayer => exact moveToNextPlayer_guaranteedName s
  | _ => rfl

theorem jsIndex_mem {α : Type} (xs : List α) (k : Int) (a : α) (h : jsIndex xs k = some a) :
    a ∈ xs := by
  unfold jsIndex at h
  split_ifs at h
  exact List.getElem?_mem h

theorem jsIndex_floor_isSome {α : Type} (xs : List α) (r : ℚ) (h0 : 0 ≤ r) (h1 : r < 1)
    (hpos : 0 < xs.length) : ∃ a, jsIndex xs ⌊r * (xs.length : ℚ)⌋ = some a := by
  have hlen : (0 : ℚ) < (xs.length : ℚ) := by exact_mod_cast hpos
  have hnn : (0 : Int) ≤ ⌊r * (xs.length : ℚ)⌋ := Int.floor_nonneg.mpr (mul_nonneg h0 hlen.le)
  have hlt : ⌊r * (xs.length : ℚ)⌋ < (xs.length : Int) := by
    rw [Int.floor_lt]
    have : r * (xs.length : ℚ) < 1 * (xs.length : ℚ) := mul_lt_mul_of_pos_right h1 hlen
    simpa using this
  have hidx : ⌊r * (xs.length : ℚ)⌋.toNat < xs.length := by omega
  exact ⟨xs[⌊r * (xs.length : ℚ)⌋.toNat], by simp [jsIndex, hnn, List.getElem?_eq_getElem hidx]⟩

/-- The guaranteed name after `startGlassBridge`: that of the guarantee block. -/
theorem startGlassBridge_guaranteedName (s : GameState) (r : ℚ) :
    (startGlassBridge s r).glassBridgeGuaranteedName =
      match assignGuarantee s r with
      | some s1 => s1.glassBridgeGuaranteedName
      | none => s.glassBridgeGuaranteedName := by
  unfold startGlassBridge
  cases assignGuarantee s r <;> rfl

theorem startGlassBridge_set (s : GameState) (r : ℚ)
    (hset : guaranteedNameSet s.glassBridgeGuaranteedName = true) :
    (startGlassBridge s r).glassBridgeGuaranteedName = s.glassBridgeGuaranteedName := by
  rw [startGlassBridge_guaranteedName]
  simp [assignGuarantee, hset]

theorem startGlassBridge_few (s : GameState) (r : ℚ)
    (hfew : (getAlivePlayers s).length < 3) :
    (startGlassBridge s r).glassBridgeGuaranteedName = s.glassBridgeGuaranteedName := by
  rw [startGlassBridge_guaranteedName]
  have h3 : ¬ (getAlivePlayers s).length ≥ 3 := by omega
  unfold assignGuarantee
  by_cases hset : guaranteedNameSet s.glassBridgeGuaranteedName = true
  · simp [hset]
  · simp [hset, h3]

theorem startGlassBridge_assigns (s : GameState) (r : ℚ)
    (hunset : guaranteedNameSet s.glassBridgeGuaranteedName = false)
    (hmany : 3 ≤ (getAlivePlayers s).length) (h0 : 0 ≤ r) (h1 : r < 1) :
    ∃ p ∈ s.players, p.alive = true ∧
      (startGlassBridge s r).glassBridgeGuaranteedName = some p.name := by
  obtain ⟨pick, hpick⟩ := jsIndex_floor_isSome (getAlivePlayers s) r h0 h1 (by omega)
  have hmem := jsIndex_mem _ _ _ hpick
  unfold getAlivePlayers at hmem
  rw [List.mem_filter] at hmem
  refine ⟨pick, hmem.1, hmem.2, ?_⟩
  rw [startGlassBridge_guaranteedName]
  have h3 : (getAlivePlayers s).length ≥ 3 := hmany
  simp only [assignGuarantee, hunset, Bool.not_false, if_true, h3, hpick]

theorem applyEvent_guaranteedName (s : GameState) (e : SessionEvent)
    (hset : guaranteedNameSet s.glassBridgeGuaranteedName = true) :
    (applyEvent s e).glassBridgeGuaranteedName = s.glassBridgeGuaranteedName := by
  cases e with
  | op o => exact applyOp_guaranteedName s o
  | startGlassBridge r => exact startGlassBridge_set s r hset
  | simulateBackend _ _ _ _ => rfl
  | restartSession => rfl
  | startButton _ => rfl

theorem runEvents_guaranteedName (es : List SessionEvent) (s : GameState)
    (hset : guaranteedNameSet s.glassBridgeGuaranteedName = true) :
    (runEvents s es).glassBridgeGuaranteedName = s.glassBridgeGuaranteedName := by
  induction es generalizing s with
  | nil => rfl
  | cons e es ih =>
    have h1 := applyEvent_guaranteedName s e hset
    have h2 := ih (applyEvent s e) (by rw [h1]; exact hset)
    show (runEvents (applyEvent s e) es).glassBridgeGuaranteedName = _
    rw [h2, h1]

/-- C13. The guaranteed name is assigned lazily and then frozen. `startGlassBridge`
leaves it as it is when it is already set and when fewer than three players are alive
(so an unset name stays unset); when it is unset and at least three players are alive,
it becomes the name of one of the alive players, for every draw in `[0, 1)`, and such a
name is never empty for a roster built by the start button handler. Once it is set, no
sequence of session events changes it: turn and game advances, eliminations, filterings,
further `startGlassBridge` calls, resolver calls, even the restart and start buttons. -/
theorem guaranteed_name_lazy_and_frozen :
    (∀ (s : GameState) (r : ℚ), guaranteedNameSet s.glassBridgeGuaranteedName = true →
      (startGlassBridge s r).glassBridgeGuaranteedName = s.glassBridgeGuaranteedName) ∧
    (∀ (s : GameState) (r : ℚ), (getAlivePlayers s).length < 3 →
      (startGlassBridge s r).glassBridgeGuaranteedName = s.glassBridgeGuaranteedName) ∧
    (∀ (s : GameState) (r : ℚ), guaranteedNameSet s.glassBridgeGuaranteedName = false →
      3 ≤ (getAlivePlayers s).length → 0 ≤ r → r < 1 →
      ∃ p ∈ s.players, p.alive = true ∧
        (startGlassBridge s r).glassBridgeGuaranteedName = some p.name ∧
        (p.name ≠ "" →
          guaranteedNameSet (startGlassBridge s r).glassBridgeGuaranteedName = true)) ∧
    (∀ (inputs : List String), ∀ p ∈ createRoster inputs, p.name ≠ "") ∧
    (∀ (s : GameState) (es : List SessionEvent),
      guaranteedNameSet s.glassBridgeGuaranteedName = true →
      (runEvents s es).glassBridgeGuaranteedName = s.glassBridgeGuaranteedName) := by
  refine ⟨startGlassBridge_set, startGlassBridge_few, ?_, createRoster_name_ne_empty,
    fun s es h => runEvents_guaranteedName es s h⟩
  intro s r hunset hmany h0 h1
  obtain ⟨p, hp, ha, hn⟩ := startGlassBridge_assigns s r hunset hmany h0 h1
  refine ⟨p, hp, ha, hn, fun hne => ?_⟩
  rw [hn]
  simpa [guaranteedNameSet] using hne

/-- A session of three players: the first Glass Bridge turn start with a draw of 0.5
assigns the name of the second player, and the name survives an elimination, the next
turn start with another draw, a resolver call, a game advance and a restart. -/
theorem guaranteed_name_lazy_and_frozen_witness :
    (startGlassBridge (startSession ["A", "B", "C"]) 0.5).glassBridgeGuaranteedName = some "B" ∧
    (runEvents (startGlassBridge (startSession ["A", "B", "C"]) 0.5)
      [SessionEvent.op (SessionOp.eliminate 0), SessionEvent.op SessionOp.nextPlayer,
        SessionEvent.startGlassBridge 0.9,
        SessionEvent.simulateBackend "/glassbridge" { playerName := "B", step := 1 } 0.7 0,
        SessionEvent.op SessionOp.moveToNextPlayer, SessionEvent.restartSession,
        SessionEvent.startButton ["X", "Y", "Z"],
        SessionEvent.startGlassBridge 0]).glassBridgeGuaranteedName = some "B" := by
  have hB : (startGlassBridge (startSession ["A", "B", "C"]) 0.5).glassBridgeGuaranteedName
      = some "B" := by
    have hf : ⌊(0.5 : ℚ) * 3⌋ = 1 := by rw [Int.floor_eq_iff]; norm_num
    simp [startGlassBridge_guaranteedName, assignGuarantee, startSession, createRoster,
      getAlivePlayers, guaranteedNameSet, jsIndex, List.enum, List.enumFrom, hf]
  refine ⟨hB, ?_⟩
  rw [guaranteed_name_lazy_and_frozen.2.2.2.2 _ _ (by rw [hB]; decide), hB]

/-! ## Red Light Green Light turn -/

/-- C14, as stated, fails. In a running turn, after READY, a green phase and an accepted
move at time 1000000, the light turns red; a move input 100 ms later, inside the 300 ms
cooldown, is dropped: the light is red and the player stays alive in a running turn. A
second move input 100 ms after the accepted one while the light is still green is
dropped as well: attempts stay at 1, below the 4 required. -/
theorem move_within_cooldown_is_dropped :
    (runTurn {} (freshTurn {} { name := "A" })
      [RlgEvent.nextLightCycle, RlgEvent.move 1000000, RlgEvent.toRed]).running = true ∧
    (runTurn {} (freshTurn {} { name := "A" })
      [RlgEvent.nextLightCycle, RlgEvent.move 1000000, RlgEvent.toRed]).lightState = "red" ∧
    (handleMove {} 1000100 (runTurn {} (freshTurn {} { name := "A" })
      [RlgEvent.nextLightCycle, RlgEvent.move 1000000, RlgEvent.toRed])).player.alive = true ∧
    (handleMove {} 1000100 (runTurn {} (freshTurn {} { name := "A" })
      [RlgEvent.nextLightCycle, RlgEvent.move 1000000, RlgEvent.toRed])).running = true ∧
    (runTurn {} (freshTurn {} { name := "A" })
      [RlgEvent.nextLightCycle, RlgEvent.move 1000000]).lightState = "green" ∧
    (runTurn {} (freshTurn {} { name := "A" })
      [RlgEvent.nextLightCycle, RlgEvent.move 1000000]).player.rlg_attempts = 1 ∧
    (handleMove {} 1000100 (runTurn {} (freshTurn {} { name := "A" })
      [RlgEvent.nextLightCycle, RlgEvent.move 1000000])).player.rlg_attempts = 1 := by
  decide

/-- C14, amended. In a running turn a move input inside the cooldown (less than
`moveCooldown` after the last accepted move) is dropped and changes nothing. A move
input outside the cooldown while the light is red always eliminates the player, for
every attempts count; outside the cooldown while the light is green and attempts are
below `requiredAttempts`, it increases attempts by exactly one and leaves `alive` as it
was. -/
theorem handleMove_in_running_turn (cfg : RlgConfig) (now : Int) (t : RlgTurn)
    (hrun : t.running = true) (hne : t.player.rlg_eliminated = false) :
    (now - t.lastMoveTime < cfg.moveCooldown → handleMove cfg now t = t) ∧
    (cfg.moveCooldown ≤ now - t.lastMoveTime →
      ¬ (t.lightState = "green" ∧ t.canMove = true) →
      (handleMove cfg now t).player.alive = false ∧
      (handleMove cfg now t).running = false ∧
      (handleMove cfg now t).player.rlg_attempts = t.player.rlg_attempts) ∧
    (cfg.moveCooldown ≤ now - t.lastMoveTime →
      t.lightState = "green" ∧ t.canMove = true →
      t.player.rlg_attempts < cfg.requiredAttempts →
      (handleMove cfg now t).player.rlg_attempts = t.player.rlg_attempts + 1 ∧
      (handleMove cfg now t).player.alive = t.player.alive ∧
      (handleMove cfg now t).player.rlg_eliminated = false) := by
  refine ⟨fun hcool => ?_, fun hcool hred => ?_, fun hcool hgreen hlt => ?_⟩
  · simp [handleMove, hrun, hne, hcool]
  · have hc : ¬ (now - t.lastMoveTime < cfg.moveCooldown) := by omega
    have hl : (t.lightState == "green" && t.canMove) = false := by
      by_cases h1 : t.lightState = "green"
      · have h2 : t.canMove = false := by
          cases hcm : t.canMove
          · rfl
          · exact absurd ⟨h1, hcm⟩ hred
        simp [h2]
      · simp [h1]
    simp [handleMove, hrun, hne, hc, hl, eliminatePlayer]
  · have hc : ¬ (now - t.lastMoveTime < cfg.moveCooldown) := by omega
    obtain ⟨h1, h2⟩ := hgreen
    simp only [handleMove, hrun, hne, hc, h1, h2, finishPlayer]
    simp only [Bool.not_true, Bool.or_self, Bool.false_eq_true, if_false, beq_self_eq_true,
      Bool.and_self, if_true]
    split_ifs <;> simp [hne]

/-- The amended rule at the red light of the counterexample, 300 ms after the accepted
move: the move is outside the cooldown and eliminates the player. -/
theorem handleMove_in_running_turn_witness :
    (handleMove {} 1000300 (runTurn {} (freshTurn {} { name := "A" })
      [RlgEvent.nextLightCycle, RlgEvent.move 1000000, RlgEvent.toRed])).player.alive = false :=
  ((handleMove_in_running_turn {} 1000300 (runTurn {} (freshTurn {} { name := "A" })
      [RlgEvent.nextLightCycle, RlgEvent.move 1000000, RlgEvent.toRed])
    (by decide) (by decide)).2.1 (by decide) (by decide)).1

theorem freshTurn_invariant (cfg : RlgConfig) (p : Player) (hT : 1 ≤ cfg.totalTime)
    (hR : 1 ≤ cfg.requiredAttempts) : runningInvariant cfg p.alive (freshTurn cfg p) 0 := by
  intro _
  simp [freshTurn, confirmReady, setupRedLightGreenLightMode, setLight]
  omega

theorem updateTimer_invariant (cfg : RlgConfig) (a : Bool) (t : RlgTurn) (k : Nat)
    (h : runningInvariant cfg a t k) :
    runningInvariant cfg a (updateTimer t) (k + (if t.running then 1 else 0)) := by
  intro hrun
  by_cases hr : t.running = true
  · obtain ⟨h1, h2, h3, h4, h5⟩ := h hr
    simp only [updateTimer, hr, Bool.not_true, Bool.false_eq_true, if_false] at hrun ⊢
    by_cases hz : t.player.rlg_timer - 1 ≤ 0
    · simp [hz, eliminatePlayer] at hrun
    · simp only [hz, if_false, if_true]
      refine ⟨?_, ?_, h3, h4, h5⟩
      · push_cast; omega
      · push_cast; omega
  · have hr2 : t.running = false := by simpa using hr
    simp [updateTimer, hr2] at hrun

theorem handleMove_invariant (cfg : RlgConfig) (a : Bool) (t : RlgTurn) (k : Nat) (now : Int)
    (hR2 : cfg.requiredAttempts ≤ attemptSlotCount) (h : runningInvariant cfg a t k) :
    runningInvariant cfg a (handleMove cfg now t) k := by
  intro hrun
  by_cases hr : t.running = true
  · obtain ⟨h1, h2, h3, h4, h5⟩ := h hr
    unfold handleMove at hrun ⊢
    simp only [hr, h5, Bool.not_true, Bool.or_self, Bool.false_eq_true, if_false] at hrun ⊢
    by_cases hc : now - t.lastMoveTime < cfg.moveCooldown
    · simp only [hc, if_true]
      exact ⟨h1, h2, h3, h4, h5⟩
    · simp only [hc, if_false] at hrun ⊢
      by_cases hg : (t.lightState == "green" && t.canMove) = true
      · simp only [hg, if_true] at hrun ⊢
        have hslot : ¬ (t.player.rlg_attempts + 1 > attemptSlotCount) := by omega
        simp only [hslot, if_false] at hrun ⊢
        by_cases hfin : t.player.rlg_attempts + 1 ≥ cfg.requiredAttempts
        · simp [hfin, finishPlayer] at hrun
        · simp only [hfin, if_false]
          exact ⟨h1, h2, by omega, h4, trivial⟩
      · simp [hg, eliminatePlayer] at hrun
  · have hr2 : t.running = false := by simpa using hr
    simp [handleMove, hr2] at hrun

theorem stepTurn_invariant (cfg : RlgConfig) (a : Bool) (t : RlgTurn) (k : Nat) (e : RlgEvent)
    (hR2 : cfg.requiredAttempts ≤ attemptSlotCount) (h : runningInvariant cfg a t k) :
    runningInvariant cfg a (stepTurn cfg t e) (k + runningTicks cfg t [e]) := by
  cases e with
  | tick =>
    have := updateTimer_invariant cfg a t k h
    simpa [stepTurn, runningTicks] using this
  | move now =>
    have := handleMove_invariant cfg a t k now hR2 h
    simpa [stepTurn, runningTicks] using this
  | nextLightCycle =>
    intro hrun
    have hr : t.running = true := by
      unfold stepTurn nextLightCycle at hrun
      split_ifs at hrun <;> exact hrun
    have hp : (stepTurn cfg t RlgEvent.nextLightCycle).player = t.player := by
      unfold stepTurn nextLightCycle
      split_ifs <;> rfl
    rw [hp]
    simpa [runningTicks] using h hr
  | toRed =>
    intro hrun
    have hr : t.running = true := hrun
    have hp : (stepTurn cfg t RlgEvent.toRed).player = t.player := rfl
    rw [hp]
    simpa [runningTicks] using h hr

theorem runningTicks_cons (cfg : RlgConfig) (t : RlgTurn) (e : RlgEvent) (es : List RlgEvent) :
    runningTicks cfg t (e :: es) =
      runningTicks cfg t [e] + runningTicks cfg (stepTurn cfg t e) es := by
  cases e <;> simp [runningTicks, stepTurn]

theorem runTurn_invariant (cfg : RlgConfig) (a : Bool) (es : List RlgEvent) (t : RlgTurn)
    (k : Nat) (hR2 : cfg.requiredAttempts ≤ attemptSlotCount)
    (h : runningInvariant cfg a t k) :
    runningInvariant cfg a (runTurn cfg t es) (k + runningTicks cfg t es) := by
  induction es generalizing t k with
  | nil => simpa [runTurn, runningTicks] using h
  | cons e es ih =>
    have h1 := stepTurn_invariant cfg a t k e hR2 h
    have h2 := ih (stepTurn cfg t e) (k + runningTicks cfg t [e]) h1
    rw [runningTicks_cons, ← Nat.add_assoc]
    exact h2

/-- C15. A turn starts fresh at READY (`rlg_timer = totalTime`, `rlg_attempts = 0`) and
is still running after any sequence of ticks, move inputs and light changes, `k` of the
ticks having found it running. Then the timer is `totalTime - k`; the next countdown
tick ends the turn exactly when it is the `totalTime`-th such tick, and then it
eliminates the player (`alive = false`, timer at zero); a move input ends the turn as
Advanced (`running = false`, not eliminated, `alive` unchanged) exactly when it is
outside the cooldown, the light is green, and it brings attempts to
`requiredAttempts`. -/
theorem rlg_terminal_outcomes (cfg : RlgConfig) (p : Player) (es : List RlgEvent) (now : Int)
    (hT : 1 ≤ cfg.totalTime) (hR1 : 1 ≤ cfg.requiredAttempts)
    (hR2 : cfg.requiredAttempts ≤ attemptSlotCount)
    (hrun : (runTurn cfg (freshTurn cfg p) es).running = true) :
    (freshTurn cfg p).player.rlg_timer = cfg.totalTime ∧
    (freshTurn cfg p).player.rlg_attempts = 0 ∧
    (runTurn cfg (freshTurn cfg p) es).player.rlg_timer
      = cfg.totalTime - (runningTicks cfg (freshTurn cfg p) es : Int) ∧
    (runTurn cfg (freshTurn cfg p) es).player.alive = p.alive ∧
    ((updateTimer (runTurn cfg (freshTurn cfg p) es)).running = false ↔
      (runningTicks cfg (freshTurn cfg p) es : Int) + 1 = cfg.totalTime) ∧
    ((updateTimer (runTurn cfg (freshTurn cfg p) es)).running = false →
      (updateTimer (runTurn cfg (freshTurn cfg p) es)).player.alive = false ∧
      (updateTimer (runTurn cfg (freshTurn cfg p) es)).player.rlg_timer = 0) ∧
    ((updateTimer (runTurn cfg (freshTurn cfg p) es)).running = true →
      (updateTimer (runTurn cfg (freshTurn cfg p) es)).player.alive = p.alive) ∧
    (((handleMove cfg now (runTurn cfg (freshTurn cfg p) es)).running = false ∧
        (handleMove cfg now (runTurn cfg (freshTurn cfg p) es)).player.rlg_eliminated = false) ↔
      (cfg.moveCooldown ≤ now - (runTurn cfg (freshTurn cfg p) es).lastMoveTime ∧
        (runTurn cfg (freshTurn cfg p) es).lightState = "green" ∧
        (runTurn cfg (freshTurn cfg p) es).canMove = true ∧
        (runTurn cfg (freshTurn cfg p) es).player.rlg_attempts + 1 = cfg.requiredAttempts)) ∧
    ((handleMove cfg now (runTurn cfg (freshTurn cfg p) es)).player.rlg_eliminated = false →
      (handleMove cfg now (runTurn cfg (freshTurn cfg p) es)).player.alive = p.alive) := by
  have hinv := runTurn_invariant cfg p.alive es (freshTurn cfg p) 0 hR2
    (freshTurn_invariant cfg p hT hR1)
  rw [Nat.zero_add] at hinv
  obtain ⟨h1, h2, h3, h4, h5⟩ := hinv hrun
  generalize runTurn cfg (freshTurn cfg p) es = t at *
  generalize runningTicks cfg (freshTurn cfg p) es = k at *
  have hslot : ¬ (t.player.rlg_attempts + 1 > attemptSlotCount) := by omega
  refine ⟨by simp [freshTurn, confirmReady, setupRedLightGreenLightMode, setLight],
    by simp [freshTurn, confirmReady, setupRedLightGreenLightMode, setLight],
    h1, h4, ?_, ?_, ?_, ?_, ?_⟩
  · simp only [updateTimer, hrun, Bool.not_true, Bool.false_eq_true, if_false]
    by_cases hz : t.player.rlg_timer - 1 ≤ 0
    · simp only [hz, if_true, eliminatePlayer, true_iff]
      omega
    · simp only [hz, if_false, hrun, Bool.true_eq_false, false_iff]
      omega
  · simp only [updateTimer, hrun, Bool.not_true, Bool.false_eq_true, if_false]
    by_cases hz : t.player.rlg_timer - 1 ≤ 0
    · simp only [hz, if_true, eliminatePlayer, true_and, forall_const]
      omega
    · simp [hz, hrun]
  · simp only [updateTimer, hrun, Bool.not_true, Bool.false_eq_true, if_false]
    by_cases hz : t.player.rlg_timer - 1 ≤ 0
    · simp [hz, eliminatePlayer]
    · simp [hz, h4]
  · unfold handleMove
    simp only [hrun, h5, Bool.not_true, Bool.or_self, Bool.false_eq_true, if_false]
    by_cases hc : now - t.lastMoveTime < cfg.moveCooldown
    · simp only [hc, if_true, hrun, Bool.true_eq_false, false_and, false_iff]
      omega
    · simp only [hc, if_false]
      by_cases hg : (t.lightState == "green" && t.canMove) = true
      · have hg2 : t.lightState = "green" ∧ t.canMove = true := by simpa using hg
        simp only [hg, if_true, hslot, if_false]
        by_cases hfin : t.player.rlg_attempts + 1 ≥ cfg.requiredAttempts
        · simp only [hfin, if_true, finishPlayer, h5, true_and, hg2.1, hg2.2, and_self, true_iff]
          constructor
          · omega
          · omega
        · simp only [hfin, if_false, hrun, Bool.true_eq_false, false_and, false_iff]
          omega
      · have hg2 : ¬ (t.lightState = "green" ∧ t.canMove = true) := by simpa using hg
        simp only [hg, Bool.false_eq_true, if_false, eliminatePlayer, Bool.true_eq_false,
          and_false, false_iff]
        intro hcon
        exact hg2 ⟨hcon.2.1, hcon.2.2.1⟩
  · unfold handleMove
    simp only [hrun, h5, Bool.not_true, Bool.or_self, Bool.false_eq_true, if_false]
    split_ifs <;> simp [eliminatePlayer, finishPlayer, h4]

/-- The source configuration (15 seconds, 4 attempts) after 14 ticks: the turn still
runs with the timer at 1, and the fifteenth tick ends it. -/
theorem rlg_terminal_outcomes_witness :
    (runTurn {} (freshTurn {} { name := "A" }) (List.replicate 14 RlgEvent.tick)).player.rlg_timer
      = 15 - (runningTicks {} (freshTurn {} { name := "A" }) (List.replicate 14 RlgEvent.tick) : Int) ∧
    ((updateTimer (runTurn {} (freshTurn {} { name := "A" })
        (List.replicate 14 RlgEvent.tick))).running = false ↔
      (runningTicks {} (freshTurn {} { name := "A" }) (List.replicate 14 RlgEvent.tick) : Int) + 1
        = 15) :=
  ⟨(rlg_terminal_outcomes {} { name := "A" } (List.replicate 14 RlgEvent.tick) 0
      (by decide) (by decide) (by decide) (by decide)).2.2.1,
   (rlg_terminal_outcomes {} { name := "A" } (List.replicate 14 RlgEvent.tick) 0
      (by decide) (by decide) (by decide) (by decide)).2.2.2.2.1⟩

/-! ## JavaScript numbers -/

theorem int_log_two_eq {q : ℚ} {k : ℤ} (hq : 0 < q) (h1 : (2 : ℚ) ^ k ≤ q)
    (h2 : q < (2 : ℚ) ^ (k + 1)) : Int.log 2 q = k := by
  have hb : 1 < 2 := by norm_num
  apply le_antisymm
  · have := (Int.lt_zpow_iff_log_lt hb hq).mp (by exact_mod_cast h2)
    omega
  · exact (Int.zpow_le_iff_le_log hb hq).mp (by exact_mod_cast h1)

theorem roundHalfEven_intCast (k : ℤ) : roundHalfEven (k : ℚ) = k := by
  simp [roundHalfEven]

/-- Rounding to the nearest integer moves a number by at most one half. -/
theorem roundHalfEven_error (x : ℚ) : |(roundHalfEven x : ℚ) - x| ≤ 1 / 2 := by
  unfold roundHalfEven
  have h0 : (⌊x⌋ : ℚ) ≤ x := Int.floor_le x
  have h1 : x < ⌊x⌋ + 1 := Int.lt_floor_add_one x
  dsimp only
  split_ifs with ha hb hc
  · rw [abs_le]; constructor <;> linarith
  · rw [abs_le]; push_cast; constructor <;> linarith
  · rw [abs_le]; constructor <;> linarith
  · rw [abs_le]; push_cast; constructor <;> linarith

theorem ulp_pos (q : ℚ) : 0 < ulp q := by
  unfold ulp
  positivity

/-- The rounding error of `roundDouble` is at most half the spacing at its argument. -/
theorem roundDouble_error (q : ℚ) : |roundDouble q - q| ≤ ulp q / 2 := by
  unfold roundDouble
  have hu := ulp_pos q
  split_ifs with h
  · have hz : |0 - q| = 0 := by rw [h]; simp
    rw [hz]
    exact (half_pos hu).le
  · have he := roundHalfEven_error (q / ulp q)
    have : (roundHalfEven (q / ulp q) : ℚ) * ulp q - q
        = ((roundHalfEven (q / ulp q) : ℚ) - q / ulp q) * ulp q := by
      field_simp
    rw [this, abs_mul, abs_of_pos hu]
    calc |(roundHalfEven (q / ulp q) : ℚ) - q / ulp q| * ulp q ≤ 1 / 2 * ulp q :=
          mul_le_mul_of_nonneg_right he hu.le
      _ = ulp q / 2 := by ring

/-- A rational on the grid of its own binade is left as it is. -/
theorem roundDouble_of_grid (q : ℚ) (k : ℤ) (h : q = k * ulp q) : roundDouble q = q := by
  unfold roundDouble
  have hu := ulp_pos q
  split_ifs with h0
  · exact h0.symm
  · have hk : q / ulp q = k := by
      rw [div_eq_iff hu.ne']
      exact h
    rw [hk, roundHalfEven_intCast]
    exact h.symm

theorem ulp_of_binade {q : ℚ} {e : ℤ} (he : -1022 ≤ e) (h1 : (2 : ℚ) ^ e ≤ |q|)
    (h2 : |q| < (2 : ℚ) ^ (e + 1)) : ulp q = 2 ^ (e - 52) := by
  unfold ulp
  have hpos : 0 < |q| := lt_of_lt_of_le (by positivity) h1
  rw [int_log_two_eq hpos h1 h2, max_eq_left he]

/-- The value of `roundDouble` from the binade of the argument and the rounded
significand. -/
theorem roundDouble_of_binade {q : ℚ} {e m : ℤ} (he : -1022 ≤ e) (h1 : (2 : ℚ) ^ e ≤ |q|)
    (h2 : |q| < (2 : ℚ) ^ (e + 1)) (hm : roundHalfEven (q / 2 ^ (e - 52)) = m) :
    roundDouble q = m * 2 ^ (e - 52) := by
  have hq : q ≠ 0 := by
    intro h0
    rw [h0, abs_zero] at h1
    exact absurd h1 (not_le.mpr (by positivity))
  unfold roundDouble
  rw [if_neg hq, ulp_of_binade he h1 h2, hm]

theorem roundDouble_of_binade_pos {q : ℚ} {e m : ℤ} (he : -1022 ≤ e) (h1 : (2 : ℚ) ^ e ≤ q)
    (h2 : q < (2 : ℚ) ^ (e + 1)) (hm : roundHalfEven (q / 2 ^ (e - 52)) = m) :
    roundDouble q = m * 2 ^ (e - 52) := by
  have hpos : 0 < q := lt_of_lt_of_le (by positivity) h1
  exact roundDouble_of_binade he (by rw [abs_of_pos hpos]; exact h1)
    (by rw [abs_of_pos hpos]; exact h2) hm

/-- Integers of magnitude below `2 ^ 53` are binary64 numbers. -/
theorem roundDouble_intCast (n : ℤ) (h : |n| < 2 ^ 53) : roundDouble (n : ℚ) = n := by
  by_cases h0 : n = 0
  · simp [h0, roundDouble]
  have hb : 1 < 2 := by norm_num
  have hpos : (0 : ℚ) < |(n : ℚ)| := by
    rw [abs_pos]; exact_mod_cast h0
  have hle : Int.log 2 |(n : ℚ)| ≤ 52 := by
    have : Int.log 2 |(n : ℚ)| < 53 := by
      apply (Int.lt_zpow_iff_log_lt hb hpos).mp
      have : |(n : ℚ)| < 2 ^ 53 := by exact_mod_cast h
      exact_mod_cast this
    omega
  have hge : 0 ≤ Int.log 2 |(n : ℚ)| := by
    apply (Int.zpow_le_iff_le_log hb hpos).mp
    have : (1 : ℚ) ≤ |(n : ℚ)| := by
      have : (1 : ℤ) ≤ |n| := Int.one_le_abs h0
      exact_mod_cast this
    simpa using this
  obtain ⟨d, hd⟩ : ∃ d : ℕ, Int.log 2 |(n : ℚ)| = 52 - d := by
    refine ⟨(52 - Int.log 2 |(n : ℚ)|).toNat, ?_⟩
    rw [Int.toNat_of_nonneg (by omega)]; ring
  have hulp : ulp (n : ℚ) = ((2 : ℚ) ^ d)⁻¹ := by
    unfold ulp
    rw [max_eq_left (by omega), hd]
    have : (52 : ℤ) - d - 52 = -(d : ℤ) := by ring
    rw [this, zpow_neg, zpow_natCast]
  apply roundDouble_of_grid (n : ℚ) (n * 2 ^ d)
  rw [hulp]
  push_cast
  field_simp

/-- Adding two integers is exact while the sum stays below `2 ^ 53` in magnitude. -/
theorem jsAdd_intCast (a b : ℤ) (h : |a + b| < 2 ^ 53) : jsAdd (a : ℚ) (b : ℚ) = a + b := by
  unfold jsAdd
  have := roundDouble_intCast (a + b) h
  push_cast at this
  exact this

theorem jsAdd_zero_one : jsAdd 0 1 = 1 := by
  simpa using jsAdd_intCast 0 1 (by norm_num)

/-! ## Outcome resolver: Red Light Green Light, Tug of War, unknown endpoints -/

theorem simulateBackend_redlight (s : GameState) (data : RequestData) (r1 r2 : ℚ) :
    simulateBackend s "/redlight" data r1 r2 =
      BackendResult.redlight (simulateRedLight data r1) := by
  simp [simulateBackend]

theorem simulateBackend_tugofwar (s : GameState) (data : RequestData) (r1 r2 : ℚ) :
    simulateBackend s "/tugofwar" data r1 r2 =
      BackendResult.tugofwar (simulateTugOfWar data r1 r2) := by
  simp [simulateBackend]

/-- C16. The Red Light Green Light resolver, for every action, position and draw: the
light is `"GREEN"` for a draw below 0.5 and `"RED"` otherwise; `survived` is `false`
exactly when the action is `"move"` and the light is `"RED"`; the returned position is
`position + 1` when the player survived a `"move"` and the input position otherwise. -/
theorem redLight_resolver (s : GameState) (data : RequestData) (r1 r2 : ℚ) :
    ∃ res, simulateBackend s "/redlight" data r1 r2 = BackendResult.redlight res ∧
      (res.light = "GREEN" ∨ res.light = "RED") ∧
      (res.light = "GREEN" ↔ r1 < 0.5) ∧
      (res.survived = false ↔ data.action = "move" ∧ res.light = "RED") ∧
      (res.survived = true ∧ data.action = "move" → res.position = data.position + 1) ∧
      (¬ (res.survived = true ∧ data.action = "move") → res.position = data.position) := by
  refine ⟨_, simulateBackend_redlight s data r1 r2, ?_⟩
  unfold simulateRedLight
  by_cases hr : r1 < 0.5 <;> by_cases ha : data.action = "move" <;> simp [hr, ha]

/-- The strength that one full frame adds to strength 0: `0 + 0.05 * 28` in JavaScript
is `1.4000000000000001`, the binary64 number `6305039478318695 / 2 ^ 52`. -/
theorem jsAdd_gain_of_one_frame :
    jsAdd 0 (jsMul (jsLit 0.05) 28) = 6305039478318695 / 4503599627370496 := by
  have hlit : jsLit 0.05 = 3602879701896397 / 72057594037927936 := by
    unfold jsLit
    have hm : roundHalfEven ((0.05 : ℚ) / 2 ^ ((-5 : ℤ) - 52)) = 7205759403792794 := by
      have hf : ⌊(0.05 : ℚ) / 2 ^ ((-5 : ℤ) - 52)⌋ = 7205759403792793 := by
        rw [Int.floor_eq_iff]; norm_num
      unfold roundHalfEven
      rw [hf]
      norm_num
    rw [roundDouble_of_binade_pos (by norm_num) (by norm_num) (by norm_num) hm]
    norm_num
  have hmul : jsMul (3602879701896397 / 72057594037927936) 28
      = 6305039478318695 / 4503599627370496 := by
    unfold jsMul
    have hm : roundHalfEven ((3602879701896397 / 72057594037927936 * 28 : ℚ)
        / 2 ^ ((0 : ℤ) - 52)) = 6305039478318695 := by
      have hf : ⌊(3602879701896397 / 72057594037927936 * 28 : ℚ) / 2 ^ ((0 : ℤ) - 52)⌋
          = 6305039478318694 := by
        rw [Int.floor_eq_iff]; norm_num
      unfold roundHalfEven
      rw [hf]
      norm_num
    rw [roundDouble_of_binade_pos (by norm_num) (by norm_num) (by norm_num) hm]
    norm_num
  rw [hlit, hmul]
  unfold jsAdd
  have hm : roundHalfEven ((0 + 6305039478318695 / 4503599627370496 : ℚ)
      / 2 ^ ((0 : ℤ) - 52)) = 6305039478318695 := by
    have hx : (0 + 6305039478318695 / 4503599627370496 : ℚ) / 2 ^ ((0 : ℤ) - 52)
        = ((6305039478318695 : ℤ) : ℚ) := by norm_num
    rw [hx, roundHalfEven_intCast]
  rw [roundDouble_of_binade_pos (by norm_num) (by norm_num) (by norm_num) hm]
  norm_num

/-- One scoring frame of 50 ms with the tip of the bar inside the window, from strength
0, leaves the strength `1.4000000000000001`. -/
theorem scoreFrame_gain_of_one_frame (t : TugTurn) (h0 : t.player.tugStrength = 0)
    (hlo : jsAdd barLeft t.barWidth ≥ t.targetX)
    (hhi : jsAdd barLeft t.barWidth ≤ jsAdd t.targetX targetW) :
    (scoreFrame (jsLit 0.05) t).player.tugStrength = 6305039478318695 / 4503599627370496 := by
  unfold scoreFrame
  simp only [hlo, hhi, decide_True, Bool.and_self, if_true, h0]
  exact jsAdd_gain_of_one_frame

/-- C17, as stated, fails. The resolver adds the gain as JavaScript adds numbers. At
strength `2 ^ 53 = 9007199254740992` a gain of 1 is lost: the returned `playerStrength`
is the input strength. At strength `1.4000000000000001`, the strength one scoring frame
of 50 ms leaves, a gain of 1 returns `2.4000000000000004`, which exceeds the input by
`1 + 2 ^ (-52)`. -/
theorem tugOfWar_gain_lost_in_rounding :
    simulateBackend {} "/tugofwar" { strength := 9007199254740992 } 0 0.5 =
      BackendResult.tugofwar
        { playerStrength := 9007199254740992, opponentStrength := 13, survived := true,
          message := "You won!" } ∧
    (simulateTugOfWar { strength := 9007199254740992 } 0 0.5).playerStrength
      - 9007199254740992 = 0 ∧
    (simulateTugOfWar { strength := 6305039478318695 / 4503599627370496 } 0 0.5).playerStrength
      = 5404319552844596 / 2251799813685248 ∧
    (simulateTugOfWar { strength := 6305039478318695 / 4503599627370496 } 0 0.5).playerStrength
      - 6305039478318695 / 4503599627370496 = 1 + 1 / 4503599627370496 := by
  have hf : ⌊(0.5 : ℚ) * 10⌋ = 5 := by rw [Int.floor_eq_iff]; norm_num
  have hbig : jsAdd 9007199254740992 1 = 9007199254740992 := by
    unfold jsAdd
    have hm : roundHalfEven ((9007199254740992 + 1 : ℚ) / 2 ^ ((53 : ℤ) - 52))
        = 4503599627370496 := by
      have hfl : ⌊(9007199254740992 + 1 : ℚ) / 2 ^ ((53 : ℤ) - 52)⌋ = 4503599627370496 := by
        rw [Int.floor_eq_iff]; norm_num
      unfold roundHalfEven
      rw [hfl]
      norm_num
    rw [roundDouble_of_binade_pos (by norm_num) (by norm_num) (by norm_num) hm]
    norm_num
  have hfrac : jsAdd (6305039478318695 / 4503599627370496) 1
      = 5404319552844596 / 2251799813685248 := by
    unfold jsAdd
    have hm : roundHalfEven ((6305039478318695 / 4503599627370496 + 1 : ℚ)
        / 2 ^ ((1 : ℤ) - 52)) = 5404319552844596 := by
      have hfl : ⌊(6305039478318695 / 4503599627370496 + 1 : ℚ) / 2 ^ ((1 : ℤ) - 52)⌋
          = 5404319552844595 := by
        rw [Int.floor_eq_iff]; norm_num
      unfold roundHalfEven
      rw [hfl]
      norm_num
    rw [roundDouble_of_binade_pos (by norm_num) (by norm_num) (by norm_num) hm]
    norm_num
  refine ⟨?_, ?_, ?_, ?_⟩
  · rw [simulateBackend_tugofwar]
    simp [simulateTugOfWar, hf, hbig]
    norm_num
  · simp [simulateTugOfWar, hbig]
  · simp [simulateTugOfWar, hfrac]
  · simp [simulateTugOfWar, hfrac]
    norm_num

/-- C17, amended. The Tug of War resolver, for every input strength `s` and draws in
`[0, 1)`, with the gain `g = ⌊3 r1⌋ + 1`, which is 1, 2 or 3: the returned
`playerStrength` is the binary64 number nearest to `s + g`, so it differs from `s + g`
by at most half the spacing of the binary64 numbers there, and it exceeds `s` by exactly
`g` when `s` is an integer with `|s| + 3 < 2 ^ 53`. An opponent strength that is drawn
(none supplied, or 0 supplied) is an integer from 8 to 17, and `survived` is `true`
exactly when `playerStrength >= opponentStrength`. -/
theorem tugOfWar_resolver (s : GameState) (data : RequestData) (r1 r2 : ℚ)
    (h1 : 0 ≤ r1 ∧ r1 < 1) (h2 : 0 ≤ r2 ∧ r2 < 1) :
    ∃ res, simulateBackend s "/tugofwar" data r1 r2 = BackendResult.tugofwar res ∧
      (∃ g : Int, g = ⌊r1 * 3⌋ + 1 ∧ (g = 1 ∨ g = 2 ∨ g = 3) ∧
        res.playerStrength = roundDouble (data.strength + g) ∧
        |res.playerStrength - (data.strength + g)| ≤ ulp (data.strength + g) / 2 ∧
        (∀ n : Int, data.strength = n → |n| + 3 < 2 ^ 53 →
          res.playerStrength - data.strength = g)) ∧
      (data.opponentStrength = none ∨ data.opponentStrength = some 0 →
        ∃ n : Int, res.opponentStrength = (n : ℚ) ∧ 8 ≤ n ∧ n ≤ 17) ∧
      (res.survived = true ↔ res.playerStrength ≥ res.opponentStrength) := by
  refine ⟨_, simulateBackend_tugofwar s data r1 r2, ?_, ?_, ?_⟩
  · have hlo : (0 : Int) ≤ ⌊r1 * 3⌋ := Int.floor_nonneg.mpr (by linarith [h1.1])
    have hhi : ⌊r1 * 3⌋ < 3 := by
      rw [Int.floor_lt]; push_cast; linarith [h1.2]
    have hres : (simulateTugOfWar data r1 r2).playerStrength
        = roundDouble (data.strength + ((⌊r1 * 3⌋ + 1 : Int) : ℚ)) := rfl
    refine ⟨⌊r1 * 3⌋ + 1, rfl, by omega, hres, ?_, ?_⟩
    · rw [hres]
      exact roundDouble_error _
    · intro n hn hbound
      rw [hres, hn]
      have hsum : |n + (⌊r1 * 3⌋ + 1)| < 2 ^ 53 := by
        have habs : |n + (⌊r1 * 3⌋ + 1)| ≤ |n| + |⌊r1 * 3⌋ + 1| := abs_add _ _
        have hg : |⌊r1 * 3⌋ + 1| ≤ 3 := by
          rw [abs_le]; constructor <;> omega
        omega
      have hexact := roundDouble_intCast (n + (⌊r1 * 3⌋ + 1)) hsum
      push_cast at hexact ⊢
      rw [hexact]
      ring
  · intro hnone
    have hlo : (0 : Int) ≤ ⌊r2 * 10⌋ := Int.floor_nonneg.mpr (by linarith [h2.1])
    have hhi : ⌊r2 * 10⌋ < 10 := by
      rw [Int.floor_lt]; push_cast; linarith [h2.2]
    refine ⟨⌊r2 * 10⌋ + 8, ?_, by omega, by omega⟩
    rcases hnone with h | h <;> simp [simulateTugOfWar, h]
  · simp [simulateTugOfWar]

/-- A pull from strength 10 with draws 0.5 and 0.95, no opponent strength supplied:
the player gains 2, reaches 12 and meets a drawn opponent strength from 8 to 17. -/
theorem tugOfWar_resolver_witness :
    ∃ res, simulateBackend {} "/tugofwar" { playerName := "A", strength := 10 } 0.5 0.95
        = BackendResult.tugofwar res ∧
      res.playerStrength - 10 = 2 ∧
      (∃ n : Int, res.opponentStrength = (n : ℚ) ∧ 8 ≤ n ∧ n ≤ 17) := by
  obtain ⟨res, h1, ⟨g, hg, _, _, _, hexact⟩, h3, _⟩ :=
    tugOfWar_resolver {} { playerName := "A", strength := 10 } 0.5 0.95
      (by norm_num) (by norm_num)
  have hf : ⌊(0.5 : ℚ) * 3⌋ = 1 := by rw [Int.floor_eq_iff]; norm_num
  have h10 := hexact 10 (by norm_num) (by norm_num)
  rw [hg, hf] at h10
  refine ⟨res, h1, ?_, h3 (Or.inl rfl)⟩
  rw [h10]
  norm_num

/-- C18, as stated, fails. A request that supplies the opponent strength 0, with
strength 0 and draws 0 and 0.5: the result carries the drawn opponent strength 13, not
the supplied 0, and the player with strength 1 is reported lost although 1 >= 0. -/
theorem tugOfWar_supplied_zero_is_redrawn :
    simulateBackend {} "/tugofwar" { strength := 0, opponentStrength := some 0 } 0 0.5 =
      BackendResult.tugofwar
        { playerStrength := 1, opponentStrength := 13, survived := false,
          message := "You lost!" } := by
  rw [simulateBackend_tugofwar]
  have hf : ⌊(0.5 : ℚ) * 10⌋ = 5 := by rw [Int.floor_eq_iff]; norm_num
  simp [simulateTugOfWar, hf, jsAdd_zero_one]

/-- C18, amended. When the request supplies a non-zero opponent strength, the result
carries that value and `survived` is evaluated against it, whatever the second draw; an
opponent strength is drawn when none is supplied or when the supplied value is 0. -/
theorem tugOfWar_supplied_opponent (s : GameState) (data : RequestData) (r1 r2 : ℚ) :
    ∃ res, simulateBackend s "/tugofwar" data r1 r2 = BackendResult.tugofwar res ∧
      (∀ o, data.opponentStrength = some o → o ≠ 0 →
        res.opponentStrength = o ∧ (res.survived = true ↔ res.playerStrength ≥ o)) ∧
      (data.opponentStrength = none ∨ data.opponentStrength = some 0 →
        res.opponentStrength = ((⌊r2 * 10⌋ + 8 : Int) : ℚ)) ∧
      (res.opponentStrength ≠ ((⌊r2 * 10⌋ + 8 : Int) : ℚ) →
        data.opponentStrength = some res.opponentStrength) := by
  refine ⟨_, simulateBackend_tugofwar s data r1 r2, ?_, ?_, ?_⟩
  · intro o ho hne
    simp [simulateTugOfWar, ho, hne]
  · rintro (h | h) <;> simp [simulateTugOfWar, h]
  · intro hne
    unfold simulateTugOfWar at hne ⊢
    cases hd : data.opponentStrength with
    | none => simp [hd] at hne
    | some o =>
      by_cases ho : o = 0
      · simp [hd, ho] at hne
      · simp [hd, ho]

/-- C19. `simulateBackend` returns the error result, `"Unknown endpoint"`, exactly when
the endpoint is none of `/redlight`, `/glassbridge`, `/tugofwar`; for each of the three
it returns the result object of that game, which carries a boolean `survived`, for every
request and every draw. -/
theorem simulateBackend_error_iff (s : GameState) (endpoint : String) (data : RequestData)
    (r1 r2 : ℚ) :
    ((∃ msg, simulateBackend s endpoint data r1 r2 = BackendResult.error msg) ↔
      endpoint ≠ "/redlight" ∧ endpoint ≠ "/glassbridge" ∧ endpoint ≠ "/tugofwar") ∧
    (endpoint ≠ "/redlight" ∧ endpoint ≠ "/glassbridge" ∧ endpoint ≠ "/tugofwar" →
      simulateBackend s endpoint data r1 r2 = BackendResult.error "Unknown endpoint") ∧
    (endpoint = "/redlight" →
      ∃ res : RedLightResult, simulateBackend s endpoint data r1 r2 = BackendResult.redlight res ∧
        (res.survived = true ∨ res.survived = false)) ∧
    (endpoint = "/glassbridge" →
      ∃ res : GlassBridgeResult,
        simulateBackend s endpoint data r1 r2 = BackendResult.glassbridge res ∧
        (res.survived = true ∨ res.survived = false)) ∧
    (endpoint = "/tugofwar" →
      ∃ res : TugOfWarResult, simulateBackend s endpoint data r1 r2 = BackendResult.tugofwar res ∧
        (res.survived = true ∨ res.survived = false)) := by
  have hb : ∀ b : Bool, b = true ∨ b = false := fun b => by cases b <;> simp
  refine ⟨?_, ?_, ?_, ?_, ?_⟩
  · unfold simulateBackend
    by_cases h1 : endpoint = "/redlight"
    · simp [h1]
    · by_cases h2 : endpoint = "/glassbridge"
      · simp [h2]
      · by_cases h3 : endpoint = "/tugofwar"
        · simp [h3]
        · simp [h1, h2, h3]
  · rintro ⟨h1, h2, h3⟩
    simp [simulateBackend, h1, h2, h3]
  · rintro rfl
    exact ⟨_, simulateBackend_redlight s data r1 r2, hb _⟩
  · rintro rfl
    exact ⟨_, simulateBackend_glassbridge s data r1 r2, hb _⟩
  · rintro rfl
    exact ⟨_, simulateBackend_tugofwar s data r1 r2, hb _⟩

/-! ## Game entry -/

/-- C20, as stated, fails. Two players start a session; the first is eliminated in Red
Light Green Light and the second finishes its turn. The transition enters the next
mini-game (index 1, below 3) with exactly one player alive and calls `startGame`, which
does not show the results: it shows the rulebook, and once the rules are acknowledged it
runs the Glass Bridge turn of that player. -/
theorem single_survivor_keeps_playing :
    (moveToNextPlayer (nextPlayer (markEliminated (startSession ["A", "B"]) 0)).1).2
      = NextScreen.startGame ∧
    (moveToNextPlayer (nextPlayer (markEliminated (startSession ["A", "B"]) 0)).1).1.currentGameIndex
      = 1 ∧
    (getAlivePlayers
      (moveToNextPlayer (nextPlayer (markEliminated (startSession ["A", "B"]) 0)).1).1).length
      = 1 ∧
    startGame (moveToNextPlayer (nextPlayer (markEliminated (startSession ["A", "B"]) 0)).1).1
      = StartGameAction.showRulebookForCurrentGame ∧
    startGame (acknowledgeRules
      (moveToNextPlayer (nextPlayer (markEliminated (startSession ["A", "B"]) 0)).1).1)
      = StartGameAction.showScreenForCurrentGame ∧
    showScreenForCurrentGame (acknowledgeRules
      (moveToNextPlayer (nextPlayer (markEliminated (startSession ["A", "B"]) 0)).1).1)
      = some MiniGame.startGlassBridge ∧
    (getCurrentPlayer (acknowledgeRules
      (moveToNextPlayer (nextPlayer (markEliminated (startSession ["A", "B"]) 0)).1).1)).map
        (fun p => (p.name, p.alive)) = some ("B", true) := by
  have hs : (moveToNextPlayer (nextPlayer (markEliminated (startSession ["A", "B"]) 0)).1) =
      ({ players := [{ name := "A", alive := false }, { name := "B" }]
         currentPlayerIndex := 1
         currentGameIndex := 1 }, NextScreen.startGame) := by
    simp [moveToNextPlayer, nextPlayer, nextPlayerLoop, markEliminated, startSession,
      createRoster, List.enum, List.enumFrom, List.modify, nextGame, resetToFirstAlivePlayer,
      skipEliminated, getAlivePlayers, isGameComplete, gameNames]
  rw [hs]
  decide

/-- C20, amended. `startGame` shows the results exactly when the game index has reached
the number of mini-games or no player is alive. With exactly one player alive and a
game index below 3, it does not finish the session: it runs the mini-game of the current
index, behind the rulebook the first time. Whenever results are shown, each row carries
the `alive` flag of its player. -/
theorem startGame_shows_results_iff (s : GameState) :
    (startGame s = StartGameAction.showResults ↔
      isGameComplete s = true ∨ (getAlivePlayers s).length = 0) ∧
    ((getAlivePlayers s).length = 1 → s.currentGameIndex < 3 →
      startGame s ≠ StartGameAction.showResults ∧
      startGame (acknowledgeRules s) = StartGameAction.showScreenForCurrentGame ∧
      ∃ g, showScreenForCurrentGame (acknowledgeRules s) = some g) ∧
    (showResults s).map (fun r => (r.name, r.survived))
      = s.players.map (fun p => (p.name, p.alive)) := by
  have hiff : startGame s = StartGameAction.showResults ↔
      isGameComplete s = true ∨ (getAlivePlayers s).length = 0 := by
    unfold startGame
    by_cases h1 : isGameComplete s = true
    · simp [h1]
    · by_cases h2 : (getAlivePlayers s).length = 0
      · simp [h2]
      · by_cases h3 : s.currentGameIndex ∈ s.rulesShown <;> simp [h1, h2, h3]
  refine ⟨hiff, fun hone hidx => ?_, ?_⟩
  · have hc : isGameComplete s = false := by
      simp [isGameComplete, gameNames]; omega
    have hc2 : isGameComplete (acknowledgeRules s) = false := hc
    have ha2 : (getAlivePlayers (acknowledgeRules s)).length = 1 := hone
    refine ⟨?_, ?_, ?_⟩
    · rw [Ne, hiff, hc, hone]; simp
    · have hmem : (acknowledgeRules s).currentGameIndex ∈ (acknowledgeRules s).rulesShown :=
        List.mem_cons_self _ _
      unfold startGame
      simp only [hc2, ha2, hmem]
      simp
    · have : (acknowledgeRules s).currentGameIndex = s.currentGameIndex := rfl
      unfold showScreenForCurrentGame
      rw [this]
      have h3 : s.currentGameIndex = 0 ∨ s.currentGameIndex = 1 ∨ s.currentGameIndex = 2 := by
        omega
      rcases h3 with h | h | h <;> rw [h] <;> exact ⟨_, rfl⟩
  · simp [showResults, List.map_map, Function.comp_def]

/-- The amended rule on a session with a single player: `startGame` does not show the
results at game index 0. -/
theorem startGame_shows_results_iff_witness :
    startGame (startSession ["Solo"]) ≠ StartGameAction.showResults :=
  ((startGame_shows_results_iff (startSession ["Solo"])).2.1
    (by simp [startSession, createRoster, getAlivePlayers, List.enum, List.enumFrom])
    (by decide)).1

/-! ## Round-complete transition and the survivors of the filter -/

theorem moveToNextPlayer_round_complete (s : GameState) (h : (nextPlayer s).2 = false) :
    moveToNextPlayer s =
      (resetToFirstAlivePlayer (nextGame
          (if s.currentGameIndex = 2 then
            { (nextPlayer s).1 with players := tugOfWarFilter s.players }
          else (nextPlayer s).1)),
        if (getAlivePlayers (resetToFirstAlivePlayer (nextGame
            (if s.currentGameIndex = 2 then
              { (nextPlayer s).1 with players := tugOfWarFilter s.players }
            else (nextPlayer s).1)))).length = 0 ||
          isGameComplete (resetToFirstAlivePlayer (nextGame
            (if s.currentGameIndex = 2 then
              { (nextPlayer s).1 with players := tugOfWarFilter s.players }
            else (nextPlayer s).1)))
        then NextScreen.showResults else NextScreen.startGame) := by
  unfold moveToNextPlayer
  simp only [h, Bool.not_false, if_true]
  have h1 : (nextPlayer s).1.currentGameIndex = s.currentGameIndex := rfl
  have h2 : (nextPlayer s).1.players = s.players := rfl
  simp only [h1, h2]
  split_ifs <;> rfl

theorem moveToNextPlayer_gameIndex_le (s : GameState) :
    s.currentGameIndex ≤ (moveToNextPlayer s).1.currentGameIndex := by
  unfold moveToNextPlayer
  simp only [nextPlayer, nextGame, resetToFirstAlivePlayer]
  split_ifs <;> simp

/-- Some alive player survives the filter when some player is alive. -/
theorem tugOfWarFilter_keeps_some (players : List Player)
    (h : ∃ p ∈ players, p.alive = true) : ∃ i, aliveAt (tugOfWarFilter players) i = true := by
  obtain ⟨p, hp, ha⟩ := h
  cases hl : (players.filter (fun p => p.alive)).map floorStrength with
  | nil =>
    have : floorStrength p ∈ (players.filter (fun p => p.alive)).map floorStrength :=
      List.mem_map.mpr ⟨p, List.mem_filter.mpr ⟨hp, ha⟩, rfl⟩
    rw [hl] at this
    exact absurd this (List.not_mem_nil _)
  | cons m ms =>
    obtain ⟨hle, q, hq, hqa, hmax⟩ := maxStrength_spec players m ms hl
    obtain ⟨i, hi, hiq⟩ := List.getElem_of_mem hq
    refine ⟨i, (aliveAt_tugOfWarFilter players i).mpr ⟨q, ?_, hqa, ?_⟩⟩
    · rw [List.getElem?_eq_getElem hi, hiq]
    · intro q2 hq2 hq2a
      rw [hmax]
      exact hle q2 hq2 hq2a

theorem tugOfWarFilter_alive_subset (players : List Player) (i : Nat)
    (h : aliveAt (tugOfWarFilter players) i = true) : aliveAt players i = true := by
  obtain ⟨p, hp, ha, _⟩ := (aliveAt_tugOfWarFilter players i).mp h
  exact (aliveAt_iff_getElem? players i).mpr ⟨p, hp, ha⟩

/-- C27. The Tug of War filter never empties the survivor set: on a roster with an
alive player some player is alive after the filter, and every player alive after the
filter was alive before it, at the same roster index and with the same name. -/
theorem tugOfWarFilter_never_empties (players : List Player)
    (h : ∃ p ∈ players, p.alive = true) :
    (∃ p ∈ tugOfWarFilter players, p.alive = true) ∧
    (∀ i, aliveAt (tugOfWarFilter players) i = true → aliveAt players i = true) ∧
    (tugOfWarFilter players).map (fun p => p.name) = players.map (fun p => p.name) := by
  refine ⟨?_, tugOfWarFilter_alive_subset players, tugOfWarFilter_names players⟩
  obtain ⟨i, hi⟩ := tugOfWarFilter_keeps_some players h
  obtain ⟨p, hp, ha⟩ := (aliveAt_iff_getElem? _ _).mp hi
  exact ⟨p, List.getElem?_mem hp, ha⟩

/-- The filter on strengths 20, 15, 20 with the second player already eliminated: a
player is alive afterwards. -/
theorem tugOfWarFilter_never_empties_witness :
    ∃ p ∈ tugOfWarFilter [{ name := "A", tugStrength := 20 },
        { name := "B", alive := false, tugStrength := 15 }, { name := "C", tugStrength := 20 }],
      p.alive = true :=
  (tugOfWarFilter_never_empties [{ name := "A", tugStrength := 20 },
      { name := "B", alive := false, tugStrength := 15 }, { name := "C", tugStrength := 20 }]
    ⟨{ name := "A", tugStrength := 20 }, by simp, rfl⟩).1

/-- C21. When `nextPlayer` reports the round complete, `moveToNextPlayer` increases the
game index by exactly one, applies the Tug of War filter exactly when game index 2 was
just finished, and puts the cursor where `resetToFirstAlivePlayer` puts it: on the first
alive player when there is one. It shows the results exactly when no player is alive or
the game index has reached 3, and otherwise calls `startGame`, which then does not show
the results. In every call the game index does not decrease. -/
theorem round_complete_transition (s : GameState) (h : (nextPlayer s).2 = false) :
    (moveToNextPlayer s).1.currentGameIndex = s.currentGameIndex + 1 ∧
    (moveToNextPlayer s).1.players =
      (if s.currentGameIndex = 2 then tugOfWarFilter s.players else s.players) ∧
    (moveToNextPlayer s).1.currentPlayerIndex =
      (resetToFirstAlivePlayer (moveToNextPlayer s).1).currentPlayerIndex ∧
    ((∃ p ∈ (moveToNextPlayer s).1.players, p.alive = true) →
      (∃ p, getCurrentPlayer (moveToNextPlayer s).1 = some p ∧ p.alive = true) ∧
      ∀ k, k < (moveToNextPlayer s).1.currentPlayerIndex →
        aliveAt (moveToNextPlayer s).1.players k = false) ∧
    ((moveToNextPlayer s).2 = NextScreen.showResults ↔
      (getAlivePlayers (moveToNextPlayer s).1).length = 0 ∨
      isGameComplete (moveToNextPlayer s).1 = true) ∧
    (isGameComplete (moveToNextPlayer s).1 = true ↔
      3 ≤ (moveToNextPlayer s).1.currentGameIndex) ∧
    ((moveToNextPlayer s).2 ≠ NextScreen.showResults →
      (moveToNextPlayer s).2 = NextScreen.startGame ∧
      startGame (moveToNextPlayer s).1 ≠ StartGameAction.showResults) ∧
    (∀ s0 : GameState, s0.currentGameIndex ≤ (moveToNextPlayer s0).1.currentGameIndex) := by
  have hm := moveToNextPlayer_round_complete s h
  have hidx : (moveToNextPlayer s).1.currentGameIndex = s.currentGameIndex + 1 := by
    rw [hm]; split_ifs <;> rfl
  have hpl : (moveToNextPlayer s).1.players =
      (if s.currentGameIndex = 2 then tugOfWarFilter s.players else s.players) := by
    rw [hm]; split_ifs <;> rfl
  have hcur : (moveToNextPlayer s).1.currentPlayerIndex =
      skipEliminated (moveToNextPlayer s).1.players 0 := by
    rw [hm]; split_ifs <;> rfl
  have hscreen : (moveToNextPlayer s).2 = NextScreen.showResults ↔
      (getAlivePlayers (moveToNextPlayer s).1).length = 0 ∨
      isGameComplete (moveToNextPlayer s).1 = true := by
    rw [hm]
    dsimp only
    generalize resetToFirstAlivePlayer _ = s3
    by_cases hc : (decide ((getAlivePlayers s3).length = 0) || isGameComplete s3) = true
    · rw [if_pos hc]
      exact ⟨fun _ => by simpa using hc, fun _ => rfl⟩
    · rw [if_neg hc]
      exact ⟨fun hx => NextScreen.noConfusion hx, fun hx => absurd (by simpa using hx) hc⟩
  have hcomplete : isGameComplete (moveToNextPlayer s).1 = true ↔
      3 ≤ (moveToNextPlayer s).1.currentGameIndex := by
    simp [isGameComplete, gameNames]
  refine ⟨hidx, hpl, hcur, fun halive => ?_, hscreen, hcomplete, fun hne => ?_,
    moveToNextPlayer_gameIndex_le⟩
  · obtain ⟨h1, h2⟩ := skipEliminated_zero_alive _ (exists_aliveAt_of_mem halive)
    refine ⟨?_, fun k hk => h2 k (by rw [← hcur]; exact hk)⟩
    unfold getCurrentPlayer
    rw [hcur]
    exact (aliveAt_iff_getElem? _ _).mp h1
  · have hstart : (moveToNextPlayer s).2 = NextScreen.startGame := by
      cases hx : (moveToNextPlayer s).2
      · exact absurd hx hne
      · rfl
    refine ⟨hstart, fun hsg => ?_⟩
    have h1 : ¬ ((getAlivePlayers (moveToNextPlayer s).1).length = 0 ∨
        isGameComplete (moveToNextPlayer s).1 = true) := fun hc => hne (hscreen.mpr hc)
    unfold startGame at hsg
    split_ifs at hsg with ha hb hc
    · exact h1 (Or.inr ha)
    · exact h1 (Or.inl hb)

/-- The last alive player of a two-player Red Light Green Light round finishes: the
game index goes from 0 to 1. -/
theorem round_complete_transition_witness :
    (moveToNextPlayer
      { players := [{ name := "A", alive := false }, { name := "B" }],
        currentPlayerIndex := 1 }).1.currentGameIndex = 0 + 1 :=
  (round_complete_transition
    { players := [{ name := "A", alive := false }, { name := "B" }], currentPlayerIndex := 1 }
    (by simp [nextPlayer, nextPlayerLoop])).1


/-! ## Terminal Red Light Green Light turns -/

/-- A stopped turn with no light callback armed is left unchanged by every event. -/
theorem fireEvent_terminal (cfg : RlgConfig) (t : RlgTurn) (e : RlgEvent)
    (hrun : t.running = false) (hlight : t.lightTimeout = none) : fireEvent cfg t e = t := by
  cases e with
  | tick => simp [fireEvent, canFire, stepTurn, updateTimer, hrun]
  | move now => simp [fireEvent, canFire, stepTurn, handleMove, hrun]
  | nextLightCycle => simp [fireEvent, canFire, stepTurn, nextLightCycle, hrun]
  | toRed => simp [fireEvent, canFire, hlight]

theorem runFired_terminal (cfg : RlgConfig) (t : RlgTurn) (es : List RlgEvent)
    (hrun : t.running = false) (hlight : t.lightTimeout = none) : runFired cfg t es = t := by
  induction es with
  | nil => rfl
  | cons e es ih =>
    show runFired cfg (fireEvent cfg t e) es = t
    rw [fireEvent_terminal cfg t e hrun hlight]
    exact ih

/-- A turn that stops has no light callback armed: it stopped in `eliminatePlayer` or
`finishPlayer`, which clear it. -/
theorem stepTurn_stops_cleared (cfg : RlgConfig) (t : RlgTurn) (e : RlgEvent)
    (hrun : t.running = true) (hstop : (stepTurn cfg t e).running = false) :
    (stepTurn cfg t e).lightTimeout = none := by
  cases e with
  | tick =>
    simp only [stepTurn, updateTimer, hrun, Bool.not_true, Bool.false_eq_true, if_false]
      at hstop ⊢
    split_ifs at hstop ⊢
    rfl
  | move now =>
    simp only [stepTurn, handleMove] at hstop ⊢
    split_ifs at hstop ⊢ <;> first
      | rfl
      | (simp [hrun] at hstop)
  | nextLightCycle =>
    simp only [stepTurn, nextLightCycle] at hstop
    split_ifs at hstop <;> simp_all [setLight]
  | toRed =>
    simp [stepTurn, lightToRed, setLight, hrun] at hstop

/-- From READY on, a stopped turn has no light callback armed. -/
theorem runFired_stopped_cleared (cfg : RlgConfig) (es : List RlgEvent) (t : RlgTurn)
    (hinv : t.running = false → t.lightTimeout = none) :
    (runFired cfg t es).running = false → (runFired cfg t es).lightTimeout = none := by
  induction es generalizing t with
  | nil => exact hinv
  | cons e es ih =>
    show (runFired cfg (fireEvent cfg t e) es).running = false → _
    apply ih
    intro hstop
    by_cases hrun : t.running = true
    · unfold fireEvent at hstop ⊢
      split_ifs at hstop ⊢ with hc
      · exact stepTurn_stops_cleared cfg t e hrun hstop
      · rw [hrun] at hstop; exact Bool.noConfusion hstop
    · have hrun2 : t.running = false := by simpa using hrun
      rw [fireEvent_terminal cfg t e hrun2 (hinv hrun2)]
      exact hinv hrun2

/-- C26. A terminal Red Light Green Light turn is absorbing. Right after
`eliminatePlayer` or `finishPlayer`, and in any stopped state a turn reaches from READY,
every later sequence of move inputs, countdown ticks and light callbacks (the red phase
callback running only if still armed under `lightTimeout`) leaves the whole turn state
unchanged: attempts, timer, `alive`, the eliminated flag and the light. So an advanced
player is never eliminated afterwards by that turn and an eliminated player never
advances. -/
theorem terminal_turn_is_absorbing (cfg : RlgConfig) (t : RlgTurn) (p : Player)
    (before after : List RlgEvent) :
    runFired cfg (eliminatePlayer t) after = eliminatePlayer t ∧
    runFired cfg (finishPlayer t) after = finishPlayer t ∧
    (runFired cfg (eliminatePlayer t) after).player.alive = false ∧
    (runFired cfg (eliminatePlayer t) after).player.rlg_eliminated = true ∧
    (runFired cfg (finishPlayer t) after).player.alive = t.player.alive ∧
    (runFired cfg (finishPlayer t) after).player.rlg_eliminated = t.player.rlg_eliminated ∧
    (runFired cfg (finishPlayer t) after).player.rlg_attempts = t.player.rlg_attempts ∧
    (runFired cfg (finishPlayer t) after).player.rlg_timer = t.player.rlg_timer ∧
    (runFired cfg (finishPlayer t) after).lightState = t.lightState ∧
    ((runFired cfg (freshTurn cfg p) before).running = false →
      runFired cfg (runFired cfg (freshTurn cfg p) before) after
        = runFired cfg (freshTurn cfg p) before) := by
  have he := runFired_terminal cfg (eliminatePlayer t) after rfl rfl
  have hf := runFired_terminal cfg (finishPlayer t) after rfl rfl
  refine ⟨he, hf, ?_, ?_, ?_, ?_, ?_, ?_, ?_, fun hstop => ?_⟩
  · rw [he]; rfl
  · rw [he]; rfl
  · rw [hf]; rfl
  · rw [hf]; rfl
  · rw [hf]; rfl
  · rw [hf]; rfl
  · rw [hf]; rfl
  · refine runFired_terminal cfg _ after hstop ?_
    refine runFired_stopped_cleared cfg before (freshTurn cfg p) ?_ hstop
    intro hc
    simp [freshTurn, confirmReady, setupRedLightGreenLightMode, setLight] at hc

/-- A turn that finished on green with the fourth accepted move: a late move input, a
tick, the first light cycle callback and the cancelled red phase callback change
nothing, and the player is still alive. -/
theorem terminal_turn_is_absorbing_witness :
    (runFired {} (runFired {} (freshTurn {} { name := "A" })
        [RlgEvent.nextLightCycle, RlgEvent.move 1000000, RlgEvent.move 1000300,
          RlgEvent.move 1000600, RlgEvent.move 1000900])
      [RlgEvent.move 1001200, RlgEvent.tick, RlgEvent.nextLightCycle, RlgEvent.toRed])
      = runFired {} (freshTurn {} { name := "A" })
        [RlgEvent.nextLightCycle, RlgEvent.move 1000000, RlgEvent.move 1000300,
          RlgEvent.move 1000600, RlgEvent.move 1000900] :=
  (terminal_turn_is_absorbing {} (freshTurn {} { name := "A" }) { name := "A" }
    [RlgEvent.nextLightCycle, RlgEvent.move 1000000, RlgEvent.move 1000300,
      RlgEvent.move 1000600, RlgEvent.move 1000900]
    [RlgEvent.move 1001200, RlgEvent.tick, RlgEvent.nextLightCycle, RlgEvent.toRed]).2.2.2.2.2.2.2.2.2
    (by decide)


/-! ## Response normalization and the Tug of War handlers -/

/-- The Red Light Green Light and Glass Bridge handlers normalize `survived`: the
strings `"true"` and `"false"` give the outcome of the booleans `true` and `false`. -/
theorem survived_normalized_redlight_bridge (parseInt : JsVal → Int) (enforce : Bool)
    (player : Player) (choice : String) (result : OracleResponse) :
    handleRedLightResult parseInt player { result with survived := JsVal.str "true" } =
      handleRedLightResult parseInt player { result with survived := JsVal.bool true } ∧
    handleRedLightResult parseInt player { result with survived := JsVal.str "false" } =
      handleRedLightResult parseInt player { result with survived := JsVal.bool false } ∧
    handleBridgeResult enforce player choice { result with survived := JsVal.str "true" } =
      handleBridgeResult enforce player choice { result with survived := JsVal.bool true } ∧
    handleBridgeResult enforce player choice { result with survived := JsVal.str "false" } =
      handleBridgeResult enforce player choice { result with survived := JsVal.bool false } := by
  have h1 : normalizeSurvived (JsVal.str "true") = normalizeSurvived (JsVal.bool true) := by
    decide
  have h2 : normalizeSurvived (JsVal.str "false") = normalizeSurvived (JsVal.bool false) := by
    decide
  refine ⟨?_, ?_, ?_, ?_⟩
  · simp only [handleRedLightResult, h1]
  · simp only [handleRedLightResult, h2]
  · simp only [handleBridgeResult, h1]
  · simp only [handleBridgeResult, h2]

/-- The pull handler treats the string `"true"` like the boolean `true`. -/
theorem handlePullResult_string_true (player : Player) (result : OracleResponse) :
    handlePullResult player { result with survived := JsVal.str "true" } =
      handlePullResult player { result with survived := JsVal.bool true } := by
  simp [handlePullResult, JsVal.truthy]

/-- C22 at the failing input. A player on the fifth pull, the remote backend answering
that the player lost, 10 against 12. With the boolean `false` the pull handler
eliminates the player; with the string `"false"` the same handler reports the player
finished and leaves it alive. -/
theorem handlePull_string_false_survives :
    (handlePull { players := [{ name := "A", tugStrength := 9, tugTurns := 4 }] }
        (some { survived := JsVal.bool false, playerStrength := 10, opponentStrength := 12 })
        0 0).2 = TurnReport.eliminated ∧
    (getCurrentPlayer (handlePull
        { players := [{ name := "A", tugStrength := 9, tugTurns := 4 }] }
        (some { survived := JsVal.bool false, playerStrength := 10, opponentStrength := 12 })
        0 0).1).map (fun p => p.alive) = some false ∧
    (handlePull { players := [{ name := "A", tugStrength := 9, tugTurns := 4 }] }
        (some { survived := JsVal.str "false", playerStrength := 10, opponentStrength := 12 })
        0 0).2 = TurnReport.finished ∧
    (getCurrentPlayer (handlePull
        { players := [{ name := "A", tugStrength := 9, tugTurns := 4 }] }
        (some { survived := JsVal.str "false", playerStrength := 10, opponentStrength := 12 })
        0 0).1).map (fun p => p.alive) = some true := by
  simp [handlePull, handlePullResult, callBackend, getCurrentPlayer, setCurrentPlayer,
    JsVal.truthy]

/-- C24, as stated, fails. A player on the fifth pull with strength 0, the backend
unreachable and the local resolver drawing a gain of 1 and an opponent strength of 17:
the pull handler itself sets `alive = false`, before any filtering. -/
theorem handlePull_eliminates :
    (handlePull { players := [{ name := "A", tugTurns := 4 }, { name := "B" }] }
        none 0 0.9).2 = TurnReport.eliminated ∧
    (handlePull { players := [{ name := "A", tugTurns := 4 }, { name := "B" }] }
        none 0 0.9).1.players.map (fun p => (p.name, p.alive))
      = [("A", false), ("B", true)] := by
  have hf : ⌊(0.9 : ℚ) * 10⌋ = 9 := by rw [Int.floor_eq_iff]; norm_num
  simp [handlePull, handlePullResult, callBackend, getCurrentPlayer, setCurrentPlayer,
    JsVal.truthy, simulateBackend, simulateTugOfWar, localResponse, hf, jsAdd_zero_one]

theorem bounceTarget_player (r3 r4 : ℚ) (t : TugTurn) :
    (bounceTarget r3 r4 t).player = t.player := by
  unfold bounceTarget
  split_ifs <;> rfl

theorem moveTarget_player (dt r1 r2 r3 r4 : ℚ) (t : TugTurn) :
    (moveTarget dt r1 r2 r3 r4 t).player = t.player := by
  unfold moveTarget
  dsimp only
  rw [bounceTarget_player]
  dsimp only
  split_ifs <;> rfl

theorem scoreFrame_player (dt : ℚ) (t : TugTurn) :
    { (scoreFrame dt t).player with tugStrength := t.player.tugStrength } = t.player := by
  unfold scoreFrame
  dsimp only
  split_ifs <;> rfl

theorem tugStep_player (ts r1 r2 r3 r4 : ℚ) (t : TugTurn) :
    { (tugStep ts r1 r2 r3 r4 t).player with tugStrength := t.player.tugStrength } = t.player := by
  unfold tugStep
  split_ifs
  · rfl
  · have h := scoreFrame_player (frameDt ts t) (shrinkBar (frameDt ts t)
      (moveTarget (frameDt ts t) r1 r2 r3 r4
        { t with lastTs := some ts, elapsed := jsAdd t.elapsed (frameDt ts t) }))
    have hm := moveTarget_player (frameDt ts t) r1 r2 r3 r4
      { t with lastTs := some ts, elapsed := jsAdd t.elapsed (frameDt ts t) }
    have hs : (shrinkBar (frameDt ts t) (moveTarget (frameDt ts t) r1 r2 r3 r4
        { t with lastTs := some ts, elapsed := jsAdd t.elapsed (frameDt ts t) })).player
        = t.player := hm
    rw [hs] at h
    exact h

theorem stepTug_player (t : TugTurn) (e : TugEvent) :
    { (stepTug t e).player with tugStrength := t.player.tugStrength } = t.player := by
  cases e with
  | tap now =>
    simp only [stepTug, handleTap]
    split_ifs <;> rfl
  | step ts r1 r2 r3 r4 => exact tugStep_player ts r1 r2 r3 r4 t
  | endTugRound =>
    simp only [stepTug, endTugRound]
    split_ifs <;> rfl
  | resize width => rfl

theorem runTug_player (es : List TugEvent) (t : TugTurn) :
    { (runTug t es).player with tugStrength := t.player.tugStrength } = t.player := by
  induction es generalizing t with
  | nil => rfl
  | cons e es ih =>
    have h1 := stepTug_player t e
    have h2 := ih (stepTug t e)
    show { (runTug (stepTug t e) es).player with tugStrength := t.player.tugStrength } = t.player
    rw [← h1, ← h2]

/-- C24, amended. The handlers of the real-time Tug of War turn (tap, animation step,
the timeout end `endTugRound`, resize) change no field of the player but `tugStrength`,
so no `alive` flag changes through any sequence of them; only the animation step changes
the strength, and the tap and the timeout end leave the player object as it is. The pull
handler `handlePull` is left out: on the fifth pull it eliminates the player when the
response does not report survival. -/
theorem tug_turn_keeps_alive (t : TugTurn) (es : List TugEvent) :
    (runTug t es).player.alive = t.player.alive ∧
    { (runTug t es).player with tugStrength := t.player.tugStrength } = t.player ∧
    (endTugRound t).player = t.player ∧
    (endTugRound t).player.tugStrength = t.player.tugStrength ∧
    (endTugRound t).running = false ∧
    (∀ now, (handleTap now t).player = t.player) ∧
    (∀ ts r1 r2 r3 r4, (tugStep ts r1 r2 r3 r4 t).player.alive = t.player.alive) ∧
    (∀ p result, (handlePullResult p result).2 ≠ TurnReport.eliminated →
      (handlePullResult p result).1.alive = p.alive) := by
  have hrun := runTug_player es t
  have hend : (endTugRound t).player = t.player := by
    unfold endTugRound; split_ifs <;> rfl
  refine ⟨?_, hrun, hend, by rw [hend], ?_, ?_, ?_, ?_⟩
  · have := congrArg (fun p : Player => p.alive) hrun
    simpa using this
  · unfold endTugRound
    split_ifs with h
    · simpa using h
    · rfl
  · intro now
    unfold handleTap; split_ifs <;> rfl
  · intro ts r1 r2 r3 r4
    have := congrArg (fun p : Player => p.alive) (tugStep_player ts r1 r2 r3 r4 t)
    simpa using this
  · intro p result hne
    unfold handlePullResult at hne ⊢
    dsimp only at hne ⊢
    split_ifs at hne ⊢ <;> first
      | rfl
      | exact absurd rfl hne


/-! ## Glass Bridge turn -/

theorem getCurrentPlayer_setCurrentPlayer (s : GameState) (p q : Player)
    (hp : getCurrentPlayer s = some p) : getCurrentPlayer (setCurrentPlayer s q) = some q := by
  unfold getCurrentPlayer at hp
  have hlt := (List.getElem?_eq_some.mp hp).1
  unfold getCurrentPlayer setCurrentPlayer
  exact List.getElem?_set_self hlt

theorem callBackend_glassbridge (s : GameState) (data : RequestData)
    (remote : Option OracleResponse) (r1 r2 : ℚ) :
    callBackend s "/glassbridge" data remote r1 r2 =
      localResponse (BackendResult.glassbridge
        (simulateGlassBridge s.glassBridgeGuaranteedName data r1)) := by
  simp [callBackend, simulateBackend_glassbridge]

/-- On an answer of the local resolver the handler shows what the resolver returned,
whether or not it enforces the first step itself. -/
theorem handleBridgeResult_local (enforce : Bool) (guaranteed : Option String) (p : Player)
    (c : String) (r : ℚ) :
    handleBridgeResult enforce p c (localResponse (BackendResult.glassbridge
        (simulateGlassBridge guaranteed { playerName := p.name, choice := c, step := p.bridgeStep }
          r))) =
      handleBridgeResult false p c (localResponse (BackendResult.glassbridge
        (simulateGlassBridge guaranteed { playerName := p.name, choice := c, step := p.bridgeStep }
          r))) := by
  cases enforce with
  | false => rfl
  | true =>
    by_cases h0 : p.bridgeStep = 0
    · simp [handleBridgeResult, simulateGlassBridge, localResponse, normalizeSurvived, h0]
    · simp [handleBridgeResult, h0]

/-- One choice of a Glass Bridge turn whose `bridgeState` exists. -/
theorem handleBridgeChoice_spec (s : GameState) (p : Player) (tiles : List (Option String))
    (c : String) (r r2 : ℚ) (hp : getCurrentPlayer s = some p)
    (htiles : p.bridgeState = some tiles) :
    (handleBridgeChoice s c r r2).state.glassBridgeGuaranteedName = s.glassBridgeGuaranteedName ∧
    (handleBridgeChoice s c r r2).survived =
      choiceSurvives s.glassBridgeGuaranteedName p.name p.bridgeStep (c, r) ∧
    ∃ q, getCurrentPlayer (handleBridgeChoice s c r r2).state = some q ∧
      q.name = p.name ∧ q.bridgeState.isSome = true ∧
      (choiceSurvives s.glassBridgeGuaranteedName p.name p.bridgeStep (c, r) = true →
        q.bridgeStep = p.bridgeStep + 1 ∧ q.alive = p.alive ∧
        (handleBridgeChoice s c r r2).report =
          (if p.bridgeStep + 1 ≥ 5 then TurnReport.finished else TurnReport.continueTurn)) ∧
      (choiceSurvives s.glassBridgeGuaranteedName p.name p.bridgeStep (c, r) = false →
        q.bridgeStep = p.bridgeStep ∧ q.alive = false ∧
        (handleBridgeChoice s c r r2).report = TurnReport.eliminated) := by
  unfold handleBridgeChoice handleBridgeChoiceWith
  simp only [hp]
  rw [callBackend_glassbridge]
  have hloc := handleBridgeResult_local true s.glassBridgeGuaranteedName
    { p with lastChoice := some c } c r
  dsimp only at hloc ⊢
  rw [hloc]
  unfold choiceSurvives
  dsimp only
  generalize hsim : simulateGlassBridge s.glassBridgeGuaranteedName
    { playerName := p.name, choice := c, step := p.bridgeStep } r = sim
  refine ⟨rfl, ?_, ?_⟩
  · simp [handleBridgeResult, htiles, localResponse, normalizeSurvived]
    cases sim.survived <;> simp
  · cases hsv : sim.survived with
    | true =>
      refine ⟨_, getCurrentPlayer_setCurrentPlayer s p _ hp, ?_, ?_, ?_, ?_⟩
      · simp [handleBridgeResult, htiles, localResponse, normalizeSurvived, hsv]
      · simp [handleBridgeResult, htiles, localResponse, normalizeSurvived, hsv]
      · intro _
        simp [handleBridgeResult, htiles, localResponse, normalizeSurvived, hsv]
      · intro hc
        exact Bool.noConfusion hc
    | false =>
      refine ⟨_, getCurrentPlayer_setCurrentPlayer s p _ hp, ?_, ?_, ?_, ?_⟩
      · simp [handleBridgeResult, htiles, localResponse, normalizeSurvived, hsv]
        split_ifs <;> rfl
      · simp [handleBridgeResult, htiles, localResponse, normalizeSurvived, hsv]
        split_ifs <;> rfl
      · intro hc
        exact Bool.noConfusion hc
      · intro _
        simp [handleBridgeResult, htiles, localResponse, normalizeSurvived, hsv]
        split_ifs <;> rfl


theorem assignGuarantee_frame (s s1 : GameState) (r : ℚ) (h : assignGuarantee s r = some s1) :
    s1.players = s.players ∧ s1.currentPlayerIndex = s.currentPlayerIndex := by
  unfold assignGuarantee at h
  by_cases hset : guaranteedNameSet s.glassBridgeGuaranteedName = true
  · simp only [hset, Bool.not_true, Bool.false_eq_true, if_false, Option.some.injEq] at h
    rw [← h]; exact ⟨rfl, rfl⟩
  · have hset2 : guaranteedNameSet s.glassBridgeGuaranteedName = false := by simpa using hset
    simp only [hset2, Bool.not_false, if_true] at h
    by_cases h3 : (getAlivePlayers s).length ≥ 3
    · simp only [h3, if_true] at h
      cases hj : jsIndex (getAlivePlayers s) ⌊r * ((getAlivePlayers s).length : ℚ)⌋ with
      | none => simp only [hj] at h; exact Option.noConfusion h
      | some pick =>
        simp only [hj, Option.some.injEq] at h
        rw [← h]; exact ⟨rfl, rfl⟩
    · simp only [h3, if_false, Option.some.injEq] at h
      rw [← h]; exact ⟨rfl, rfl⟩

theorem assignGuarantee_isSome (s : GameState) (r : ℚ) (h0 : 0 ≤ r) (h1 : r < 1) :
    ∃ s1, assignGuarantee s r = some s1 := by
  unfold assignGuarantee
  by_cases hset : guaranteedNameSet s.glassBridgeGuaranteedName = true
  · exact ⟨s, by simp [hset]⟩
  · have hset2 : guaranteedNameSet s.glassBridgeGuaranteedName = false := by simpa using hset
    by_cases h3 : (getAlivePlayers s).length ≥ 3
    · obtain ⟨a, hpick⟩ := jsIndex_floor_isSome (getAlivePlayers s) r h0 h1 (by omega)
      exact ⟨{ s with glassBridgeGuaranteedName := some a.name },
        by simp only [hset2, Bool.not_false, if_true, h3, hpick]⟩
    · exact ⟨s, by simp [hset2, h3]⟩

theorem startGlassBridge_current (s : GameState) (r : ℚ) (p : Player)
    (hp : getCurrentPlayer s = some p) (h0 : 0 ≤ r) (h1 : r < 1) :
    ∃ q, getCurrentPlayer (startGlassBridge s r) = some q ∧ q.name = p.name ∧
      q.alive = p.alive ∧ q.bridgeStep = 0 ∧ q.bridgeState = some (List.replicate 5 none) := by
  obtain ⟨s1, ha⟩ := assignGuarantee_isSome s r h0 h1
  have hs1 := assignGuarantee_frame s s1 r ha
  unfold startGlassBridge
  rw [ha]
  unfold getCurrentPlayer at hp ⊢
  dsimp only
  rw [hs1.1, hs1.2, List.getElem?_modify_eq, hp]
  exact ⟨_, rfl, rfl, rfl, rfl, rfl⟩

/-- Lines 1128-1153 of `handleBridgeChoice` leave the player object that the handler run
to its end leaves, but for `alive`, which the run sets to `false` only later, after its
timers, when the step was not survived. -/
theorem markBridgeStep_handleBridgeResult (p : Player) (c : String) (res : OracleResponse)
    (tiles : List (Option String)) (h : p.bridgeState = some tiles) :
    ∃ q sv, markBridgeStep p c res = some (q, sv) ∧
      (handleBridgeResult true p c res).survived = sv ∧
      (handleBridgeResult true p c res).player = (if sv then q else { q with alive := false }) ∧
      q.alive = p.alive ∧ q.bridgeStep = (if sv then p.bridgeStep + 1 else p.bridgeStep) := by
  unfold markBridgeStep handleBridgeResult
  by_cases h0 : p.bridgeStep = 0
  · simp [h0, h]
  · by_cases hs : normalizeSurvived res.survived = true
    · simp [h0, h, hs]
    · simp [h0, h, hs]

/-- A tile press locks the tiles: whatever the state, the side and the draw, no tile is
clickable when the handler reaches its first timer. -/
theorem tilePointerDown_locks (side : String) (r : ℚ) (u : BridgeScreen) :
    (tilePointerDown side r u).clickableRow = none ∧
    (tilePointerDown side r u).handled = u.handled + 1 := by
  unfold tilePointerDown beginBridgeChoice disableBridgeInteractivity
  dsimp only
  cases hp : getCurrentPlayer u.game with
  | none => exact ⟨rfl, rfl⟩
  | some player =>
    dsimp only
    split <;> exact ⟨rfl, rfl⟩

/-- A timeout-made choice does not lock the tiles: when the tile breaks, the row that was
clickable stays clickable while the run waits its 400 ms. -/
theorem handleTimeout_keeps_tiles (r1 r2 : ℚ) (u : BridgeScreen) (p : Player)
    (tiles : List (Option String)) (hp : getCurrentPlayer u.game = some p)
    (htiles : p.bridgeState = some tiles) (hstep : p.bridgeStep ≠ 0)
    (hfail : (simulateGlassBridge u.game.glassBridgeGuaranteedName
      { playerName := p.name, choice := if r1 < 0.5 then "left" else "right",
        step := p.bridgeStep } r2).survived = false) :
    (handleTimeout r1 r2 u).clickableRow = u.clickableRow ∧
    (handleTimeout r1 r2 u).handled = u.handled + 1 ∧
    BridgeTimer.mk (u.now + 400)
        (BridgeCallback.resume u.game.currentPlayerIndex false BridgeAwait.brokenTile)
      ∈ (handleTimeout r1 r2 u).timers := by
  unfold handleTimeout beginBridgeChoice
  simp only [hp]
  have hcb : callBackend
      (stopActionTimer { u with
        game := setCurrentPlayer u.game
          { p with lastChoice := some (if r1 < 0.5 then "left" else "right") },
        handled := u.handled + 1 }).game "/glassbridge"
      { playerName := p.name, choice := if r1 < 0.5 then "left" else "right",
        step := p.bridgeStep } none r2 0
      = localResponse (BackendResult.glassbridge
          (simulateGlassBridge u.game.glassBridgeGuaranteedName
            { playerName := p.name, choice := if r1 < 0.5 then "left" else "right",
              step := p.bridgeStep } r2)) := by
    rw [callBackend_glassbridge]
    rfl
  rw [hcb]
  have hmark : ∃ q, markBridgeStep { p with lastChoice := some (if r1 < 0.5 then "left" else "right") }
      (if r1 < 0.5 then "left" else "right")
      (localResponse (BackendResult.glassbridge
          (simulateGlassBridge u.game.glassBridgeGuaranteedName
            { playerName := p.name, choice := if r1 < 0.5 then "left" else "right",
              step := p.bridgeStep } r2))) = some (q, false) := by
    simp [markBridgeStep, hstep, htiles, localResponse, normalizeSurvived, hfail]
  obtain ⟨q, hq⟩ := hmark
  rw [hq]
  simp [setTimer, stopActionTimer]

/-- C23 at the failing input. Two players; the first survives four steps by tile presses
and lets the action timer run out on the fifth. The timeout picks a side, the tile
breaks, and for the 400 ms before the tiles are rebuilt row 4 keeps its pointer
handlers: `handleTimeout` does not lock them. A press at 13700 ms, 100 ms after the
timeout, is handled as a sixth choice and raises `bridgeStep` from 4 to 5 after the
failed choice. When the pending timers have fired, the first player has `bridgeStep = 5`
and `alive = false`, `moveToNextPlayer` has run twice, and the session is in mini-game 2
with the second player still at `bridgeStep = 0`. Had the fifth choice been a tile press
(at 13500 ms, same draw), the press that follows would find no clickable tile. -/
theorem glassBridge_choice_after_failed_timeout :
    (runBridge (startBridgeTurn 0 { game := twoPlayerBridge })
        (fourSafeSteps ++ nineTicks ++ [timeoutBreaks])).map
      (fun u => (u.handled, u.clickableRow, u.now))
      = some (5, some 4, 13600) ∧
    (runBridge (startBridgeTurn 0 { game := twoPlayerBridge })
        (fourSafeSteps ++ nineTicks ++ [timeoutBreaks])).map
      (fun u => u.game.players.map (fun p => (p.bridgeStep, p.alive)))
      = some [(4, true), (0, true)] ∧
    (runBridge (startBridgeTurn 0 { game := twoPlayerBridge })
        (fourSafeSteps ++ nineTicks ++ [timeoutBreaks, BridgeEvent.click 13700 "right" 0])).map
      (fun u => (u.handled, u.clickableRow, u.now))
      = some (6, none, 13700) ∧
    (runBridge (startBridgeTurn 0 { game := twoPlayerBridge })
        (fourSafeSteps ++ nineTicks ++ [timeoutBreaks, BridgeEvent.click 13700 "right" 0])).map
      (fun u => u.game.players.map (fun p => (p.bridgeStep, p.alive)))
      = some [(5, true), (0, true)] ∧
    (runBridge (startBridgeTurn 0 { game := twoPlayerBridge })
        (fourSafeSteps ++ nineTicks ++ [timeoutBreaks, BridgeEvent.click 13700 "right" 0]
          ++ List.replicate 6 (BridgeEvent.timer 0 0))).map
      (fun u => (u.handled, u.moved, u.active, u.timers))
      = some (6, 2, false, []) ∧
    (runBridge (startBridgeTurn 0 { game := twoPlayerBridge })
        (fourSafeSteps ++ nineTicks ++ [timeoutBreaks, BridgeEvent.click 13700 "right" 0]
          ++ List.replicate 6 (BridgeEvent.timer 0 0))).map
      (fun u => (u.game.currentGameIndex, u.game.players.map (fun p => (p.bridgeStep, p.alive))))
      = some (2, [(5, false), (0, true)]) ∧
    (runBridge (startBridgeTurn 0 { game := twoPlayerBridge })
        (fourSafeSteps ++ nineTicks ++ [BridgeEvent.click 13500 "left" 0.9])).map
      (fun u => (u.handled, u.clickableRow, u.now))
      = some (5, none, 13500) ∧
    runBridge (startBridgeTurn 0 { game := twoPlayerBridge })
        (fourSafeSteps ++ nineTicks ++
          [BridgeEvent.click 13500 "left" 0.9, BridgeEvent.click 13600 "right" 0])
      = none := by
  decide!

theorem handleBridgeChoiceWith_enforce (enforce : Bool) (s : GameState) (choice : String)
    (r1 r2 : ℚ) :
    handleBridgeChoiceWith enforce s choice r1 r2 = handleBridgeChoiceWith false s choice r1 r2 := by
  unfold handleBridgeChoiceWith
  cases hp : getCurrentPlayer s with
  | none => rfl
  | some p =>
    dsimp only
    rw [callBackend_glassbridge]
    have hloc := handleBridgeResult_local enforce s.glassBridgeGuaranteedName
      { p with lastChoice := some choice } choice r1
    dsimp only at hloc
    rw [hloc]

/-- On a response the local resolver did not produce, the caller-side rule decides: at
step 0 a response that reports a failure eliminates the player only without it. -/
theorem first_step_override_decides_foreign_response (p : Player) (choice : String)
    (hstep : p.bridgeStep = 0) :
    (handleBridgeResult true p choice { survived := JsVal.bool false }).survived = true ∧
    (handleBridgeResult false p choice { survived := JsVal.bool false }).survived = false ∧
    (handleBridgeResult false p choice { survived := JsVal.bool false }).report
      = TurnReport.eliminated := by
  cases hb : p.bridgeState <;> simp [handleBridgeResult, hstep, hb, normalizeSurvived]

/-- C25. The caller-side first-step rule of `handleBridgeChoice` is redundant: since
`callBackend` routes `/glassbridge` to the local resolver, for every state, choice and
draw the outcome of `handleBridgeChoice` (state with the bridge fields and `alive` of
the player, shown `survived`, `correctChoice` and `message`, report) is the outcome of
the handler with that rule removed, and so is the state after the handler ends the
turn. At `bridgeStep = 0` both show `survived = true`, the chosen side as correct and the
message `"Safe step!"`. -/
theorem first_step_override_redundant (s : GameState) (choice : String) (r1 r2 : ℚ) :
    handleBridgeChoice s choice r1 r2 = handleBridgeChoiceNoOverride s choice r1 r2 ∧
    finishTurn (handleBridgeChoice s choice r1 r2).state
        (handleBridgeChoice s choice r1 r2).report =
      finishTurn (handleBridgeChoiceNoOverride s choice r1 r2).state
        (handleBridgeChoiceNoOverride s choice r1 r2).report ∧
    (∀ p tiles, getCurrentPlayer s = some p → p.bridgeStep = 0 → p.bridgeState = some tiles →
      (handleBridgeChoiceNoOverride s choice r1 r2).survived = true ∧
      (handleBridgeChoiceNoOverride s choice r1 r2).correctChoice = choice ∧
      (handleBridgeChoiceNoOverride s choice r1 r2).message = "Safe step!" ∧
      (getCurrentPlayer (handleBridgeChoiceNoOverride s choice r1 r2).state).map
        (fun q => (q.alive, q.bridgeStep)) = some (p.alive, 1)) := by
  have heq : handleBridgeChoice s choice r1 r2 = handleBridgeChoiceNoOverride s choice r1 r2 :=
    handleBridgeChoiceWith_enforce true s choice r1 r2
  refine ⟨heq, by rw [heq], ?_⟩
  intro p tiles hp hstep htiles
  have hcur := getCurrentPlayer_setCurrentPlayer s p
  unfold handleBridgeChoiceNoOverride handleBridgeChoiceWith
  simp only [hp]
  rw [callBackend_glassbridge]
  refine ⟨?_, ?_, ?_, ?_⟩
  · simp [handleBridgeResult, simulateGlassBridge, localResponse, normalizeSurvived, hstep,
      htiles]
  · simp [handleBridgeResult, simulateGlassBridge, localResponse, normalizeSurvived, hstep,
      htiles]
  · simp [handleBridgeResult, simulateGlassBridge, localResponse, normalizeSurvived, hstep,
      htiles]
  · rw [hcur _ hp]
    simp [handleBridgeResult, simulateGlassBridge, localResponse, normalizeSurvived, hstep,
      htiles]

end SquidGame
